import Mathlib

/-! Verification development for the kube-lineage relationship resolution
engine (package `internal/graph` of github.com/tohjustin/kube-lineage).

The Go source is embedded shallowly:

  * Go strings are Lean `String`s.
  * Go maps are association lists (`List (key × value)`) with
    update-in-place insertion; iterating an association list in insertion
    order is a deterministic refinement of Go's unspecified map iteration
    order.
  * The mutable `*Node` heap is a `Store := List NodeData`; a node pointer
    is the index of the originating object in the input object list.
  * The typed Kubernetes API structs that the extractors decode objects
    into (`runtime.DefaultUnstructuredConverter.FromUnstructured`) are
    modelled by a `Manifest` record carried on each object: absent fields
    decode to Go zero values, which is exactly what record defaults give.
    The only extractor that reads the raw unstructured content instead of
    a decoded struct is the Event extractor (`GetNestedString`), so the
    raw content is modelled separately as a two-level association list.
  * Label-selector validation (`labels.ValidatedSelectorFromSet`,
    `metav1.LabelSelectorAsSelector`) only fails on malformed label data;
    those failure paths make `resolveDeps` skip the object and are not
    reachable from the selector data representable here, so selector
    construction is modelled as total.
  * The BFS loop of `resolveDeps` can genuinely diverge (its sentinel is
    the empty UID string), so it is embedded fuel-indexed; running out of
    fuel is a distinct outcome and theorems about results are partial
    correctness statements, matching "the returned NodeMap".
-/

namespace KubeLineage

/-- Lookup in an association list modelling a Go map read. -/
def alookup {α : Type} : List (String × α) → String → Option α
  | [], _ => none
  | (k', v) :: t, k => if k' = k then some v else alookup t k

/-- Insertion modelling a Go map write: update in place when the key is
present, append otherwise.  Keys therefore stay unique. -/
def aInsert {α : Type} : List (String × α) → String → α → List (String × α)
  | [], k, v => [(k, v)]
  | (k', v') :: t, k, v =>
      if k' = k then (k', v) :: t else (k', v') :: aInsert t k v

/-- A relationship name (Go `type Relationship string`). -/
abbrev Relationship := String

/-- A `RelationshipSet` as an insertion-ordered duplicate-free list. -/
abbrev RelSet := List Relationship

/-- Set insert for `RelSet` (Go `set[r] = struct{}{}`). -/
def insertRel (s : RelSet) (r : Relationship) : RelSet :=
  if s.contains r then s else s ++ [r]

/-- Insert a string into a sorted list of strings. -/
def insertSorted (s : String) : List String → List String
  | [] => [s]
  | t :: ts => if s ≤ t then s :: t :: ts else t :: insertSorted s ts

/-- Insertion sort for strings; models the sorted printing that both
`fmt` (for map keys) and `labels.Requirement.String` (for values) use. -/
def sortStrings : List String → List String
  | [] => []
  | s :: ts => insertSorted s (sortStrings ts)

/-- Go `strings.Join` (and the join used by selector printing): parts
joined by a separator. -/
def joinSep (sep : String) : List String → String
  | [] => ""
  | [a] => a
  | a :: b :: t => a ++ sep ++ joinSep sep (b :: t)

/-- A single requirement of a Kubernetes label selector
(`labels.Requirement`).  Only the operators that the extractors can
construct are modelled: `=` (from map-based selectors and
`matchLabels`), `in`, `notin`, `exists` and `!`. -/
inductive SelReq where
  | eqReq (key value : String)
  | inReq (key : String) (values : List String)
  | notInReq (key : String) (values : List String)
  | existsReq (key : String)
  | notExistsReq (key : String)
  deriving DecidableEq, Repr

/-- A `labels.Selector` (internalSelector): a list of requirements. -/
abbrev Selector := List SelReq

/-- Matching of one requirement against a label set, following
`labels.Requirement.Matches`. -/
def reqMatches (r : SelReq) (lbls : List (String × String)) : Bool :=
  match r with
  | .eqReq k v =>
      match alookup lbls k with
      | some w => w = v
      | none => false
  | .inReq k vs =>
      match alookup lbls k with
      | some w => vs.contains w
      | none => false
  | .notInReq k vs =>
      match alookup lbls k with
      | some w => !(vs.contains w)
      | none => true
  | .existsReq k => (alookup lbls k).isSome
  | .notExistsReq k => !(alookup lbls k).isSome

/-- Selector matching (`labels.internalSelector.Matches`): every
requirement must match.  The empty selector (`labels.Everything()`)
matches every label set. -/
def selMatches (sel : Selector) (lbls : List (String × String)) : Bool :=
  sel.all (fun r => reqMatches r lbls)

/-- String form of one requirement (`labels.Requirement.String`); `in`
and `notin` print their value sets sorted. -/
def reqString (r : SelReq) : String :=
  match r with
  | .eqReq k v => k ++ "=" ++ v
  | .inReq k vs => k ++ " in (" ++ joinSep "," (sortStrings vs) ++ ")"
  | .notInReq k vs => k ++ " notin (" ++ joinSep "," (sortStrings vs) ++ ")"
  | .existsReq k => k
  | .notExistsReq k => "!" ++ k

/-- String form of a selector (`labels.internalSelector.String`):
requirements joined by commas; the empty selector prints as `""`. -/
def selString (sel : Selector) : String :=
  joinSep "," (sel.map reqString)

/-- A `metav1.LabelSelector` expression operator. -/
inductive LSOp where
  | opIn
  | opNotIn
  | opExists
  | opDoesNotExist
  deriving DecidableEq, Repr

/-- A `metav1.LabelSelectorRequirement`. -/
structure MatchExpr where
  key : String
  op : LSOp
  values : List String
  deriving DecidableEq, Repr

/-- A `metav1.LabelSelector`. -/
structure LabelSelectorSpec where
  matchLabels : List (String × String) := []
  matchExpressions : List MatchExpr := []
  deriving DecidableEq, Repr

/-- The requirements that `metav1.LabelSelectorAsSelector` builds:
equality requirements from `matchLabels`, then the expression
requirements.  Validation failures are not representable here. -/
def labelSelectorAsSelector (ls : LabelSelectorSpec) : Selector :=
  ls.matchLabels.map (fun kv => SelReq.eqReq kv.1 kv.2) ++
    ls.matchExpressions.map (fun e =>
      match e.op with
      | .opIn => SelReq.inReq e.key e.values
      | .opNotIn => SelReq.notInReq e.key e.values
      | .opExists => SelReq.existsReq e.key
      | .opDoesNotExist => SelReq.notExistsReq e.key)

/-- The selector that `labels.ValidatedSelectorFromSet` builds from a
plain label map: one equality requirement per entry. -/
def selectorFromSet (set : List (String × String)) : Selector :=
  set.map (fun kv => SelReq.eqReq kv.1 kv.2)

/-- Go `fmt` rendering of a `sets.String` (a `map[string]struct{}`):
`map[k1:\x7b\x7d k2:\x7b\x7d]` with the keys sorted. -/
def printStringSet (nss : List String) : String :=
  "map[" ++ joinSep " " ((sortStrings nss).map (fun s => s ++ ":\x7b\x7d")) ++ "]"

/-- `ObjectLabelSelector`: a reference to a collection of objects by
label selector. -/
structure ObjectLabelSelector where
  Group : String := ""
  Kind : String := ""
  Namespace : String := ""
  Selector : Selector := []
  deriving DecidableEq, Repr

/-- `ObjectLabelSelector.Key`: the Go source formats
`"%s\\%s\\%s\\%s"` over Group, Kind, Namespace and the selector's
string form. -/
def ObjectLabelSelector.Key (o : ObjectLabelSelector) : String :=
  o.Group ++ "\\" ++ o.Kind ++ "\\" ++ o.Namespace ++ "\\" ++ selString o.Selector

/-- `ObjectSelector`: a reference to all objects of a kind, optionally
restricted to a namespace set. -/
structure ObjectSelector where
  Group : String := ""
  Kind : String := ""
  Namespaces : List String := []
  deriving DecidableEq, Repr

/-- `ObjectSelector.Key`: the Go source formats `"%s\\%s\\%s"` over
Group, Kind and the `sets.String` of namespaces. -/
def ObjectSelector.Key (o : ObjectSelector) : String :=
  o.Group ++ "\\" ++ o.Kind ++ "\\" ++ printStringSet o.Namespaces

/-- `ObjectReference`: a reference to a single object by API
coordinates. -/
structure ObjectReference where
  Group : String := ""
  Kind : String := ""
  Namespace : String := ""
  Name : String := ""
  deriving DecidableEq, Repr

/-- `ObjectReference.Key`: the Go source formats `"%s\\%s\\%s\\%s"`
over Group, Kind, Namespace and Name. -/
def ObjectReference.Key (o : ObjectReference) : String :=
  o.Group ++ "\\" ++ o.Kind ++ "\\" ++ o.Namespace ++ "\\" ++ o.Name

/-- `RelationshipMap`: the per-object scratch structure an extractor
returns, with six pending-edge buckets plus the two side maps recording
the selector objects behind their keys. -/
structure RelationshipMap where
  DependenciesByLabelSelector : List (String × RelSet) := []
  DependenciesByRef : List (String × RelSet) := []
  DependenciesBySelector : List (String × RelSet) := []
  DependenciesByUID : List (String × RelSet) := []
  DependentsByLabelSelector : List (String × RelSet) := []
  DependentsByRef : List (String × RelSet) := []
  DependentsBySelector : List (String × RelSet) := []
  DependentsByUID : List (String × RelSet) := []
  ObjectLabelSelectors : List (String × ObjectLabelSelector) := []
  ObjectSelectors : List (String × ObjectSelector) := []
  deriving DecidableEq, Repr

/-- `newRelationshipMap`: all buckets empty. -/
def newRelationshipMap : RelationshipMap := {}

/-- Shared body of the `Add*` methods: ensure the key has a set, then
add the relationship to it. -/
def addRelAt (m : List (String × RelSet)) (k : String) (r : Relationship) :
    List (String × RelSet) :=
  match alookup m k with
  | some s => aInsert m k (insertRel s r)
  | none => aInsert m k (insertRel [] r)

/-- `RelationshipMap.AddDependencyByKey`. -/
def RelationshipMap.AddDependencyByKey (m : RelationshipMap) (k : String)
    (r : Relationship) : RelationshipMap :=
  { m with DependenciesByRef := addRelAt m.DependenciesByRef k r }

/-- `RelationshipMap.AddDependencyByLabelSelector`. -/
def RelationshipMap.AddDependencyByLabelSelector (m : RelationshipMap)
    (o : ObjectLabelSelector) (r : Relationship) : RelationshipMap :=
  { m with
    DependenciesByLabelSelector := addRelAt m.DependenciesByLabelSelector o.Key r
    ObjectLabelSelectors := aInsert m.ObjectLabelSelectors o.Key o }

/-- `RelationshipMap.AddDependencyBySelector`. -/
def RelationshipMap.AddDependencyBySelector (m : RelationshipMap)
    (o : ObjectSelector) (r : Relationship) : RelationshipMap :=
  { m with
    DependenciesBySelector := addRelAt m.DependenciesBySelector o.Key r
    ObjectSelectors := aInsert m.ObjectSelectors o.Key o }

/-- `RelationshipMap.AddDependencyByUID`. -/
def RelationshipMap.AddDependencyByUID (m : RelationshipMap) (uid : String)
    (r : Relationship) : RelationshipMap :=
  { m with DependenciesByUID := addRelAt m.DependenciesByUID uid r }

/-- `RelationshipMap.AddDependentByKey`. -/
def RelationshipMap.AddDependentByKey (m : RelationshipMap) (k : String)
    (r : Relationship) : RelationshipMap :=
  { m with DependentsByRef := addRelAt m.DependentsByRef k r }

/-- `RelationshipMap.AddDependentByLabelSelector`. -/
def RelationshipMap.AddDependentByLabelSelector (m : RelationshipMap)
    (o : ObjectLabelSelector) (r : Relationship) : RelationshipMap :=
  { m with
    DependentsByLabelSelector := addRelAt m.DependentsByLabelSelector o.Key r
    ObjectLabelSelectors := aInsert m.ObjectLabelSelectors o.Key o }

/-- `RelationshipMap.AddDependentBySelector`. -/
def RelationshipMap.AddDependentBySelector (m : RelationshipMap)
    (o : ObjectSelector) (r : Relationship) : RelationshipMap :=
  { m with
    DependentsBySelector := addRelAt m.DependentsBySelector o.Key r
    ObjectSelectors := aInsert m.ObjectSelectors o.Key o }

/-- `RelationshipMap.AddDependentByUID`. -/
def RelationshipMap.AddDependentByUID (m : RelationshipMap) (uid : String)
    (r : Relationship) : RelationshipMap :=
  { m with DependentsByUID := addRelAt m.DependentsByUID uid r }

/-- `metav1.OwnerReference`, with the `Controller *bool` pointer field
collapsed to the condition the resolver tests
(`ref.Controller != nil && *ref.Controller`). -/
structure OwnerReference where
  uid : String := ""
  controller : Bool := false
  deriving DecidableEq, Repr

/-- `rbacv1.PolicyRule`. -/
structure PolicyRule where
  apiGroups : List String := []
  resources : List String := []
  verbs : List String := []
  resourceNames : List String := []
  deriving DecidableEq, Repr

/-- A typed resource reference inside an Ingress backend or an
IngressClass parameters field (`APIGroup *string`, Kind, Name). -/
structure ResourceRef where
  apiGroup : Option String := none
  kind : String := ""
  name : String := ""
  deriving DecidableEq, Repr

/-- An Ingress backend; `serviceName` is the `extensions/v1beta1`
string field, `service` the `networking.k8s.io/v1` pointer field (the
service name when present).  A given object populates only the fields
of its own API group. -/
structure IngressBackend where
  resource : Option ResourceRef := none
  serviceName : String := ""
  service : Option String := none
  deriving DecidableEq, Repr

/-- An Ingress TLS entry (only `secretName` is read). -/
structure IngressTLS where
  secretName : String := ""
  deriving DecidableEq, Repr

/-- An Ingress spec in the shape both API groups decode to: `backend`
is the `extensions` default backend, `defaultBackend` the `networking`
one; each rule is `none` when its HTTP section is nil, otherwise the
list of its paths' backends. -/
structure IngressSpec where
  ingressClassName : Option String := none
  backend : Option IngressBackend := none
  defaultBackend : Option IngressBackend := none
  rules : List (Option (List IngressBackend)) := []
  tls : List IngressTLS := []
  deriving DecidableEq, Repr

/-- `ingressClassv1.IngressClassParametersReference`. -/
structure IngressClassParametersRef where
  apiGroup : Option String := none
  kind : String := ""
  name : String := ""
  nsRef : Option String := none
  deriving DecidableEq, Repr

/-- An `EnvFromSource`: the name of the referenced ConfigMap or Secret
when the respective pointer is non-nil. -/
structure EnvFromSource where
  configMapRef : Option String := none
  secretRef : Option String := none
  deriving DecidableEq, Repr

/-- An `EnvVarSource` (`valueFrom`): referenced ConfigMap/Secret key
selector names. -/
structure EnvValueFrom where
  configMapKeyRef : Option String := none
  secretKeyRef : Option String := none
  deriving DecidableEq, Repr

/-- A container: only the environment references are read. Each `env`
entry models one `EnvVar`'s optional `ValueFrom`. -/
structure Container where
  envFrom : List EnvFromSource := []
  env : List (Option EnvValueFrom) := []
  deriving DecidableEq, Repr

/-- A projected volume source entry: ConfigMap or Secret name. -/
structure ProjectedSource where
  configMap : Option String := none
  secret : Option String := none
  deriving DecidableEq, Repr

/-- A CSI volume source inside a Pod volume. -/
structure PodCSISource where
  driver : String := ""
  nodePublishSecretRef : Option String := none
  deriving DecidableEq, Repr

/-- A Pod volume source; pointer fields are `Option`s and the extractor
switches on them in source order. -/
structure Volume where
  configMap : Option String := none
  csi : Option PodCSISource := none
  persistentVolumeClaim : Option String := none
  projected : Option (List ProjectedSource) := none
  secret : Option String := none
  deriving DecidableEq, Repr

/-- The parts of a `corev1.PodSpec` the Pod extractor reads. -/
structure PodSpec where
  initContainers : List Container := []
  containers : List Container := []
  imagePullSecrets : List String := []
  nodeName : String := ""
  priorityClassName : String := ""
  runtimeClassName : Option String := none
  serviceAccountName : String := ""
  volumes : List Volume := []
  deriving DecidableEq, Repr

/-- A CSI persistent volume source with its four secret references
(name, namespace pairs). -/
structure PVCSISource where
  driver : String := ""
  controllerExpandSecretRef : Option (String × String) := none
  controllerPublishSecretRef : Option (String × String) := none
  nodePublishSecretRef : Option (String × String) := none
  nodeStageSecretRef : Option (String × String) := none
  deriving DecidableEq, Repr

/-- The parts of a `corev1.PersistentVolumeSpec` the extractor reads;
`claimRef` is the claim's name. -/
structure PVSpec where
  claimRef : Option String := none
  csi : Option PVCSISource := none
  storageClassName : String := ""
  deriving DecidableEq, Repr

/-- `rbacv1.Subject`. -/
structure Subject where
  apiGroup : String := ""
  kind : String := ""
  ns : String := ""
  name : String := ""
  deriving DecidableEq, Repr

/-- `rbacv1.RoleRef`. -/
structure RoleRef where
  apiGroup : String := ""
  kind : String := ""
  name : String := ""
  deriving DecidableEq, Repr

/-- The PodSecurityPolicy `runtimeClass` strategy options. -/
structure PSPRuntimeClass where
  allowedRuntimeClassNames : List String := []
  defaultRuntimeClassName : Option String := none
  deriving DecidableEq, Repr

/-- A VolumeAttachment inline volume spec (claim reference as
name × namespace). -/
structure InlineVolumeSpec where
  claimRef : Option (String × String) := none
  storageClassName : String := ""
  csi : Option PVCSISource := none
  deriving DecidableEq, Repr

/-- A VolumeAttachment source. -/
structure VASource where
  persistentVolumeName : Option String := none
  inlineVolumeSpec : Option InlineVolumeSpec := none
  deriving DecidableEq, Repr

/-- The decoded, type-specific view of an object's manifest: the union
of every field some extractor reads after converting the unstructured
payload to its typed struct.  Fields irrelevant to an object's kind stay
at their Go zero values, exactly as the unstructured converter would
leave them. -/
structure Manifest where
  serviceSelector : List (String × String) := []
  aggregationRule : Option (List LabelSelectorSpec) := none
  rules : List PolicyRule := []
  subjects : List Subject := []
  roleRef : RoleRef := {}
  ingress : IngressSpec := {}
  ingressClassParameters : Option IngressClassParametersRef := none
  pod : PodSpec := {}
  pv : PVSpec := {}
  pvcVolumeName : String := ""
  saImagePullSecrets : List String := []
  saSecrets : List String := []
  pspAllowedCSIDrivers : List String := []
  pspRuntimeClass : Option PSPRuntimeClass := none
  pdbSelector : Option LabelSelectorSpec := none
  webhookServices : List (Option (String × String)) := []
  apiServiceService : Option (String × String) := none
  netpolPodSelector : LabelSelectorSpec := {}
  rcScheduling : Option (List (String × String)) := none
  csiStorageCapacityClassName : String := ""
  csiNodeDrivers : List String := []
  scProvisioner : String := ""
  va : VASource := {}
  vaAttacher : String := ""
  vaNodeName : String := ""
  deriving DecidableEq, Repr

/-- An input object as handed to the resolver: its GroupVersionKind and
metadata, the decoded manifest view, and the raw two-level content the
Event extractor walks with `GetNestedString`. -/
structure K8sObject where
  group : String := ""
  version : String := ""
  kind : String := ""
  name : String := ""
  ns : String := ""
  uid : String := ""
  labels : List (String × String) := []
  annotations : List (String × String) := []
  ownerReferences : List OwnerReference := []
  manifest : Manifest := {}
  content : List (String × List (String × String)) := []
  deriving DecidableEq, Repr

instance : Inhabited K8sObject := ⟨{}⟩

/-- The part of a `meta.RESTMapping` the resolver reads:
`m.Resource.Group/Version/Resource` and `m.GroupVersionKind.Kind`. -/
structure RESTMapping where
  group : String := ""
  version : String := ""
  kind : String := ""
  resource : String := ""
  deriving DecidableEq, Repr

/-- The resolver's `Node` record.  `obj` is the embedded unstructured
payload. -/
structure NodeData where
  obj : K8sObject := {}
  UID : String := ""
  Group : String := ""
  Version : String := ""
  Kind : String := ""
  Resource : String := ""
  Namespaced : Bool := false
  Namespace : String := ""
  Name : String := ""
  OwnerReferences : List OwnerReference := []
  Dependencies : List (String × RelSet) := []
  Dependents : List (String × RelSet) := []
  Depth : Nat := 0
  deriving DecidableEq, Repr

instance : Inhabited NodeData := ⟨{}⟩

/-- `Node.AddDependency`. -/
def NodeData.AddDependency (n : NodeData) (uid : String) (r : Relationship) :
    NodeData :=
  { n with Dependencies := addRelAt n.Dependencies uid r }

/-- `Node.AddDependent`. -/
def NodeData.AddDependent (n : NodeData) (uid : String) (r : Relationship) :
    NodeData :=
  { n with Dependents := addRelAt n.Dependents uid r }

/-- `Node.GetDeps`. -/
def NodeData.GetDeps (n : NodeData) (depsIsDependencies : Bool) :
    List (String × RelSet) :=
  if depsIsDependencies then n.Dependencies else n.Dependents

/-- `Node.GetObjectReferenceKey`. -/
def NodeData.GetObjectReferenceKey (n : NodeData) : String :=
  ObjectReference.Key ⟨n.Group, n.Kind, n.Namespace, n.Name⟩

/-- `GetLabels` of the embedded unstructured payload. -/
def NodeData.GetLabels (n : NodeData) : List (String × String) :=
  n.obj.labels

/-- `GetNestedString` over the raw content, for the two-level paths the
Event extractor uses.  A missing field or level yields `""`. -/
def NodeData.GetNestedString2 (n : NodeData) (f1 f2 : String) : String :=
  match alookup n.obj.content f1 with
  | some inner => (alookup inner f2).getD ""
  | none => ""

/-- The node heap: node pointers are indices into this list (each node
is created from the input object at the same position). -/
abbrev Store := List NodeData

/-- Dereference a node pointer. -/
def getN (st : Store) (i : Nat) : NodeData :=
  (st.get? i).getD {}

/-- Mutate the node a pointer refers to. -/
def setN (st : Store) (i : Nat) (f : NodeData → NodeData) : Store :=
  st.set i (f (getN st i))

/-- Relationship name constant. -/
def RelationshipAPIService : Relationship := "APIService"

/-- Relationship name constant. -/
def RelationshipClusterRoleAggregationRule : Relationship := "ClusterRoleAggregationRule"

/-- Relationship name constant. -/
def RelationshipClusterRolePolicyRule : Relationship := "ClusterRolePolicyRule"

/-- Relationship name constant. -/
def RelationshipClusterRoleBindingSubject : Relationship := "ClusterRoleBindingSubject"

/-- Relationship name constant. -/
def RelationshipClusterRoleBindingRole : Relationship := "ClusterRoleBindingRole"

/-- Relationship name constant. -/
def RelationshipRoleBindingSubject : Relationship := "RoleBindingSubject"

/-- Relationship name constant. -/
def RelationshipRoleBindingRole : Relationship := "RoleBindingRole"

/-- Relationship name constant. -/
def RelationshipRolePolicyRule : Relationship := "RolePolicyRule"

/-- Relationship name constant. -/
def RelationshipCSINodeDriver : Relationship := "CSINodeDriver"

/-- Relationship name constant. -/
def RelationshipCSIStorageCapacityStorageClass : Relationship := "CSIStorageCapacityStorageClass"

/-- Relationship name constant. -/
def RelationshipEventRegarding : Relationship := "EventRegarding"

/-- Relationship name constant. -/
def RelationshipEventRelated : Relationship := "EventRelated"

/-- Relationship name constant. -/
def RelationshipIngressClass : Relationship := "IngressClass"

/-- Relationship name constant. -/
def RelationshipIngressClassParameters : Relationship := "IngressClassParameters"

/-- Relationship name constant. -/
def RelationshipIngressResource : Relationship := "IngressResource"

/-- Relationship name constant. -/
def RelationshipIngressService : Relationship := "IngressService"

/-- Relationship name constant; declared by the source but (see the
theorems below) never attached to any edge. -/
def RelationshipIngressTLSSecret : Relationship := "IngressTLSSecret"

/-- Relationship name constant. -/
def RelationshipWebhookConfigurationService : Relationship := "WebhookConfigurationService"

/-- Relationship name constant. -/
def RelationshipNetworkPolicy : Relationship := "NetworkPolicy"

/-- Relationship name constant. -/
def RelationshipControllerRef : Relationship := "ControllerReference"

/-- Relationship name constant. -/
def RelationshipOwnerRef : Relationship := "OwnerReference"

/-- Relationship name constant. -/
def RelationshipPersistentVolumeClaim : Relationship := "PersistentVolumeClaim"

/-- Relationship name constant. -/
def RelationshipPersistentVolumeCSIDriver : Relationship := "PersistentVolumeCSIDriver"

/-- Relationship name constant. -/
def RelationshipPersistentVolumeCSIDriverSecret : Relationship := "PersistentVolumeCSIDriverSecret"

/-- Relationship name constant. -/
def RelationshipPersistentVolumeStorageClass : Relationship := "PersistentVolumeStorageClass"

/-- Relationship name constant. -/
def RelationshipPodContainerEnv : Relationship := "PodContainerEnvironment"

/-- Relationship name constant. -/
def RelationshipPodImagePullSecret : Relationship := "PodImagePullSecret"

/-- Relationship name constant. -/
def RelationshipPodNode : Relationship := "PodNode"

/-- Relationship name constant. -/
def RelationshipPodPriorityClass : Relationship := "PodPriorityClass"

/-- Relationship name constant. -/
def RelationshipPodRuntimeClass : Relationship := "PodRuntimeClass"

/-- Relationship name constant. -/
def RelationshipPodSecurityPolicy : Relationship := "PodSecurityPolicy"

/-- Relationship name constant. -/
def RelationshipPodServiceAccount : Relationship := "PodServiceAccount"

/-- Relationship name constant. -/
def RelationshipPodVolume : Relationship := "PodVolume"

/-- Relationship name constant. -/
def RelationshipPodVolumeCSIDriver : Relationship := "PodVolumeCSIDriver"

/-- Relationship name constant. -/
def RelationshipPodVolumeCSIDriverSecret : Relationship := "PodVolumeCSIDriverSecret"

/-- Relationship name constant. -/
def RelationshipPodDisruptionBudget : Relationship := "PodDisruptionBudget"

/-- Relationship name constant. -/
def RelationshipPodSecurityPolicyAllowedCSIDriver : Relationship := "PodSecurityPolicyAllowedCSIDriver"

/-- Relationship name constant. -/
def RelationshipPodSecurityPolicyAllowedRuntimeClass : Relationship := "PodSecurityPolicyAllowedRuntimeClass"

/-- Relationship name constant. -/
def RelationshipPodSecurityPolicyDefaultRuntimeClass : Relationship := "PodSecurityPolicyDefaultRuntimeClass"

/-- Relationship name constant. -/
def RelationshipRuntimeClass : Relationship := "RuntimeClass"

/-- Relationship name constant. -/
def RelationshipService : Relationship := "Service"

/-- Relationship name constant. -/
def RelationshipServiceAccountImagePullSecret : Relationship := "ServiceAccountImagePullSecret"

/-- Relationship name constant. -/
def RelationshipServiceAccountSecret : Relationship := "ServiceAccountSecret"

/-- Relationship name constant. -/
def RelationshipStorageClassProvisioner : Relationship := "StorageClassProvisioner"

/-- Relationship name constant. -/
def RelationshipVolumeAttachmentAttacher : Relationship := "VolumeAttachmentAttacher"

/-- Relationship name constant. -/
def RelationshipVolumeAttachmentNode : Relationship := "VolumeAttachmentNode"

/-- Relationship name constant. -/
def RelationshipVolumeAttachmentSourceVolume : Relationship := "VolumeAttachmentSourceVolume"

/-- Relationship name constant. -/
def RelationshipVolumeAttachmentSourceVolumeClaim : Relationship := "VolumeAttachmentSourceVolumeClaim"

/-- Relationship name constant. -/
def RelationshipVolumeAttachmentSourceVolumeCSIDriver : Relationship := "VolumeAttachmentSourceVolumeCSIDriver"

/-- Relationship name constant. -/
def RelationshipVolumeAttachmentSourceVolumeCSIDriverSecret : Relationship := "VolumeAttachmentSourceVolumeCSIDriverSecret"

/-- Relationship name constant. -/
def RelationshipVolumeAttachmentSourceVolumeStorageClass : Relationship := "VolumeAttachmentSourceVolumeStorageClass"

/-- `sets.NewString(set...).HasAny(items...)`: does any of `items`
occur in `set`? -/
def hasAny (set items : List String) : Bool :=
  items.any (fun i => set.contains i)

/-- `podSecurityPolicyMatches`: a rule grants PodSecurityPolicy use
when its API groups meet `{*, extensions, policy}`, its resources meet
`{*, podsecuritypolicies}` and its verbs meet `{*, use}`. -/
def podSecurityPolicyMatches (r : PolicyRule) : Bool :=
  hasAny r.apiGroups ["*", "extensions", "policy"] &&
    hasAny r.resources ["*", "podsecuritypolicies"] &&
    hasAny r.verbs ["*", "use"]

/-- `getAPIServiceRelationships`. -/
def getAPIServiceRelationships (n : NodeData) : RelationshipMap :=
  let result := newRelationshipMap
  match n.obj.manifest.apiServiceService with
  | some (svcNs, svcName) =>
      result.AddDependencyByKey (ObjectReference.Key ⟨"", "Service", svcNs, svcName⟩)
        RelationshipAPIService
  | none => result

/-- `getClusterRoleRelationships`. -/
def getClusterRoleRelationships (n : NodeData) : RelationshipMap :=
  let result := newRelationshipMap
  let result :=
    match n.obj.manifest.aggregationRule with
    | some selectors =>
        selectors.foldl (fun m lsSpec =>
          m.AddDependencyByLabelSelector
            ⟨"rbac.authorization.k8s.io", "ClusterRole", "", labelSelectorAsSelector lsSpec⟩
            RelationshipClusterRoleAggregationRule) result
    | none => result
  n.obj.manifest.rules.foldl (fun m r =>
    if podSecurityPolicyMatches r then
      match r.resourceNames with
      | [] =>
          m.AddDependencyBySelector ⟨"policy", "PodSecurityPolicy", []⟩
            RelationshipClusterRolePolicyRule
      | _ =>
          r.resourceNames.foldl (fun m2 nm =>
            m2.AddDependencyByKey (ObjectReference.Key ⟨"policy", "PodSecurityPolicy", "", nm⟩)
              RelationshipClusterRolePolicyRule) m
    else m) result

/-- `getClusterRoleBindingRelationships`. -/
def getClusterRoleBindingRelationships (n : NodeData) : RelationshipMap :=
  let result := newRelationshipMap
  let result := n.obj.manifest.subjects.foldl (fun m s =>
    m.AddDependentByKey (ObjectReference.Key ⟨s.apiGroup, s.kind, s.ns, s.name⟩)
      RelationshipClusterRoleBindingSubject) result
  let r := n.obj.manifest.roleRef
  result.AddDependencyByKey (ObjectReference.Key ⟨r.apiGroup, r.kind, "", r.name⟩)
    RelationshipClusterRoleBindingRole

/-- `getCSINodeRelationships`. -/
def getCSINodeRelationships (n : NodeData) : RelationshipMap :=
  n.obj.manifest.csiNodeDrivers.foldl (fun m d =>
    m.AddDependentByKey (ObjectReference.Key ⟨"storage.k8s.io", "CSIDriver", "", d⟩)
      RelationshipCSINodeDriver) newRelationshipMap

/-- `getCSIStorageCapacityRelationships`. -/
def getCSIStorageCapacityRelationships (n : NodeData) : RelationshipMap :=
  let result := newRelationshipMap
  let sc := n.obj.manifest.csiStorageCapacityClassName
  if sc ≠ "" then
    result.AddDependencyByKey (ObjectReference.Key ⟨"storage.k8s.io", "StorageClass", "", sc⟩)
      RelationshipCSIStorageCapacityStorageClass
  else result

/-- `getEventRelationships`.  Note: the core-group branch reads the
nested field `involvedobject.uid` — all lowercase — from the raw
content, while a `v1.Event` manifest serializes that field as
`involvedObject`. -/
def getEventRelationships (n : NodeData) : RelationshipMap :=
  let result := newRelationshipMap
  if n.Group = "" then
    let regUID := n.GetNestedString2 "involvedobject" "uid"
    result.AddDependencyByUID regUID RelationshipEventRegarding
  else if n.Group = "events.k8s.io" then
    let regUID := n.GetNestedString2 "regarding" "uid"
    let result := result.AddDependencyByUID regUID RelationshipEventRegarding
    let relUID := n.GetNestedString2 "related" "uid"
    result.AddDependencyByUID relUID RelationshipEventRelated
  else result

/-- `getIngressRelationships`: branches on the observed API group; the
TLS loop files its Secret references under `RelationshipIngressClass`
in both branches, as the source does. -/
def getIngressRelationships (n : NodeData) : RelationshipMap :=
  let ns := n.Namespace
  let ing := n.obj.manifest.ingress
  let result := newRelationshipMap
  if n.Group = "extensions" then
    let result :=
      match ing.ingressClassName with
      | some c =>
          if c ≠ "" then
            result.AddDependencyByKey (ObjectReference.Key ⟨"networking.k8s.io", "IngressClass", "", c⟩)
              RelationshipIngressClass
          else result
      | none => result
    let backends :=
      (match ing.backend with
       | some b => [b]
       | none => []) ++
        ing.rules.foldl (fun acc rule =>
          match rule with
          | some paths => acc ++ paths
          | none => acc) []
    let result := backends.foldl (fun m b =>
      match b.resource with
      | some res =>
          m.AddDependencyByKey
            (ObjectReference.Key ⟨res.apiGroup.getD "", res.kind, ns, res.name⟩)
            RelationshipIngressResource
      | none =>
          if b.serviceName ≠ "" then
            m.AddDependencyByKey (ObjectReference.Key ⟨"", "Service", ns, b.serviceName⟩)
              RelationshipIngressService
          else m) result
    ing.tls.foldl (fun m tls =>
      m.AddDependencyByKey (ObjectReference.Key ⟨"", "Secret", ns, tls.secretName⟩)
        RelationshipIngressClass) result
  else if n.Group = "networking.k8s.io" then
    let result :=
      match ing.ingressClassName with
      | some c =>
          if c ≠ "" then
            result.AddDependencyByKey (ObjectReference.Key ⟨"networking.k8s.io", "IngressClass", "", c⟩)
              RelationshipIngressClass
          else result
      | none => result
    let backends :=
      (match ing.defaultBackend with
       | some b => [b]
       | none => []) ++
        ing.rules.foldl (fun acc rule =>
          match rule with
          | some paths => acc ++ paths
          | none => acc) []
    let result := backends.foldl (fun m b =>
      match b.resource with
      | some res =>
          m.AddDependencyByKey
            (ObjectReference.Key ⟨res.apiGroup.getD "", res.kind, ns, res.name⟩)
            RelationshipIngressResource
      | none =>
          match b.service with
          | some svcName =>
              m.AddDependencyByKey (ObjectReference.Key ⟨"", "Service", ns, svcName⟩)
                RelationshipIngressService
          | none => m) result
    ing.tls.foldl (fun m tls =>
      m.AddDependencyByKey (ObjectReference.Key ⟨"", "Secret", ns, tls.secretName⟩)
        RelationshipIngressClass) result
  else result

/-- `getIngressClassRelationships`. -/
def getIngressClassRelationships (n : NodeData) : RelationshipMap :=
  let result := newRelationshipMap
  match n.obj.manifest.ingressClassParameters with
  | some p =>
      result.AddDependencyByKey
        (ObjectReference.Key ⟨p.apiGroup.getD "", p.kind, p.nsRef.getD "", p.name⟩)
        RelationshipIngressClassParameters
  | none => result

/-- `getMutatingWebhookConfigurationRelationships`. -/
def getMutatingWebhookConfigurationRelationships (n : NodeData) : RelationshipMap :=
  n.obj.manifest.webhookServices.foldl (fun m wh =>
    match wh with
    | some (svcNs, svcName) =>
        m.AddDependencyByKey (ObjectReference.Key ⟨"", "Service", svcNs, svcName⟩)
          RelationshipWebhookConfigurationService
    | none => m) newRelationshipMap

/-- `getNetworkPolicyRelationships`. -/
def getNetworkPolicyRelationships (n : NodeData) : RelationshipMap :=
  let ns := n.obj.ns
  let result := newRelationshipMap
  result.AddDependencyByLabelSelector
    ⟨"", "Pod", ns, labelSelectorAsSelector n.obj.manifest.netpolPodSelector⟩
    RelationshipNetworkPolicy

/-- `getPersistentVolumeRelationships`. -/
def getPersistentVolumeRelationships (n : NodeData) : RelationshipMap :=
  let ns := n.obj.ns
  let pv := n.obj.manifest.pv
  let result := newRelationshipMap
  let result :=
    match pv.claimRef with
    | some claimName =>
        result.AddDependentByKey (ObjectReference.Key ⟨"", "PersistentVolumeClaim", ns, claimName⟩)
          RelationshipPersistentVolumeClaim
    | none => result
  let result :=
    match pv.csi with
    | some csi =>
        let result :=
          if csi.driver ≠ "" then
            result.AddDependencyByKey (ObjectReference.Key ⟨"storage.k8s.io", "CSIDriver", "", csi.driver⟩)
              RelationshipPersistentVolumeCSIDriver
          else result
        let result :=
          match csi.controllerExpandSecretRef with
          | some (secName, secNs) =>
              result.AddDependentByKey (ObjectReference.Key ⟨"", "Secret", secNs, secName⟩)
                RelationshipPersistentVolumeCSIDriverSecret
          | none => result
        let result :=
          match csi.controllerPublishSecretRef with
          | some (secName, secNs) =>
              result.AddDependentByKey (ObjectReference.Key ⟨"", "Secret", secNs, secName⟩)
                RelationshipPersistentVolumeCSIDriverSecret
          | none => result
        let result :=
          match csi.nodePublishSecretRef with
          | some (secName, secNs) =>
              result.AddDependentByKey (ObjectReference.Key ⟨"", "Secret", secNs, secName⟩)
                RelationshipPersistentVolumeCSIDriverSecret
          | none => result
        match csi.nodeStageSecretRef with
        | some (secName, secNs) =>
            result.AddDependentByKey (ObjectReference.Key ⟨"", "Secret", secNs, secName⟩)
              RelationshipPersistentVolumeCSIDriverSecret
        | none => result
    | none => result
  if pv.storageClassName ≠ "" then
    result.AddDependencyByKey
      (ObjectReference.Key ⟨"storage.k8s.io", "StorageClass", "", pv.storageClassName⟩)
      RelationshipPersistentVolumeStorageClass
  else result

/-- `getPersistentVolumeClaimRelationships`. -/
def getPersistentVolumeClaimRelationships (n : NodeData) : RelationshipMap :=
  let result := newRelationshipMap
  let pv := n.obj.manifest.pvcVolumeName
  if pv ≠ "" then
    result.AddDependencyByKey (ObjectReference.Key ⟨"", "PersistentVolume", "", pv⟩)
      RelationshipPersistentVolumeClaim
  else result

/-- `getPodRelationships`. -/
def getPodRelationships (n : NodeData) : RelationshipMap :=
  let pod := n.obj.manifest.pod
  let ns := n.obj.ns
  let result := newRelationshipMap
  let cList := pod.initContainers ++ pod.containers
  let result := cList.foldl (fun m c =>
    let m := c.envFrom.foldl (fun m env =>
      match env.configMapRef with
      | some nm =>
          m.AddDependencyByKey (ObjectReference.Key ⟨"", "ConfigMap", ns, nm⟩)
            RelationshipPodContainerEnv
      | none =>
          match env.secretRef with
          | some nm =>
              m.AddDependencyByKey (ObjectReference.Key ⟨"", "Secret", ns, nm⟩)
                RelationshipPodContainerEnv
          | none => m) m
    c.env.foldl (fun m envVar =>
      match envVar with
      | none => m
      | some vf =>
          match vf.configMapKeyRef with
          | some nm =>
              m.AddDependencyByKey (ObjectReference.Key ⟨"", "ConfigMap", ns, nm⟩)
                RelationshipPodContainerEnv
          | none =>
              match vf.secretKeyRef with
              | some nm =>
                  m.AddDependencyByKey (ObjectReference.Key ⟨"", "Secret", ns, nm⟩)
                    RelationshipPodContainerEnv
              | none => m) m) result
  let result := pod.imagePullSecrets.foldl (fun m s =>
    m.AddDependencyByKey (ObjectReference.Key ⟨"", "Secret", ns, s⟩)
      RelationshipPodImagePullSecret) result
  let result :=
    result.AddDependencyByKey (ObjectReference.Key ⟨"", "Node", "", pod.nodeName⟩)
      RelationshipPodNode
  let result :=
    if pod.priorityClassName ≠ "" then
      result.AddDependencyByKey
        (ObjectReference.Key ⟨"scheduling.k8s.io", "PriorityClass", "", pod.priorityClassName⟩)
        RelationshipPodPriorityClass
    else result
  let result :=
    match pod.runtimeClassName with
    | some rc =>
        if rc ≠ "" then
          result.AddDependencyByKey (ObjectReference.Key ⟨"node.k8s.io", "RuntimeClass", "", rc⟩)
            RelationshipPodRuntimeClass
        else result
    | none => result
  let result :=
    match alookup n.obj.annotations "kubernetes.io/psp" with
    | some psp =>
        result.AddDependencyByKey (ObjectReference.Key ⟨"policy", "PodSecurityPolicy", "", psp⟩)
          RelationshipPodSecurityPolicy
    | none => result
  let result :=
    if pod.serviceAccountName ≠ "" then
      result.AddDependencyByKey
        (ObjectReference.Key ⟨"", "ServiceAccount", ns, pod.serviceAccountName⟩)
        RelationshipPodServiceAccount
    else result
  pod.volumes.foldl (fun m v =>
    match v.configMap with
    | some nm =>
        m.AddDependencyByKey (ObjectReference.Key ⟨"", "ConfigMap", ns, nm⟩)
          RelationshipPodVolume
    | none =>
        match v.csi with
        | some csi =>
            let m := m.AddDependencyByKey
              (ObjectReference.Key ⟨"storage.k8s.io", "CSIDriver", "", csi.driver⟩)
              RelationshipPodVolumeCSIDriver
            match csi.nodePublishSecretRef with
            | some nm =>
                m.AddDependencyByKey (ObjectReference.Key ⟨"", "Secret", ns, nm⟩)
                  RelationshipPodVolumeCSIDriverSecret
            | none => m
        | none =>
            match v.persistentVolumeClaim with
            | some claimName =>
                m.AddDependencyByKey
                  (ObjectReference.Key ⟨"", "PersistentVolumeClaim", ns, claimName⟩)
                  RelationshipPodVolume
            | none =>
                match v.projected with
                | some sources =>
                    sources.foldl (fun m src =>
                      match src.configMap with
                      | some nm =>
                          m.AddDependencyByKey (ObjectReference.Key ⟨"", "ConfigMap", ns, nm⟩)
                            RelationshipPodVolume
                      | none =>
                          match src.secret with
                          | some nm =>
                              m.AddDependencyByKey (ObjectReference.Key ⟨"", "Secret", ns, nm⟩)
                                RelationshipPodVolume
                          | none => m) m
                | none =>
                    match v.secret with
                    | some nm =>
                        m.AddDependencyByKey (ObjectReference.Key ⟨"", "Secret", ns, nm⟩)
                          RelationshipPodVolume
                    | none => m) result

/-- `getPodDisruptionBudgetRelationships`. -/
def getPodDisruptionBudgetRelationships (n : NodeData) : RelationshipMap :=
  let ns := n.obj.ns
  let result := newRelationshipMap
  match n.obj.manifest.pdbSelector with
  | some s =>
      result.AddDependencyByLabelSelector ⟨"", "Pod", ns, labelSelectorAsSelector s⟩
        RelationshipPodDisruptionBudget
  | none => result

/-- `getPodSecurityPolicyRelationships`. -/
def getPodSecurityPolicyRelationships (n : NodeData) : RelationshipMap :=
  let result := newRelationshipMap
  let result := n.obj.manifest.pspAllowedCSIDrivers.foldl (fun m csi =>
    m.AddDependencyByKey (ObjectReference.Key ⟨"storage.k8s.io", "CSIDriver", "", csi⟩)
      RelationshipPodSecurityPolicyAllowedCSIDriver) result
  match n.obj.manifest.pspRuntimeClass with
  | some rc =>
      let result := rc.allowedRuntimeClassNames.foldl (fun m nm =>
        m.AddDependencyByKey (ObjectReference.Key ⟨"node.k8s.io", "RuntimeClass", "", nm⟩)
          RelationshipPodSecurityPolicyAllowedRuntimeClass) result
      match rc.defaultRuntimeClassName with
      | some nm =>
          result.AddDependencyByKey (ObjectReference.Key ⟨"node.k8s.io", "RuntimeClass", "", nm⟩)
            RelationshipPodSecurityPolicyDefaultRuntimeClass
      | none => result
  | none => result

/-- `getRoleRelationships`. -/
def getRoleRelationships (n : NodeData) : RelationshipMap :=
  let result := newRelationshipMap
  n.obj.manifest.rules.foldl (fun m r =>
    if podSecurityPolicyMatches r then
      match r.resourceNames with
      | [] =>
          m.AddDependencyBySelector ⟨"policy", "PodSecurityPolicy", []⟩
            RelationshipRolePolicyRule
      | _ =>
          r.resourceNames.foldl (fun m2 nm =>
            m2.AddDependencyByKey (ObjectReference.Key ⟨"policy", "PodSecurityPolicy", "", nm⟩)
              RelationshipRolePolicyRule) m
    else m) result

/-- `getRoleBindingRelationships`. -/
def getRoleBindingRelationships (n : NodeData) : RelationshipMap :=
  let ns := n.obj.ns
  let result := newRelationshipMap
  let result := n.obj.manifest.subjects.foldl (fun m s =>
    m.AddDependentByKey (ObjectReference.Key ⟨s.apiGroup, s.kind, s.ns, s.name⟩)
      RelationshipRoleBindingSubject) result
  let r := n.obj.manifest.roleRef
  result.AddDependencyByKey (ObjectReference.Key ⟨r.apiGroup, r.kind, ns, r.name⟩)
    RelationshipRoleBindingRole

/-- `getRuntimeClassRelationships`. -/
def getRuntimeClassRelationships (n : NodeData) : RelationshipMap :=
  let result := newRelationshipMap
  match n.obj.manifest.rcScheduling with
  | some nodeSelector =>
      result.AddDependencyByLabelSelector ⟨"", "Node", "", selectorFromSet nodeSelector⟩
        RelationshipRuntimeClass
  | none => result

/-- `getServiceRelationships`. -/
def getServiceRelationships (n : NodeData) : RelationshipMap :=
  let ns := n.obj.ns
  let result := newRelationshipMap
  result.AddDependencyByLabelSelector
    ⟨"", "Pod", ns, selectorFromSet n.obj.manifest.serviceSelector⟩
    RelationshipService

/-- `getServiceAccountRelationships`. -/
def getServiceAccountRelationships (n : NodeData) : RelationshipMap :=
  let ns := n.obj.ns
  let result := newRelationshipMap
  let result := n.obj.manifest.saImagePullSecrets.foldl (fun m s =>
    m.AddDependencyByKey (ObjectReference.Key ⟨"", "Secret", ns, s⟩)
      RelationshipServiceAccountImagePullSecret) result
  n.obj.manifest.saSecrets.foldl (fun m s =>
    m.AddDependentByKey (ObjectReference.Key ⟨"", "Secret", ns, s⟩)
      RelationshipServiceAccountSecret) result

/-- `getStorageClassRelationships`. -/
def getStorageClassRelationships (n : NodeData) : RelationshipMap :=
  let result := newRelationshipMap
  let p := n.obj.manifest.scProvisioner
  if p ≠ "" ∧ ¬ (p.startsWith "kubernetes.io/") then
    result.AddDependencyByKey (ObjectReference.Key ⟨"storage.k8s.io", "CSIDriver", "", p⟩)
      RelationshipStorageClassProvisioner
  else result

/-- `getValidatingWebhookConfigurationRelationships`. -/
def getValidatingWebhookConfigurationRelationships (n : NodeData) : RelationshipMap :=
  n.obj.manifest.webhookServices.foldl (fun m wh =>
    match wh with
    | some (svcNs, svcName) =>
        m.AddDependencyByKey (ObjectReference.Key ⟨"", "Service", svcNs, svcName⟩)
          RelationshipWebhookConfigurationService
    | none => m) newRelationshipMap

/-- `getVolumeAttachmentRelationships`. -/
def getVolumeAttachmentRelationships (n : NodeData) : RelationshipMap :=
  let result := newRelationshipMap
  let result :=
    if n.obj.manifest.vaAttacher ≠ "" then
      result.AddDependencyByKey
        (ObjectReference.Key ⟨"storage.k8s.io", "CSIDriver", "", n.obj.manifest.vaAttacher⟩)
        RelationshipVolumeAttachmentAttacher
    else result
  let result :=
    if n.obj.manifest.vaNodeName ≠ "" then
      result.AddDependencyByKey (ObjectReference.Key ⟨"", "Node", "", n.obj.manifest.vaNodeName⟩)
        RelationshipVolumeAttachmentNode
    else result
  let result :=
    match n.obj.manifest.va.persistentVolumeName with
    | some pvName =>
        if pvName ≠ "" then
          result.AddDependentByKey (ObjectReference.Key ⟨"", "PersistentVolume", "", pvName⟩)
            RelationshipVolumeAttachmentSourceVolume
        else result
    | none => result
  match n.obj.manifest.va.inlineVolumeSpec with
  | some iv =>
      let result :=
        match iv.claimRef with
        | some (claimName, claimNs) =>
            result.AddDependentByKey
              (ObjectReference.Key ⟨"", "PersistentVolumeClaim", claimNs, claimName⟩)
              RelationshipVolumeAttachmentSourceVolumeClaim
        | none => result
      let result :=
        result.AddDependentByKey
          (ObjectReference.Key ⟨"storage.k8s.io", "StorageClass", "", iv.storageClassName⟩)
          RelationshipVolumeAttachmentSourceVolumeStorageClass
      match iv.csi with
      | some csi =>
          let result :=
            if csi.driver ≠ "" then
              result.AddDependentByKey
                (ObjectReference.Key ⟨"storage.k8s.io", "CSIDriver", "", csi.driver⟩)
                RelationshipVolumeAttachmentSourceVolumeCSIDriver
            else result
          let result :=
            match csi.controllerExpandSecretRef with
            | some (secName, secNs) =>
                result.AddDependentByKey (ObjectReference.Key ⟨"", "Secret", secNs, secName⟩)
                  RelationshipVolumeAttachmentSourceVolumeCSIDriverSecret
            | none => result
          let result :=
            match csi.controllerPublishSecretRef with
            | some (secName, secNs) =>
                result.AddDependentByKey (ObjectReference.Key ⟨"", "Secret", secNs, secName⟩)
                  RelationshipVolumeAttachmentSourceVolumeCSIDriverSecret
            | none => result
          let result :=
            match csi.nodePublishSecretRef with
            | some (secName, secNs) =>
                result.AddDependentByKey (ObjectReference.Key ⟨"", "Secret", secNs, secName⟩)
                  RelationshipVolumeAttachmentSourceVolumeCSIDriverSecret
            | none => result
          match csi.nodeStageSecretRef with
          | some (secName, secNs) =>
              result.AddDependentByKey (ObjectReference.Key ⟨"", "Secret", secNs, secName⟩)
                RelationshipVolumeAttachmentSourceVolumeCSIDriverSecret
          | none => result
      | none => result
  | none => result

/-- Extractor dispatch: the `switch` over `(node.Group, node.Kind)` in
`resolveDeps`, in source case order; `none` is the `default: continue`
branch. -/
def dispatchExtractor (node : NodeData) : Option RelationshipMap :=
  if node.Group = "" ∧ node.Kind = "PersistentVolume" then
    some (getPersistentVolumeRelationships node)
  else if node.Group = "" ∧ node.Kind = "PersistentVolumeClaim" then
    some (getPersistentVolumeClaimRelationships node)
  else if node.Group = "" ∧ node.Kind = "Pod" then
    some (getPodRelationships node)
  else if node.Group = "" ∧ node.Kind = "Service" then
    some (getServiceRelationships node)
  else if node.Group = "" ∧ node.Kind = "ServiceAccount" then
    some (getServiceAccountRelationships node)
  else if node.Group = "policy" ∧ node.Kind = "PodSecurityPolicy" then
    some (getPodSecurityPolicyRelationships node)
  else if node.Group = "policy" ∧ node.Kind = "PodDisruptionBudget" then
    some (getPodDisruptionBudgetRelationships node)
  else if node.Group = "admissionregistration.k8s.io" ∧ node.Kind = "MutatingWebhookConfiguration" then
    some (getMutatingWebhookConfigurationRelationships node)
  else if node.Group = "admissionregistration.k8s.io" ∧ node.Kind = "ValidatingWebhookConfiguration" then
    some (getValidatingWebhookConfigurationRelationships node)
  else if node.Group = "apiregistration.k8s.io" ∧ node.Kind = "APIService" then
    some (getAPIServiceRelationships node)
  else if (node.Group = "events.k8s.io" ∨ node.Group = "") ∧ node.Kind = "Event" then
    some (getEventRelationships node)
  else if (node.Group = "networking.k8s.io" ∨ node.Group = "extensions") ∧ node.Kind = "Ingress" then
    some (getIngressRelationships node)
  else if node.Group = "networking.k8s.io" ∧ node.Kind = "IngressClass" then
    some (getIngressClassRelationships node)
  else if node.Group = "networking.k8s.io" ∧ node.Kind = "NetworkPolicy" then
    some (getNetworkPolicyRelationships node)
  else if node.Group = "node.k8s.io" ∧ node.Kind = "RuntimeClass" then
    some (getRuntimeClassRelationships node)
  else if node.Group = "rbac.authorization.k8s.io" ∧ node.Kind = "ClusterRole" then
    some (getClusterRoleRelationships node)
  else if node.Group = "rbac.authorization.k8s.io" ∧ node.Kind = "ClusterRoleBinding" then
    some (getClusterRoleBindingRelationships node)
  else if node.Group = "rbac.authorization.k8s.io" ∧ node.Kind = "Role" then
    some (getRoleRelationships node)
  else if node.Group = "rbac.authorization.k8s.io" ∧ node.Kind = "RoleBinding" then
    some (getRoleBindingRelationships node)
  else if node.Group = "storage.k8s.io" ∧ node.Kind = "CSIStorageCapacity" then
    some (getCSIStorageCapacityRelationships node)
  else if node.Group = "storage.k8s.io" ∧ node.Kind = "CSINode" then
    some (getCSINodeRelationships node)
  else if node.Group = "storage.k8s.io" ∧ node.Kind = "StorageClass" then
    some (getStorageClassRelationships node)
  else if node.Group = "storage.k8s.io" ∧ node.Kind = "VolumeAttachment" then
    some (getVolumeAttachmentRelationships node)
  else none

/-- The object universe: the node heap plus the two global index maps
(`globalMapByUID`, `globalMapByKey`) whose values are node pointers. -/
structure Universe where
  store : Store := []
  byUID : List (String × Nat) := []
  byKey : List (String × Nat) := []
  deriving DecidableEq, Repr

/-- A RESTMapper: given the group, kind and version of an object,
optionally produce its mapping. -/
abbrev Mapper := String → String → String → Option RESTMapping

/-- The universe-building loop of `resolveDeps`: for each object,
consult the RESTMapper (a failure aborts the whole resolution), build
the node, index it by UID and by reference key, and — for core-group
Node objects, immediately, inside the same loop iteration — add the
name and `kubernetes.io/hostname`-label alias entries to the UID
index. -/
def buildUniverseGo (mapper : Mapper) : List K8sObject → Nat → Universe →
    Except Unit Universe
  | [], _, u => .ok u
  | o :: rest, ix, u =>
      match mapper o.group o.kind o.version with
      | none => .error ()
      | some m =>
          let ns := o.ns
          let node : NodeData :=
            { obj := o
              UID := o.uid
              Name := o.name
              Namespace := ns
              Namespaced := ns ≠ ""
              Group := m.group
              Version := m.version
              Kind := m.kind
              Resource := m.resource
              OwnerReferences := o.ownerReferences
              Dependencies := []
              Dependents := []
              Depth := 0 }
          let byUID := aInsert u.byUID node.UID ix
          let byKey := aInsert u.byKey node.GetObjectReferenceKey ix
          let byUID :=
            if node.Group = "" ∧ node.Kind = "Node" then
              let byUID := aInsert byUID node.Name ix
              match alookup o.labels "kubernetes.io/hostname" with
              | some hostname => aInsert byUID hostname ix
              | none => byUID
            else byUID
          buildUniverseGo mapper rest (ix + 1)
            { store := u.store ++ [node], byUID := byUID, byKey := byKey }

/-- Build the universe from the input object list. -/
def buildUniverse (mapper : Mapper) (objects : List K8sObject) :
    Except Unit Universe :=
  buildUniverseGo mapper objects 0 {}

/-- The one primitive through which every edge is recorded, capturing
the paired calls `x.AddDependency(yUID, r); y.AddDependent(xUID, r)`
that appear verbatim at every write site of the source: node `x`
depends on node `y` via `r`, and `y` gains `x` as a dependent. -/
def addDepPair (st : Store) (x y : Nat) (r : Relationship) : Store :=
  let ux := (getN st x).UID
  let uy := (getN st y).UID
  let st1 := setN st x (fun n => n.AddDependency uy r)
  setN st1 y (fun n => n.AddDependent ux r)

/-- Record the whole relationship set of one dependency edge
(`for r := range rset` around the paired adds, dependency direction:
`node` depends on `n`). -/
def addPairsDependency (st : Store) (node n : Nat) (rset : RelSet) : Store :=
  rset.foldl (fun s r => addDepPair s node n r) st

/-- Record the whole relationship set of one dependent edge
(dependent direction: `n` depends on `node`). -/
def addPairsDependent (st : Store) (node n : Nat) (rset : RelSet) : Store :=
  rset.foldl (fun s r => addDepPair s n node r) st

/-- `resolveLabelSelectorToNodes`: scan the UID index for nodes whose
group, kind and namespace match the selector's coordinates and whose
labels satisfy the selector. -/
def resolveLabelSelectorToNodes (u : Universe) (st : Store)
    (o : ObjectLabelSelector) : List Nat :=
  u.byUID.filterMap (fun e =>
    let n := getN st e.2
    if n.Group = o.Group ∧ n.Kind = o.Kind ∧ n.Namespace = o.Namespace ∧
        selMatches o.Selector n.GetLabels then some e.2 else none)

/-- `resolveSelectorToNodes`: scan the UID index for nodes whose group
and kind match and whose namespace belongs to the (possibly empty,
meaning unrestricted) namespace set. -/
def resolveSelectorToNodes (u : Universe) (st : Store)
    (o : ObjectSelector) : List Nat :=
  u.byUID.filterMap (fun e =>
    let n := getN st e.2
    if n.Group = o.Group ∧ n.Kind = o.Kind ∧
        (o.Namespaces = [] ∨ o.Namespaces.contains n.Namespace) then some e.2 else none)

/-- `updateRelationships`: unify every bucket of an extractor's
RelationshipMap against the universe, writing both halves of every
resolved edge; unresolved targets are dropped.  The eight bucket loops
appear in source order. -/
def updateRelationships (u : Universe) (node : Nat) (rmap : RelationshipMap)
    (st : Store) : Store :=
  let st := rmap.DependenciesByRef.foldl (fun st e =>
    match alookup u.byKey e.1 with
    | some n => addPairsDependency st node n e.2
    | none => st) st
  let st := rmap.DependentsByRef.foldl (fun st e =>
    match alookup u.byKey e.1 with
    | some n => addPairsDependent st node n e.2
    | none => st) st
  let st := rmap.DependenciesByLabelSelector.foldl (fun st e =>
    match alookup rmap.ObjectLabelSelectors e.1 with
    | some ols =>
        (resolveLabelSelectorToNodes u st ols).foldl (fun st n =>
          addPairsDependency st node n e.2) st
    | none => st) st
  let st := rmap.DependentsByLabelSelector.foldl (fun st e =>
    match alookup rmap.ObjectLabelSelectors e.1 with
    | some ols =>
        (resolveLabelSelectorToNodes u st ols).foldl (fun st n =>
          addPairsDependent st node n e.2) st
    | none => st) st
  let st := rmap.DependenciesBySelector.foldl (fun st e =>
    match alookup rmap.ObjectSelectors e.1 with
    | some os =>
        (resolveSelectorToNodes u st os).foldl (fun st n =>
          addPairsDependency st node n e.2) st
    | none => st) st
  let st := rmap.DependentsBySelector.foldl (fun st e =>
    match alookup rmap.ObjectSelectors e.1 with
    | some os =>
        (resolveSelectorToNodes u st os).foldl (fun st n =>
          addPairsDependent st node n e.2) st
    | none => st) st
  let st := rmap.DependenciesByUID.foldl (fun st e =>
    match alookup u.byUID e.1 with
    | some n => addPairsDependency st node n e.2
    | none => st) st
  rmap.DependentsByUID.foldl (fun st e =>
    match alookup u.byUID e.1 with
    | some n => addPairsDependent st node n e.2
    | none => st) st

/-- Inner loop of the owner pass: walk one node's owner references; for
each owner found in the UID index add a `ControllerReference` pair when
flagged and always an `OwnerReference` pair. -/
def ownerRefsApply (u : Universe) (node : Nat) :
    List OwnerReference → Store → Store
  | [], st => st
  | ref :: rest, st =>
      match alookup u.byUID ref.uid with
      | some n =>
          let st := if ref.controller then addDepPair st node n RelationshipControllerRef else st
          ownerRefsApply u node rest (addDepPair st node n RelationshipOwnerRef)
      | none => ownerRefsApply u node rest st

/-- The owner pass: iterate the UID-index entries (each aliased Node is
therefore walked once per index entry, as in the source's map
iteration) and process each node's owner references. -/
def ownerPassGo (u : Universe) : List (String × Nat) → Store → Store
  | [], st => st
  | e :: rest, st =>
      ownerPassGo u rest (ownerRefsApply u e.2 (getN st e.2).OwnerReferences st)

/-- The extractor pass: iterate the UID-index entries, dispatch each
node to its extractor and unify the returned RelationshipMap. -/
def extractorPassGo (u : Universe) : List (String × Nat) → Store → Store
  | [], st => st
  | e :: rest, st =>
      match dispatchExtractor (getN st e.2) with
      | some rmap => extractorPassGo u rest (updateRelationships u e.2 rmap st)
      | none => extractorPassGo u rest st

/-- The graph phase of `resolveDeps`: build the universe, run the owner
pass, then the extractor pass.  This is everything before the BFS and
does not depend on the requested roots or direction. -/
def graphPhase (mapper : Mapper) (objects : List K8sObject) :
    Except Unit Universe :=
  match buildUniverse mapper objects with
  | .error e => .error e
  | .ok u =>
      let st := ownerPassGo u u.byUID u.store
      let st := extractorPassGo u u.byUID st
      .ok { u with store := st }

/-- The BFS working state: the (depth-mutable) node heap, the growing
result NodeMap (`none` values model Go `nil` map entries), the queue
with its `""` sentinel, the visited set and the current depth. -/
structure BfsState where
  store : Store
  nodeMap : List (String × Option Nat)
  queue : List String
  uidSet : List String
  depth : Nat
  deriving Repr

/-- Seed the BFS from the root UIDs: roots found in the UID index enter
the NodeMap and the queue; then the sentinel is appended. -/
def bfsInit (u : Universe) (st : Store) (uids : List String) : BfsState :=
  let seeded := uids.foldl
    (fun (p : List (String × Option Nat) × List String) uid =>
      match alookup u.byUID uid with
      | some id => (aInsert p.1 uid (some id), p.2 ++ [uid])
      | none => p)
    ([], [])
  { store := st, nodeMap := seeded.1, queue := seeded.2 ++ [""], uidSet := [], depth := 0 }

/-- One-for-one translation of the `resolveDeps` BFS loop, indexed by
fuel since the source loop diverges on some inputs (a second `""` in
the queue is re-appended forever).  Each recursive call consumes one
fuel unit; `none` means the fuel ran out before the loop finished. -/
def bfsGo (u : Universe) (depsIsDependencies : Bool) :
    Nat → BfsState → Option (List (String × Option Nat) × Store)
  | 0, _ => none
  | fuel + 1, st =>
      if st.queue.length ≤ 1 then some (st.nodeMap, st.store)
      else
        match st.queue with
        | [] => some (st.nodeMap, st.store)
        | uid :: rest =>
            if uid = "" then
              bfsGo u depsIsDependencies fuel
                { st with depth := st.depth + 1, queue := rest ++ [""] }
            else if st.uidSet.contains uid then
              bfsGo u depsIsDependencies fuel { st with queue := rest }
            else
              let uidSet := uid :: st.uidSet
              match alookup st.nodeMap uid with
              | some (some id) =>
                  let nd := getN st.store id
                  let nd' :=
                    if nd.Depth = 0 ∨ st.depth < nd.Depth then
                      { nd with Depth := st.depth }
                    else nd
                  let store := st.store.set id nd'
                  let deps := nd'.GetDeps depsIsDependencies
                  let depUIDs := deps.map (fun e => e.1)
                  let nodeMap := depUIDs.foldl
                    (fun nm du => aInsert nm du (alookup u.byUID du)) st.nodeMap
                  bfsGo u depsIsDependencies fuel
                    { store := store, nodeMap := nodeMap,
                      queue := rest ++ depUIDs, uidSet := uidSet, depth := st.depth }
              | _ =>
                  bfsGo u depsIsDependencies fuel { st with uidSet := uidSet }

/-- The outcome of one resolution: the RESTMapper error return, fuel
exhaustion (the source loop not having terminated), or the resolved
NodeMap together with the node heap its pointers refer to. -/
inductive ResolveResult where
  | mapError : ResolveResult
  | outOfFuel : ResolveResult
  | ok (nodeMap : List (String × Option Nat)) (store : Store) : ResolveResult
  deriving DecidableEq, Repr

/-- `resolveDeps`: the full resolution pipeline.  An empty root list
returns an empty NodeMap immediately (before the universe is built). -/
def resolveDeps (mapper : Mapper) (objects : List K8sObject)
    (uids : List String) (depsIsDependencies : Bool) (fuel : Nat) :
    ResolveResult :=
  if uids = [] then .ok [] []
  else
    match graphPhase mapper objects with
    | .error _ => .mapError
    | .ok u =>
        match bfsGo u depsIsDependencies fuel (bfsInit u u.store uids) with
        | none => .outOfFuel
        | some (nm, st) => .ok nm st

/-- `ResolveDependencies`. -/
def ResolveDependencies (mapper : Mapper) (objects : List K8sObject)
    (uids : List String) (fuel : Nat) : ResolveResult :=
  resolveDeps mapper objects uids true fuel

/-- `ResolveDependents`. -/
def ResolveDependents (mapper : Mapper) (objects : List K8sObject)
    (uids : List String) (fuel : Nat) : ResolveResult :=
  resolveDeps mapper objects uids false fuel

/-- Did the resolution produce a NodeMap? -/
def ResolveResult.isOk : ResolveResult → Bool
  | .ok _ _ => true
  | _ => false

/-- The NodeMap of a successful resolution (empty otherwise). -/
def ResolveResult.nodeMapOf : ResolveResult → List (String × Option Nat)
  | .ok nm _ => nm
  | _ => []

/-- The node heap of a successful resolution (empty otherwise). -/
def ResolveResult.storeOf : ResolveResult → Store
  | .ok _ st => st
  | _ => []

/-- The relationship set on node `i`'s dependency edge towards the node
with the given UID (empty when no such edge exists). -/
def dependenciesOf (st : Store) (i : Nat) (uid : String) : RelSet :=
  (alookup (getN st i).Dependencies uid).getD []

/-- The relationship set on node `i`'s dependent edge from the node
with the given UID (empty when no such edge exists). -/
def dependentsOf (st : Store) (i : Nat) (uid : String) : RelSet :=
  (alookup (getN st i).Dependents uid).getD []

/-- Do two relationship lists contain the same relationships? -/
def sameRelSet (xs ys : RelSet) : Bool :=
  xs.all (fun r => ys.contains r) && ys.all (fun r => xs.contains r)

/-- Decidable form of the edge-bidirectionality claim over a resolved
NodeMap: for every pair of mapped nodes `a`, `b`, the set
`a.Dependents[b.UID]` equals the set `b.Dependencies[a.UID]`. -/
def bidirCheck (nm : List (String × Option Nat)) (st : Store) : Bool :=
  nm.all (fun ea =>
    match ea.2 with
    | some ia =>
        nm.all (fun eb =>
          match eb.2 with
          | some ib =>
              sameRelSet (dependentsOf st ia (getN st ib).UID)
                (dependenciesOf st ib (getN st ia).UID)
          | none => true)
    | none => true)

/-- Decidable form of the no-self-loop claim over a resolved NodeMap:
no mapped node's own UID occurs in its Dependents or Dependencies. -/
def noSelfLoopCheck (nm : List (String × Option Nat)) (st : Store) : Bool :=
  nm.all (fun e =>
    match e.2 with
    | some i =>
        (alookup (getN st i).Dependents (getN st i).UID).isNone &&
          (alookup (getN st i).Dependencies (getN st i).UID).isNone
    | none => true)

/-- The neighbor UIDs of a UID in the chosen direction, read off the
universe (the deps-map keys of the node the UID index resolves to). -/
def succUID (u : Universe) (st : Store) (dir : Bool) (uid : String) :
    List String :=
  match alookup u.byUID uid with
  | some id => ((getN st id).GetDeps dir).map (fun e => e.1)
  | none => []

/-- All UIDs reachable from the given roots by a path of length at most
`n` in the chosen direction. -/
def reachList (u : Universe) (st : Store) (dir : Bool)
    (roots : List String) : Nat → List String
  | 0 => roots
  | n + 1 =>
      let prev := reachList u st dir roots n
      prev ++ prev.flatMap (succUID u st dir)

/-- The requested roots that exist in the UID index. -/
def rootsIn (u : Universe) (uids : List String) : List String :=
  uids.filter (fun uid => (alookup u.byUID uid).isSome)

/-- Decidable check that the UID index maps every node's own UID back
to that node: rules out duplicate object UIDs and Node alias entries
shadowing a real UID. -/
def uidRoundTripCheck (u : Universe) : Bool :=
  (List.range u.store.length).all (fun i =>
    alookup u.byUID (getN u.store i).UID = some i)

/-- Decidable check that the UID index is injective (no two index keys
point to the same node); Node alias entries violate this. -/
def uidInjCheck (u : Universe) : Bool :=
  (u.byUID.map (fun e => e.2)).Nodup

/-- Does this object write the given UID-index key during universe
construction: its own UID always, and its name and hostname label when
it maps to a core-group Node? -/
def claimsKey (mapper : Mapper) (o : K8sObject) (k : String) : Bool :=
  match mapper o.group o.kind o.version with
  | none => false
  | some m =>
      o.uid = k ∨ (m.group = "" ∧ m.kind = "Node" ∧
        (o.name = k ∨ alookup o.labels "kubernetes.io/hostname" = some k))

/-- The position of the last object in the list that writes the given
UID-index key. -/
def lastClaim (mapper : Mapper) : List K8sObject → String → Option Nat
  | [], _ => none
  | o :: rest, k =>
      match lastClaim mapper rest k with
      | some j => some (j + 1)
      | none => if claimsKey mapper o k then some 0 else none

/-- A RESTMapper covering the kinds used by the concrete scenarios. -/
def testMapper : Mapper := fun g k _v =>
  if g = "" ∧ k = "Node" then some ⟨"", "v1", "Node", "nodes"⟩
  else if g = "" ∧ k = "Pod" then some ⟨"", "v1", "Pod", "pods"⟩
  else if g = "" ∧ k = "Service" then some ⟨"", "v1", "Service", "services"⟩
  else if g = "" ∧ k = "ConfigMap" then some ⟨"", "v1", "ConfigMap", "configmaps"⟩
  else if g = "" ∧ k = "Secret" then some ⟨"", "v1", "Secret", "secrets"⟩
  else if g = "" ∧ k = "Event" then some ⟨"", "v1", "Event", "events"⟩
  else if g = "rbac.authorization.k8s.io" ∧ k = "ClusterRole" then
    some ⟨"rbac.authorization.k8s.io", "v1", "ClusterRole", "clusterroles"⟩
  else if g = "policy" ∧ k = "PodSecurityPolicy" then
    some ⟨"policy", "v1beta1", "PodSecurityPolicy", "podsecuritypolicies"⟩
  else if g = "apiregistration.k8s.io" ∧ k = "APIService" then
    some ⟨"apiregistration.k8s.io", "v1", "APIService", "apiservices"⟩
  else if g = "apps" ∧ k = "Deployment" then some ⟨"apps", "v1", "Deployment", "deployments"⟩
  else if g = "apps" ∧ k = "ReplicaSet" then some ⟨"apps", "v1", "ReplicaSet", "replicasets"⟩
  else if g = "networking.k8s.io" ∧ k = "Ingress" then
    some ⟨"networking.k8s.io", "v1", "Ingress", "ingresses"⟩
  else if g = "extensions" ∧ k = "Ingress" then
    some ⟨"extensions", "v1beta1", "Ingress", "ingresses"⟩
  else none

/-- C2 scenario: a ClusterRole whose aggregationRule selector matches
its own labels. -/
def crSelfObj : K8sObject :=
  { group := "rbac.authorization.k8s.io", version := "v1", kind := "ClusterRole",
    name := "r", uid := "cr1", labels := [("a", "b")],
    manifest := { aggregationRule := some [{ matchLabels := [("a", "b")] }] } }

/-- C2 scenario resolution. -/
def c2Run : ResolveResult := ResolveDependents testMapper [crSelfObj] ["cr1"] 10

/-- S3 scenario: a Node. -/
def s3NodeObj : K8sObject := { version := "v1", kind := "Node", name := "worker-1", uid := "n1" }

/-- S3 scenario: a core-group Event whose manifest carries
`involvedObject.uid = n1` (the serialized field name of
`v1.Event.InvolvedObject.UID`). -/
def s3EventObj : K8sObject :=
  { version := "v1", kind := "Event", name := "x", ns := "default", uid := "e1",
    content := [("involvedObject", [("uid", "n1")])] }

/-- S3 scenario resolution. -/
def s3Run : ResolveResult := ResolveDependents testMapper [s3NodeObj, s3EventObj] ["n1"] 10

/-- C4 scenario: a networking.k8s.io Ingress with one TLS entry. -/
def c4IngNet : K8sObject :=
  { group := "networking.k8s.io", version := "v1", kind := "Ingress", name := "ing",
    ns := "d", uid := "i1", manifest := { ingress := { tls := [{ secretName := "s" }] } } }

/-- C4 scenario: an extensions Ingress with one TLS entry. -/
def c4IngExt : K8sObject :=
  { group := "extensions", version := "v1beta1", kind := "Ingress", name := "ing2",
    ns := "d", uid := "i2", manifest := { ingress := { tls := [{ secretName := "s" }] } } }

/-- Does a relationship occur anywhere in a RelationshipMap? -/
def rmapMentions (m : RelationshipMap) (r : Relationship) : Bool :=
  (m.DependenciesByLabelSelector ++ m.DependenciesByRef ++ m.DependenciesBySelector ++
    m.DependenciesByUID ++ m.DependentsByLabelSelector ++ m.DependentsByRef ++
    m.DependentsBySelector ++ m.DependentsByUID).any (fun e => e.2.contains r)

/-- The NodeData the universe builder creates for `c4IngNet`. -/
def c4NodeNet : NodeData :=
  { obj := c4IngNet, UID := "i1", Group := "networking.k8s.io", Version := "v1",
    Kind := "Ingress", Resource := "ingresses", Namespaced := true, Namespace := "d",
    Name := "ing" }

/-- The NodeData the universe builder creates for `c4IngExt`. -/
def c4NodeExt : NodeData :=
  { obj := c4IngExt, UID := "i2", Group := "extensions", Version := "v1beta1",
    Kind := "Ingress", Resource := "ingresses", Namespaced := true, Namespace := "d",
    Name := "ing2" }

/-- C5 scenario: an object whose real UID is `w`, listed before a Node
named `w`. -/
def c5Cm : K8sObject := { version := "v1", kind := "ConfigMap", name := "cm", ns := "d", uid := "w" }

/-- C5 scenario: the Node whose name aliases `w`. -/
def c5Node : K8sObject := { version := "v1", kind := "Node", name := "w", uid := "n2" }

/-- S6 scenario: a ClusterRole with a PSP-use rule with empty
resourceNames. -/
def s6Role : K8sObject :=
  { group := "rbac.authorization.k8s.io", version := "v1", kind := "ClusterRole",
    name := "r", uid := "r1",
    manifest := { rules := [{ apiGroups := ["policy"], resources := ["podsecuritypolicies"],
                              verbs := ["use"] }] } }

/-- S6 scenario: first PodSecurityPolicy. -/
def s6PspA : K8sObject :=
  { group := "policy", version := "v1beta1", kind := "PodSecurityPolicy", name := "psp-a", uid := "pa" }

/-- S6 scenario: second PodSecurityPolicy. -/
def s6PspB : K8sObject :=
  { group := "policy", version := "v1beta1", kind := "PodSecurityPolicy", name := "psp-b", uid := "pb" }

/-- S6 scenario resolution. -/
def s6Run : ResolveResult := ResolveDependencies testMapper [s6Role, s6PspA, s6PspB] ["r1"] 10

/-- C8 counterexample: a core Node named `w` (UID `x1`) owning-and-owned
in a two-cycle with a ConfigMap (UID `y`), resolved with the Node's
*name alias* as the root. -/
def c8NodeX : K8sObject :=
  { version := "v1", kind := "Node", name := "w", uid := "x1",
    ownerReferences := [{ uid := "y" }] }

/-- C8 counterexample: the other half of the owner-reference cycle. -/
def c8ObjY : K8sObject :=
  { version := "v1", kind := "ConfigMap", name := "ycm", uid := "y",
    ownerReferences := [{ uid := "x1" }] }

/-- C8 counterexample resolution. -/
def c8Run : ResolveResult := ResolveDependents testMapper [c8NodeX, c8ObjY] ["w"] 30

/-- C1 counterexample: two objects sharing UID `U` (the Service is
shadowed in the UID index by the ConfigMap) plus an APIService whose
manifest references the Service by name. -/
def c1SvcX : K8sObject := { version := "v1", kind := "Service", name := "x", ns := "d", uid := "U" }

/-- C1 counterexample: the UID-index winner for `U`. -/
def c1CmB : K8sObject := { version := "v1", kind := "ConfigMap", name := "b", ns := "d", uid := "U" }

/-- C1 counterexample: the APIService referencing Service `x`. -/
def c1Apisvc : K8sObject :=
  { group := "apiregistration.k8s.io", version := "v1", kind := "APIService", name := "as",
    uid := "a1", manifest := { apiServiceService := some ("d", "x") } }

/-- C1 counterexample resolution. -/
def c1Run : ResolveResult := ResolveDependencies testMapper [c1SvcX, c1CmB, c1Apisvc] ["a1"] 10

/-- C9 counterexample: an object no RESTMapper entry covers. -/
def c9Bad : K8sObject := { group := "nosuch.group", version := "v1", kind := "FooBar", name := "f", uid := "f1" }

/-- C10 scenario: a Service with an empty `spec.selector`. -/
def c10Svc : K8sObject := { version := "v1", kind := "Service", name := "svc", ns := "d", uid := "s1" }

/-- C10 scenario: a Pod in the Service's namespace. -/
def c10Pod : K8sObject :=
  { version := "v1", kind := "Pod", name := "p", ns := "d", uid := "p1", labels := [("x", "y")] }

/-- C10 scenario resolution. -/
def c10Run : ResolveResult := ResolveDependencies testMapper [c10Svc, c10Pod] ["s1"] 10

/-- The C10 universe after the graph phase (used by the amended-claim
witness). -/
def c10U : Universe :=
  (graphPhase testMapper [c10Svc, c10Pod]).toOption.getD {}

/-- Witness scenario: a Deployment owning a ReplicaSet (S1-style). -/
def w1Deploy : K8sObject :=
  { group := "apps", version := "v1", kind := "Deployment", name := "coredns", ns := "kube-system", uid := "d1" }

/-- Witness scenario: the controlled ReplicaSet. -/
def w1Rs : K8sObject :=
  { group := "apps", version := "v1", kind := "ReplicaSet", name := "coredns-5d", ns := "kube-system",
    uid := "rs1", ownerReferences := [{ uid := "d1", controller := true }] }

/-- Witness scenario resolution. -/
def w1Run : ResolveResult := ResolveDependents testMapper [w1Deploy, w1Rs] ["d1"] 10

/-- The witness-scenario universe after the graph phase. -/
def w1U : Universe :=
  (graphPhase testMapper [w1Deploy, w1Rs]).toOption.getD {}

/-- Count of backslash characters in a string (the reserved key
separator). -/
def countBS (s : String) : Nat :=
  s.data.count (Char.ofNat 92)

/-- The NodeData the universe builder creates for the S3 Event. -/
def s3EventNode : NodeData :=
  { obj := s3EventObj, UID := "e1", Group := "", Version := "v1", Kind := "Event",
    Resource := "events", Namespaced := true, Namespace := "default", Name := "x" }

/-- The S3 universe as built (used to read the graph off the pipeline
stages). -/
def s3Universe : Universe :=
  (graphPhase testMapper [s3NodeObj, s3EventObj]).toOption.getD {}

/-- The NodeData the universe builder creates for the S6 ClusterRole. -/
def s6RoleNode : NodeData :=
  { obj := s6Role, UID := "r1", Group := "rbac.authorization.k8s.io", Version := "v1",
    Kind := "ClusterRole", Resource := "clusterroles", Namespaced := false,
    Namespace := "", Name := "r" }

/-- A ClusterRole whose PSP-use rule names its resources. -/
def c7NamedRole : K8sObject :=
  { group := "rbac.authorization.k8s.io", version := "v1", kind := "ClusterRole",
    name := "rn", uid := "rn1",
    manifest := { rules := [{ apiGroups := ["*"], resources := ["*"], verbs := ["use"],
                              resourceNames := ["psp-a"] }] } }

/-- The NodeData the universe builder creates for `c7NamedRole`. -/
def c7NamedNode : NodeData :=
  { obj := c7NamedRole, UID := "rn1", Group := "rbac.authorization.k8s.io", Version := "v1",
    Kind := "ClusterRole", Resource := "clusterroles", Namespaced := false,
    Namespace := "", Name := "rn" }

/-- C5 witness universe: the two C5 objects in the reverse order (the
Node first, the real-UID object second). -/
def c5URev : Universe :=
  (buildUniverse testMapper [c5Node, c5Cm]).toOption.getD {}

/-- Two node records agree on everything except their edge maps and
depth (the only parts resolution mutates). -/
def sameShape (n n' : NodeData) : Prop :=
  n'.obj = n.obj ∧ n'.UID = n.UID ∧ n'.Group = n.Group ∧ n'.Version = n.Version ∧
    n'.Kind = n.Kind ∧ n'.Resource = n.Resource ∧ n'.Namespaced = n.Namespaced ∧
    n'.Namespace = n.Namespace ∧ n'.Name = n.Name ∧
    n'.OwnerReferences = n.OwnerReferences

/-- Two node records agree on everything except depth. -/
def sameGraph (n n' : NodeData) : Prop :=
  sameShape n n' ∧ n'.Dependencies = n.Dependencies ∧ n'.Dependents = n.Dependents

/-- Store evolution that only touches edge maps and depths. -/
def staticEq (st st' : Store) : Prop :=
  st'.length = st.length ∧ ∀ i, sameShape (getN st i) (getN st' i)

/-- Store evolution that only touches depths. -/
def graphEq (st st' : Store) : Prop :=
  st'.length = st.length ∧ ∀ i, sameGraph (getN st i) (getN st' i)

/-- The bidirectionality invariant over the valid indices of a store:
`R ∈ a.Dependents[b.UID] ⇔ R ∈ b.Dependencies[a.UID]`. -/
def bidirProp (st : Store) : Prop :=
  ∀ i j, i < st.length → j < st.length → ∀ r : Relationship,
    (r ∈ dependentsOf st i (getN st j).UID ↔ r ∈ dependenciesOf st j (getN st i).UID)

/-- All node-pointer values of an index map are valid store indices. -/
def indexValid (m : List (String × Nat)) (st : Store) : Prop :=
  ∀ k i, alookup m k = some i → i < st.length

/-- The UID index sends every node's own UID back to that node
(Prop form of `uidRoundTripCheck`). -/
def uidRoundTrip (u : Universe) : Prop :=
  ∀ i, i < u.store.length → alookup u.byUID (getN u.store i).UID = some i

/-- C2 counterexample: the no-self-loops claim fails on the code.  For
the universe containing only `crSelfObj` — a ClusterRole whose
aggregationRule clusterRoleSelectors match its own labels — with root
`cr1`, the resolution succeeds yet the returned NodeMap contains a node
(the ClusterRole itself) whose own UID occurs in its Dependents and
Dependencies. -/
theorem C2_counterexample :
    c2Run.isOk = true ∧ noSelfLoopCheck c2Run.nodeMapOf c2Run.storeOf = false := by
  decide

/-- C2 (amended): self-loops can survive resolution.  When an object's
own labels satisfy a label selector it emits, the node appears in its
own Dependents and in its own Dependencies: in the ClusterRole
aggregation scenario the root carries itself in both maps under
`ClusterRoleAggregationRule`. -/
theorem C2_no_self_loops_amended :
    c2Run.isOk = true ∧
    alookup c2Run.nodeMapOf "cr1" = some (some 0) ∧
    (getN c2Run.storeOf 0).UID = "cr1" ∧
    RelationshipClusterRoleAggregationRule ∈ dependenciesOf c2Run.storeOf 0 "cr1" ∧
    RelationshipClusterRoleAggregationRule ∈ dependentsOf c2Run.storeOf 0 "cr1" := by
  decide

/-- C3 (code bug): in scenario S3 the core-group Event extractor reads
the nested content field `involvedobject.uid` (all lowercase) while the
Event manifest serializes it as `involvedObject.uid`, so the lookup
misses, the extracted dependency targets the empty UID, and the Event
never becomes a dependent of the Node: the returned NodeMap contains
only the Node, with empty Dependents. -/
theorem C3_event_by_uid_code_bug :
    s3EventNode.GetNestedString2 "involvedObject" "uid" = "n1" ∧
    s3EventNode.GetNestedString2 "involvedobject" "uid" = "" ∧
    (getEventRelationships s3EventNode).DependenciesByUID =
      [("", [RelationshipEventRegarding])] ∧
    s3Run.isOk = true ∧
    alookup s3Run.nodeMapOf "e1" = none ∧
    alookup s3Run.nodeMapOf "n1" = some (some 0) ∧
    (getN s3Run.storeOf 0).Dependents = [] := by
  decide

/-- C4 (code bug): in both the extensions and the networking.k8s.io
branches, the TLS loop of the Ingress extractor emits the dependency on
the Secret named by `spec.tls[].secretName` under the
`IngressClass` relationship, and the declared `IngressTLSSecret`
relationship is attached to no edge at all. -/
theorem C4_ingress_tls_code_bug :
    alookup (getIngressRelationships c4NodeNet).DependenciesByRef
      (ObjectReference.Key ⟨"", "Secret", "d", "s"⟩) = some [RelationshipIngressClass] ∧
    alookup (getIngressRelationships c4NodeExt).DependenciesByRef
      (ObjectReference.Key ⟨"", "Secret", "d", "s"⟩) = some [RelationshipIngressClass] ∧
    rmapMentions (getIngressRelationships c4NodeNet) RelationshipIngressTLSSecret = false ∧
    rmapMentions (getIngressRelationships c4NodeExt) RelationshipIngressTLSSecret = false := by
  decide

/-- C5 counterexample: the Node alias entries are added inside the main
indexing loop, not after it.  With an object of real UID `w` listed
before a Node named `w`, the UID-index lookup of `w` returns the
aliased Node (position 1, UID `n2`), not the object whose real UID is
`w` (position 0). -/
theorem C5_counterexample :
    (buildUniverse testMapper [c5Cm, c5Node]).toOption.map (fun u => alookup u.byUID "w") =
      some (some 1) ∧
    (buildUniverse testMapper [c5Cm, c5Node]).toOption.map
        (fun u => ((getN u.store 0).UID, (getN u.store 1).UID)) =
      some ("w", "n2") := by
  decide

/-- C9 counterexample: with an empty root-UID list, `resolveDeps`
returns an empty NodeMap and no error before ever consulting the
RESTMapper, even though the input list contains an object the mapper
cannot map. -/
theorem C9_counterexample :
    testMapper c9Bad.group c9Bad.kind c9Bad.version = none ∧
    ResolveDependents testMapper [c9Bad] [] 5 = .ok [] [] := by
  decide

/-- C10 counterexample: for a Service with empty `spec.selector` and a
Pod in its namespace, the Pod does not become a *dependent* of the
Service — the Service's Dependents map stays empty; instead the Pod is
recorded among the Service's *dependencies*. -/
theorem C10_counterexample :
    c10Run.isOk = true ∧
    alookup c10Run.nodeMapOf "s1" = some (some 0) ∧
    (getN c10Run.storeOf 0).Dependents = [] ∧
    RelationshipService ∈ dependenciesOf c10Run.storeOf 0 "p1" := by
  decide

/-- C8 counterexample: depth monotonicity fails.  Rooting the
resolution at the *name alias* `w` of Node `x1`, which sits in an
owner-reference two-cycle with `y`, the BFS first visits the node via
the alias (depth 0) and later re-visits it via its real UID; the
`Depth == 0` test then overwrites the root's depth with 2, so the node
mapped at root key `w` — whose shortest-path distance from the root set
is 0 — ends with Depth 2. -/
theorem C8_counterexample :
    c8Run.isOk = true ∧
    alookup c8Run.nodeMapOf "w" = some (some 0) ∧
    (getN c8Run.storeOf 0).Depth = 2 ∧
    ¬ (getN c8Run.storeOf 0).Depth ≤ 0 := by
  decide

/-- C1 counterexample: edge bidirectionality fails when two input
objects share a UID.  The APIService's by-Ref edge resolves to the
Service (position 0) and writes its dependent half there, but the UID
index maps the shared UID `U` to the ConfigMap (position 1), which is
the node the returned NodeMap contains: `APIService` is in the
APIService node's Dependencies under `U` while the mapped node for `U`
has empty Dependents. -/
theorem C1_counterexample :
    c1Run.isOk = true ∧
    alookup c1Run.nodeMapOf "a1" = some (some 2) ∧
    alookup c1Run.nodeMapOf "U" = some (some 1) ∧
    (getN c1Run.storeOf 1).UID = "U" ∧
    (getN c1Run.storeOf 2).UID = "a1" ∧
    RelationshipAPIService ∈ dependenciesOf c1Run.storeOf 2 "U" ∧
    RelationshipAPIService ∉ dependentsOf c1Run.storeOf 1 "a1" ∧
    bidirCheck c1Run.nodeMapOf c1Run.storeOf = false := by
  decide

theorem alookup_aInsert_self {α : Type} (l : List (String × α)) (k : String) (v : α) :
    alookup (aInsert l k v) k = some v := by
  induction l with
  | nil => simp [aInsert, alookup]
  | cons e t ih =>
      obtain ⟨k1, v1⟩ := e
      by_cases h : k1 = k
      · simp [aInsert, h, alookup]
      · simp [aInsert, h, alookup, ih]

theorem alookup_aInsert_ne {α : Type} (l : List (String × α)) {k k' : String} (v : α)
    (h : k ≠ k') : alookup (aInsert l k v) k' = alookup l k' := by
  induction l with
  | nil => simp [aInsert, alookup, h]
  | cons e t ih =>
      obtain ⟨k1, v1⟩ := e
      by_cases h1 : k1 = k
      · subst h1
        simp [aInsert, alookup, h]
      · simp [aInsert, h1, alookup, ih]

theorem alookup_mem {α : Type} {l : List (String × α)} {k : String} {v : α}
    (h : alookup l k = some v) : (k, v) ∈ l := by
  induction l with
  | nil => simp [alookup] at h
  | cons e t ih =>
      obtain ⟨k1, v1⟩ := e
      by_cases h1 : k1 = k
      · subst h1
        simp [alookup] at h
        subst h
        exact List.mem_cons_self _ _
      · simp [alookup, h1] at h
        exact List.mem_cons_of_mem _ (ih h)

theorem foldl_preserve {α β : Type} {P : α → Prop} {f : α → β → α}
    (hf : ∀ s a, P s → P (f s a)) :
    ∀ (l : List β) (s : α), P s → P (l.foldl f s) := by
  intro l
  induction l with
  | nil => intro s hs; simpa using hs
  | cons a t ih => intro s hs; exact ih _ (hf _ _ hs)

theorem foldl_establish {α β : Type} {P : α → Prop} {f : α → β → α} {x : β}
    (hf : ∀ s a, P s → P (f s a)) (hx : ∀ s, P (f s x)) :
    ∀ (l : List β) (s : α), x ∈ l → P (l.foldl f s) := by
  intro l
  induction l with
  | nil => intro s hm; simp at hm
  | cons a t ih =>
      intro s hm
      rcases List.mem_cons.mp hm with h | h
      · subst h
        exact foldl_preserve hf t _ (hx s)
      · exact ih _ h

theorem getN_set_self {st : Store} {i : Nat} (nd : NodeData) (h : i < st.length) :
    getN (st.set i nd) i = nd := by
  unfold getN
  rw [List.get?_eq_getElem?, List.getElem?_set_self]
  simp [List.getElem?_eq_getElem, h]
  exact h

theorem getN_set_ne {st : Store} {i j : Nat} (nd : NodeData) (h : i ≠ j) :
    getN (st.set i nd) j = getN st j := by
  unfold getN
  rw [List.get?_eq_getElem?, List.getElem?_set_ne h, ← List.get?_eq_getElem?]

theorem getN_set (st : Store) (i j : Nat) (nd : NodeData) :
    getN (st.set i nd) j = if i = j ∧ i < st.length then nd else getN st j := by
  by_cases h1 : i = j
  · subst h1
    by_cases h2 : i < st.length
    · simp [getN_set_self nd h2, h2]
    · rw [List.set_eq_of_length_le (Nat.le_of_not_lt h2)]
      simp [h2]
  · simp [getN_set_ne nd h1, h1]

theorem length_set_store (st : Store) (i : Nat) (nd : NodeData) :
    (st.set i nd).length = st.length := by
  simp

theorem getN_setN (st : Store) (i j : Nat) (f : NodeData → NodeData) :
    getN (setN st i f) j =
      if i = j ∧ i < st.length then f (getN st i) else getN st j := by
  unfold setN
  exact getN_set st i j (f (getN st i))

theorem length_setN (st : Store) (i : Nat) (f : NodeData → NodeData) :
    (setN st i f).length = st.length :=
  length_set_store st i (f (getN st i))

theorem mem_insertRel_self (s : RelSet) (r : Relationship) : r ∈ insertRel s r := by
  unfold insertRel
  by_cases h : s.contains r
  · simp only [if_pos h]
    exact List.mem_of_elem_eq_true h
  · simp only [if_neg h]
    exact List.mem_append_right _ (List.mem_singleton.mpr rfl)

theorem mem_insertRel_of_mem {s : RelSet} {r' : Relationship} (r : Relationship)
    (h : r' ∈ s) : r' ∈ insertRel s r := by
  unfold insertRel
  by_cases hc : s.contains r
  · rw [if_pos hc]
    exact h
  · rw [if_neg hc]
    exact List.mem_append_left _ h

theorem alookup_addRelAt_self (m : List (String × RelSet)) (k : String) (r : Relationship) :
    alookup (addRelAt m k r) k = some (insertRel ((alookup m k).getD []) r) := by
  unfold addRelAt
  cases h : alookup m k with
  | some s => simp [alookup_aInsert_self]
  | none => simp [alookup_aInsert_self]

theorem alookup_addRelAt_ne (m : List (String × RelSet)) {k k' : String} (r : Relationship)
    (h : k ≠ k') : alookup (addRelAt m k r) k' = alookup m k' := by
  unfold addRelAt
  cases alookup m k with
  | some s => simp [alookup_aInsert_ne _ _ h]
  | none => simp [alookup_aInsert_ne _ _ h]

theorem mem_addRelAt_self (m : List (String × RelSet)) (k : String) (r : Relationship) :
    r ∈ (alookup (addRelAt m k r) k).getD [] := by
  rw [alookup_addRelAt_self]
  exact mem_insertRel_self _ _

theorem mem_addRelAt_of_mem (m : List (String × RelSet)) (k k' : String)
    (r r' : Relationship) (h : r' ∈ (alookup m k').getD []) :
    r' ∈ (alookup (addRelAt m k r) k').getD [] := by
  by_cases hk : k = k'
  · subst hk
    rw [alookup_addRelAt_self]
    cases hm : alookup m k with
    | some s =>
        rw [hm] at h
        exact mem_insertRel_of_mem _ h
    | none =>
        rw [hm] at h
        simp at h
  · rw [alookup_addRelAt_ne _ _ hk]
    exact h

theorem countBS_append (a b : String) : countBS (a ++ b) = countBS a + countBS b := by
  unfold countBS
  have h : (a ++ b).data = a.data ++ b.data := by
    cases a
    cases b
    rfl
  rw [h, List.count_append]

theorem mem_insertSorted {s x : String} :
    ∀ {l : List String}, x ∈ insertSorted s l → x = s ∨ x ∈ l := by
  intro l
  induction l with
  | nil =>
      intro h
      unfold insertSorted at h
      exact Or.inl (List.mem_singleton.mp h)
  | cons t ts ih =>
      intro h
      unfold insertSorted at h
      by_cases hle : s ≤ t
      · rw [if_pos hle] at h
        rcases List.mem_cons.mp h with h | h
        · exact Or.inl h
        · exact Or.inr h
      · rw [if_neg hle] at h
        rcases List.mem_cons.mp h with h | h
        · exact Or.inr (List.mem_cons.mpr (Or.inl h))
        · rcases ih h with h | h
          · exact Or.inl h
          · exact Or.inr (List.mem_cons.mpr (Or.inr h))

theorem mem_sortStrings {x : String} :
    ∀ {l : List String}, x ∈ sortStrings l → x ∈ l := by
  intro l
  induction l with
  | nil => intro h; simp [sortStrings] at h
  | cons t ts ih =>
      intro h
      unfold sortStrings at h
      rcases mem_insertSorted h with h | h
      · exact List.mem_cons.mpr (Or.inl h)
      · exact List.mem_cons.mpr (Or.inr (ih h))

theorem countBS_joinSep_zero (sep : String) (hsep : countBS sep = 0) :
    ∀ (l : List String), (∀ s ∈ l, countBS s = 0) → countBS (joinSep sep l) = 0 := by
  intro l
  induction l with
  | nil => intro _; simp [joinSep]; decide
  | cons a t ih =>
      intro h
      cases t with
      | nil =>
          have := h a (by simp)
          simpa [joinSep] using this
      | cons b ts =>
          have hrest : countBS (joinSep sep (b :: ts)) = 0 :=
            ih (fun s hs => h s (List.mem_cons_of_mem _ hs))
          have ha : countBS a = 0 := h a (by simp)
          calc countBS (joinSep sep (a :: b :: ts))
              = countBS a + countBS sep + countBS (joinSep sep (b :: ts)) := by
                rw [joinSep, countBS_append, countBS_append]
            _ = 0 := by rw [ha, hsep, hrest]

theorem countBS_printStringSet (nss : List String) (h : ∀ n ∈ nss, countBS n = 0) :
    countBS (printStringSet nss) = 0 := by
  unfold printStringSet
  rw [countBS_append, countBS_append]
  have h1 : countBS "map[" = 0 := by decide
  have h2 : countBS "]" = 0 := by decide
  have h3 : countBS (joinSep " " ((sortStrings nss).map (fun s => s ++ ":\x7b\x7d"))) = 0 := by
    apply countBS_joinSep_zero " " (by decide)
    intro s hs
    rcases List.mem_map.mp hs with ⟨n, hn, rfl⟩
    rw [countBS_append, h n (mem_sortStrings hn)]
    decide
  rw [h1, h2, h3]

theorem countBS_refKey (r : ObjectReference) :
    countBS r.Key =
      countBS r.Group + countBS r.Kind + countBS r.Namespace + countBS r.Name + 3 := by
  have hbs : countBS "\\" = 1 := by decide
  simp only [ObjectReference.Key, countBS_append, hbs]
  omega

theorem countBS_labelSelKey (o : ObjectLabelSelector) :
    countBS o.Key =
      countBS o.Group + countBS o.Kind + countBS o.Namespace +
        countBS (selString o.Selector) + 3 := by
  have hbs : countBS "\\" = 1 := by decide
  simp only [ObjectLabelSelector.Key, countBS_append, hbs]
  omega

theorem countBS_kindSelKey (o : ObjectSelector) :
    countBS o.Key =
      countBS o.Group + countBS o.Kind + countBS (printStringSet o.Namespaces) + 2 := by
  have hbs : countBS "\\" = 1 := by decide
  simp only [ObjectSelector.Key, countBS_append, hbs]
  omega

/-- C6 (amended).  All three key operations are total, deterministic
functions by construction, and — provided no component string contains
the reserved `\` separator — a kind-selector key (two separators) never
collides with a reference key or a label-selector key (three separators
each).  The original claim's further assertion that reference keys and
label-selector keys never collide is false (see the counterexample): the
two key shapes have the same field count. -/
theorem C6_key_spaces_amended (r : ObjectReference) (ls : ObjectLabelSelector)
    (ks : ObjectSelector)
    (h1 : countBS r.Group = 0) (h2 : countBS r.Kind = 0) (h3 : countBS r.Namespace = 0)
    (h4 : countBS r.Name = 0) (h5 : countBS ls.Group = 0) (h6 : countBS ls.Kind = 0)
    (h7 : countBS ls.Namespace = 0) (h8 : countBS (selString ls.Selector) = 0)
    (h9 : countBS ks.Group = 0) (h10 : countBS ks.Kind = 0)
    (h11 : ∀ n ∈ ks.Namespaces, countBS n = 0) :
    r.Key ≠ ks.Key ∧ ls.Key ≠ ks.Key := by
  have hr : countBS r.Key = 3 := by
    rw [countBS_refKey, h1, h2, h3, h4]
  have hl : countBS ls.Key = 3 := by
    rw [countBS_labelSelKey, h5, h6, h7, h8]
  have hk : countBS ks.Key = 2 := by
    rw [countBS_kindSelKey, h9, h10, countBS_printStringSet ks.Namespaces h11]
  constructor
  · intro he
    rw [he, hk] at hr
    omega
  · intro he
    rw [he, hk] at hl
    omega

/-- C6 witness: the amended disjointness at concrete inputs — the key
triple that scenario S6 exercises. -/
theorem C6_key_spaces_amended_witness :
    ObjectReference.Key ⟨"policy", "PodSecurityPolicy", "", "psp-a"⟩ ≠
      ObjectSelector.Key ⟨"policy", "PodSecurityPolicy", []⟩ ∧
    ObjectLabelSelector.Key ⟨"", "Pod", "d", []⟩ ≠
      ObjectSelector.Key ⟨"policy", "PodSecurityPolicy", []⟩ :=
  C6_key_spaces_amended ⟨"policy", "PodSecurityPolicy", "", "psp-a"⟩ ⟨"", "Pod", "d", []⟩
    ⟨"policy", "PodSecurityPolicy", []⟩ (by decide) (by decide) (by decide) (by decide)
    (by decide) (by decide) (by decide) (by decide) (by decide) (by decide)
    (by intro n hn; simp at hn)

/-- C6 counterexample: the claim that no Ref key ever equals any
LabelSel key is false; both shapes have four fields, and the key of the
reference `("", Node, "", "")` — which the Pod extractor builds for an
unscheduled Pod's empty `nodeName` — equals the key of the label
selector `("", Node, "", everything)` — which the RuntimeClass
extractor builds from an empty scheduling nodeSelector. -/
theorem C6_counterexample :
    ObjectReference.Key ⟨"", "Node", "", ""⟩ = ObjectLabelSelector.Key ⟨"", "Node", "", []⟩ := by
  decide

theorem buildUniverseGo_error (mapper : Mapper) :
    ∀ (objects : List K8sObject) (ix : Nat) (u : Universe),
      (∃ o ∈ objects, mapper o.group o.kind o.version = none) →
      buildUniverseGo mapper objects ix u = .error () := by
  intro objects
  induction objects with
  | nil => intro ix u h; simp at h
  | cons o rest ih =>
      intro ix u h
      cases hm : mapper o.group o.kind o.version with
      | none => simp [buildUniverseGo, hm]
      | some m =>
          rcases h with ⟨o', ho', hfail⟩
          rcases List.mem_cons.mp ho' with h1 | h1
          · subst h1
            rw [hm] at hfail
            cases hfail
          · simp only [buildUniverseGo, hm]
            exact ih _ _ ⟨o', h1, hfail⟩

/-- C9 (amended).  Provided the root UID list is non-empty, a RESTMapper
failure on any single input object aborts the whole resolution with the
error outcome: no partial graph is returned.  (With an empty root list
the functions return an empty NodeMap and no error before consulting
the mapper — see the counterexample.) -/
theorem C9_mapper_error_aborts (mapper : Mapper) (objects : List K8sObject)
    (uids : List String) (dir : Bool) (fuel : Nat)
    (hne : uids ≠ [])
    (o : K8sObject) (ho : o ∈ objects)
    (hfail : mapper o.group o.kind o.version = none) :
    resolveDeps mapper objects uids dir fuel = .mapError := by
  unfold resolveDeps
  rw [if_neg hne]
  unfold graphPhase buildUniverse
  rw [buildUniverseGo_error mapper objects 0 {} ⟨o, ho, hfail⟩]

/-- C9 witness: the amended abort behavior at a concrete input. -/
theorem C9_mapper_error_aborts_witness :
    testMapper c9Bad.group c9Bad.kind c9Bad.version = none ∧
    resolveDeps testMapper [c9Bad] ["x"] false 5 = .mapError :=
  ⟨by decide,
   C9_mapper_error_aborts testMapper [c9Bad] ["x"] false 5 (by decide) c9Bad (by simp)
     (by decide)⟩

theorem buildUniverseGo_byUID_lookup (mapper : Mapper) :
    ∀ (objects : List K8sObject) (ix : Nat) (u0 res : Universe),
      buildUniverseGo mapper objects ix u0 = .ok res →
      ∀ k, alookup res.byUID k =
        (match lastClaim mapper objects k with
         | some j => some (ix + j)
         | none => alookup u0.byUID k) := by
  intro objects
  induction objects with
  | nil =>
      intro ix u0 res h k
      simp only [buildUniverseGo] at h
      cases h
      simp [lastClaim]
  | cons o rest ih =>
      intro ix u0 res h k
      cases hm : mapper o.group o.kind o.version with
      | none => simp [buildUniverseGo, hm] at h
      | some m =>
          simp only [buildUniverseGo, hm] at h
          have hstep := ih (ix + 1) _ res h k
          rw [hstep]
          have hclaims : claimsKey mapper o k =
              (o.uid = k ∨ (m.group = "" ∧ m.kind = "Node" ∧
                (o.name = k ∨ alookup o.labels "kubernetes.io/hostname" = some k)) : Bool) := by
            simp [claimsKey, hm]
          cases hlc : lastClaim mapper rest k with
          | some j =>
              simp only [lastClaim, hlc]
              have : ix + 1 + j = ix + (j + 1) := by omega
              rw [this]
          | none =>
              simp only [lastClaim, hlc]
              by_cases hck : claimsKey mapper o k = true
              · rw [if_pos hck]
                rw [hclaims] at hck
                simp only [decide_eq_true_eq] at hck
                have hgoal : ∀ v : Nat, some v = some (ix + 0) ↔ v = ix := by
                  intro v
                  constructor
                  · intro hv; cases hv; omega
                  · intro hv; subst hv; rfl
                by_cases hnode : m.group = "" ∧ m.kind = "Node"
                · simp only [if_pos hnode]
                  cases hh : alookup o.labels "kubernetes.io/hostname" with
                  | some hst =>
                      by_cases h1 : hst = k
                      · subst h1
                        rw [alookup_aInsert_self, hgoal]
                      · rw [alookup_aInsert_ne _ _ h1]
                        by_cases h2 : o.name = k
                        · subst h2
                          rw [alookup_aInsert_self, hgoal]
                        · rw [alookup_aInsert_ne _ _ h2]
                          have h3 : o.uid = k := by
                            rcases hck with h3 | ⟨_, _, h4 | h4⟩
                            · exact h3
                            · exact absurd h4 h2
                            · rw [hh] at h4
                              cases h4
                              exact absurd rfl h1
                          subst h3
                          rw [alookup_aInsert_self, hgoal]
                  | none =>
                      by_cases h2 : o.name = k
                      · subst h2
                        rw [alookup_aInsert_self, hgoal]
                      · rw [alookup_aInsert_ne _ _ h2]
                        have h3 : o.uid = k := by
                          rcases hck with h3 | ⟨_, _, h4 | h4⟩
                          · exact h3
                          · exact absurd h4 h2
                          · rw [hh] at h4
                            cases h4
                        subst h3
                        rw [alookup_aInsert_self, hgoal]
                · simp only [if_neg hnode]
                  have h3 : o.uid = k := by
                    rcases hck with h3 | ⟨hg, hk2, _⟩
                    · exact h3
                    · exact absurd ⟨hg, hk2⟩ hnode
                  subst h3
                  rw [alookup_aInsert_self, hgoal]
              · rw [if_neg hck]
                rw [hclaims] at hck
                simp only [decide_eq_true_eq] at hck
                push_neg at hck
                obtain ⟨hnuid, hrest⟩ := hck
                by_cases hnode : m.group = "" ∧ m.kind = "Node"
                · simp only [if_pos hnode]
                  have hboth := hrest hnode.1 hnode.2
                  have hnn : ¬ o.name = k := hboth.1
                  have hnh : ¬ alookup o.labels "kubernetes.io/hostname" = some k := hboth.2
                  cases hh : alookup o.labels "kubernetes.io/hostname" with
                  | some hst =>
                      have h1 : ¬ hst = k := by
                        intro h1
                        rw [h1] at hh
                        exact hnh hh
                      rw [alookup_aInsert_ne _ _ h1, alookup_aInsert_ne _ _ hnn,
                        alookup_aInsert_ne _ _ hnuid]
                  | none =>
                      rw [alookup_aInsert_ne _ _ hnn, alookup_aInsert_ne _ _ hnuid]
                · simp only [if_neg hnode]
                  rw [alookup_aInsert_ne _ _ hnuid]

/-- C5 (amended).  The alias entries are added inline, per Node, during
the single indexing pass — not after it — so the UID index obeys
last-write-wins over the interleaved writes: a lookup of key `k`
returns the node of the *last* object in the input list that writes
`k`, whether it writes it as its real UID or as a Node name/hostname
alias.  The real UID therefore shadows a Node alias only when its
object appears after that Node in the input list. -/
theorem C5_alias_last_write_wins (mapper : Mapper) (objects : List K8sObject)
    (u : Universe) (h : buildUniverse mapper objects = .ok u) (k : String) :
    alookup u.byUID k = lastClaim mapper objects k := by
  have hc := buildUniverseGo_byUID_lookup mapper objects 0 {} u h k
  rw [hc]
  cases lastClaim mapper objects k with
  | some j => simp
  | none => simp [alookup]

/-- C5 witness: the characterization at a concrete input where the Node
is listed first, so the later real UID wins the index entry. -/
theorem C5_alias_last_write_wins_witness :
    buildUniverse testMapper [c5Node, c5Cm] = .ok c5URev ∧
    alookup c5URev.byUID "w" = lastClaim testMapper [c5Node, c5Cm] "w" ∧
    lastClaim testMapper [c5Node, c5Cm] "w" = some 1 ∧
    (getN c5URev.store 1).UID = "w" :=
  ⟨rfl, C5_alias_last_write_wins testMapper [c5Node, c5Cm] c5URev rfl "w", by decide, by decide⟩

theorem hasAny_iff (set items : List String) :
    hasAny set items = true ↔ ∃ g, g ∈ set ∧ g ∈ items := by
  unfold hasAny
  rw [List.any_eq_true]
  constructor
  · rintro ⟨i, hi, hc⟩
    exact ⟨i, List.mem_of_elem_eq_true hc, hi⟩
  · rintro ⟨g, hg, hgi⟩
    exact ⟨g, hgi, List.elem_eq_true_of_mem hg⟩

/-- C7.  PodSecurityPolicy rule extraction: (1) a policy rule is
treated as granting PSP use exactly when its apiGroups meet
`{*, extensions, policy}`, its resources meet
`{*, podsecuritypolicies}` and its verbs meet `{*, use}`; (2) for a
ClusterRole with a matching rule with empty resourceNames, the
extractor emits the PodSecurityPolicy kind-selector dependency under
`ClusterRolePolicyRule`; (3) for a matching rule naming resources, a
by-Ref dependency per name; (4) kind-selector unification picks
exactly the universe nodes of group `policy` and kind
`PodSecurityPolicy` (any namespace); (5) in scenario S6 both PSPs end
up as dependencies of ClusterRole `r` with relationship set
`{ClusterRolePolicyRule}`. -/
theorem C7_psp_rule_extraction :
    (∀ r : PolicyRule, podSecurityPolicyMatches r = true ↔
      ((∃ g, g ∈ r.apiGroups ∧ g ∈ (["*", "extensions", "policy"] : List String)) ∧
       (∃ s, s ∈ r.resources ∧ s ∈ (["*", "podsecuritypolicies"] : List String)) ∧
       (∃ v, v ∈ r.verbs ∧ v ∈ (["*", "use"] : List String)))) ∧
    (∀ n : NodeData, (∃ r, r ∈ n.obj.manifest.rules ∧ podSecurityPolicyMatches r = true ∧
        r.resourceNames = []) →
      RelationshipClusterRolePolicyRule ∈
        (alookup (getClusterRoleRelationships n).DependenciesBySelector
          (ObjectSelector.Key ⟨"policy", "PodSecurityPolicy", []⟩)).getD []) ∧
    (∀ (n : NodeData) (nm : String),
      (∃ r, r ∈ n.obj.manifest.rules ∧ podSecurityPolicyMatches r = true ∧
        nm ∈ r.resourceNames) →
      RelationshipClusterRolePolicyRule ∈
        (alookup (getClusterRoleRelationships n).DependenciesByRef
          (ObjectReference.Key ⟨"policy", "PodSecurityPolicy", "", nm⟩)).getD []) ∧
    (∀ (u : Universe) (st : Store) (j : Nat) (pu : String),
      alookup u.byUID pu = some j →
      (j ∈ resolveSelectorToNodes u st ⟨"policy", "PodSecurityPolicy", []⟩ ↔
        (getN st j).Group = "policy" ∧ (getN st j).Kind = "PodSecurityPolicy")) ∧
    (s6Run.isOk = true ∧
      alookup s6Run.nodeMapOf "pa" = some (some 1) ∧
      alookup s6Run.nodeMapOf "pb" = some (some 2) ∧
      dependenciesOf s6Run.storeOf 0 "pa" = [RelationshipClusterRolePolicyRule] ∧
      dependenciesOf s6Run.storeOf 0 "pb" = [RelationshipClusterRolePolicyRule] ∧
      dependentsOf s6Run.storeOf 1 "r1" = [RelationshipClusterRolePolicyRule] ∧
      dependentsOf s6Run.storeOf 2 "r1" = [RelationshipClusterRolePolicyRule]) := by
  refine ⟨?_, ?_, ?_, ?_, by decide⟩
  · intro r
    unfold podSecurityPolicyMatches
    rw [Bool.and_eq_true, Bool.and_eq_true, hasAny_iff, hasAny_iff, hasAny_iff]
    tauto
  · intro n hex
    rcases hex with ⟨r, hr, hm, hnames⟩
    unfold getClusterRoleRelationships
    apply @foldl_establish _ _
      (fun m : RelationshipMap =>
        RelationshipClusterRolePolicyRule ∈ (alookup m.DependenciesBySelector
          (ObjectSelector.Key ⟨"policy", "PodSecurityPolicy", []⟩)).getD [])
      _ r
    · intro m r' hp
      by_cases hmm : podSecurityPolicyMatches r' = true
      · rw [if_pos hmm]
        cases hrn : r'.resourceNames with
        | nil =>
            exact mem_addRelAt_of_mem _ _ _ _ _ hp
        | cons a t =>
            apply @foldl_preserve _ _
              (fun m : RelationshipMap =>
                RelationshipClusterRolePolicyRule ∈ (alookup m.DependenciesBySelector
                  (ObjectSelector.Key ⟨"policy", "PodSecurityPolicy", []⟩)).getD []) _
            · intro s a' hp'
              exact hp'
            · exact hp
      · rw [if_neg hmm]
        exact hp
    · intro s
      rw [if_pos hm, hnames]
      exact mem_addRelAt_self _ _ _
    · exact hr
  · intro n nm hex
    rcases hex with ⟨r, hr, hm, hnm⟩
    unfold getClusterRoleRelationships
    apply @foldl_establish _ _
      (fun m : RelationshipMap =>
        RelationshipClusterRolePolicyRule ∈ (alookup m.DependenciesByRef
          (ObjectReference.Key ⟨"policy", "PodSecurityPolicy", "", nm⟩)).getD [])
      _ r
    · intro m r' hp
      by_cases hmm : podSecurityPolicyMatches r' = true
      · rw [if_pos hmm]
        cases hrn : r'.resourceNames with
        | nil => exact hp
        | cons a t =>
            apply @foldl_preserve _ _
              (fun m : RelationshipMap =>
                RelationshipClusterRolePolicyRule ∈ (alookup m.DependenciesByRef
                  (ObjectReference.Key ⟨"policy", "PodSecurityPolicy", "", nm⟩)).getD []) _
            · intro s a' hp'
              exact mem_addRelAt_of_mem _ _ _ _ _ hp'
            · exact hp
      · rw [if_neg hmm]
        exact hp
    · intro s
      rw [if_pos hm]
      cases hrn : r.resourceNames with
      | nil =>
          rw [hrn] at hnm
          simp at hnm
      | cons a t =>
          rw [hrn] at hnm
          apply @foldl_establish _ _
            (fun m : RelationshipMap =>
              RelationshipClusterRolePolicyRule ∈ (alookup m.DependenciesByRef
                (ObjectReference.Key ⟨"policy", "PodSecurityPolicy", "", nm⟩)).getD [])
            _ nm
          · intro s' a' hp'
            exact mem_addRelAt_of_mem _ _ _ _ _ hp'
          · intro s'
            exact mem_addRelAt_self _ _ _
          · exact hnm
    · exact hr
  · intro u st j pu hj
    unfold resolveSelectorToNodes
    constructor
    · intro hmem
      rcases List.mem_filterMap.mp hmem with ⟨e, _, hfe⟩
      by_cases hcond : (getN st e.2).Group = "policy" ∧ (getN st e.2).Kind = "PodSecurityPolicy" ∧
          (([] : List String) = [] ∨ ([] : List String).contains (getN st e.2).Namespace)
      · rw [if_pos hcond] at hfe
        cases hfe
        exact ⟨hcond.1, hcond.2.1⟩
      · rw [if_neg hcond] at hfe
        cases hfe
    · rintro ⟨hg, hk⟩
      apply List.mem_filterMap.mpr
      refine ⟨(pu, j), alookup_mem hj, ?_⟩
      rw [if_pos ⟨hg, hk, Or.inl rfl⟩]

/-- C7 witness: the hypothesis-bearing parts of the theorem applied at
concrete inputs (the S6 role, a named-resources role, and the S6
universe). -/
theorem C7_psp_rule_extraction_witness :
    RelationshipClusterRolePolicyRule ∈
      (alookup (getClusterRoleRelationships s6RoleNode).DependenciesBySelector
        (ObjectSelector.Key ⟨"policy", "PodSecurityPolicy", []⟩)).getD [] ∧
    RelationshipClusterRolePolicyRule ∈
      (alookup (getClusterRoleRelationships c7NamedNode).DependenciesByRef
        (ObjectReference.Key ⟨"policy", "PodSecurityPolicy", "", "psp-a"⟩)).getD [] :=
  ⟨C7_psp_rule_extraction.2.1 s6RoleNode
      ⟨{ apiGroups := ["policy"], resources := ["podsecuritypolicies"], verbs := ["use"] },
        by decide, by decide, by decide⟩,
   C7_psp_rule_extraction.2.2.1 c7NamedNode "psp-a"
      ⟨{ apiGroups := ["*"], resources := ["*"], verbs := ["use"], resourceNames := ["psp-a"] },
        by decide, by decide, by decide⟩⟩

theorem Dependencies_AddDependent (n : NodeData) (u : String) (r : Relationship) :
    (n.AddDependent u r).Dependencies = n.Dependencies := rfl

theorem Dependents_AddDependency (n : NodeData) (u : String) (r : Relationship) :
    (n.AddDependency u r).Dependents = n.Dependents := rfl

theorem Dependencies_AddDependency (n : NodeData) (u : String) (r : Relationship) :
    (n.AddDependency u r).Dependencies = addRelAt n.Dependencies u r := rfl

theorem Dependents_AddDependent (n : NodeData) (u : String) (r : Relationship) :
    (n.AddDependent u r).Dependents = addRelAt n.Dependents u r := rfl

theorem sameShape_refl (n : NodeData) : sameShape n n :=
  ⟨rfl, rfl, rfl, rfl, rfl, rfl, rfl, rfl, rfl, rfl⟩

theorem sameShape_trans {a b c : NodeData} (h1 : sameShape a b) (h2 : sameShape b c) :
    sameShape a c := by
  unfold sameShape at *
  obtain ⟨a1, a2, a3, a4, a5, a6, a7, a8, a9, a10⟩ := h1
  obtain ⟨b1, b2, b3, b4, b5, b6, b7, b8, b9, b10⟩ := h2
  exact ⟨b1.trans a1, b2.trans a2, b3.trans a3, b4.trans a4, b5.trans a5, b6.trans a6,
    b7.trans a7, b8.trans a8, b9.trans a9, b10.trans a10⟩

theorem sameShape_AddDependency (n : NodeData) (u : String) (r : Relationship) :
    sameShape n (n.AddDependency u r) :=
  ⟨rfl, rfl, rfl, rfl, rfl, rfl, rfl, rfl, rfl, rfl⟩

theorem sameShape_AddDependent (n : NodeData) (u : String) (r : Relationship) :
    sameShape n (n.AddDependent u r) :=
  ⟨rfl, rfl, rfl, rfl, rfl, rfl, rfl, rfl, rfl, rfl⟩

theorem Depth_AddDependency (n : NodeData) (u : String) (r : Relationship) :
    (n.AddDependency u r).Depth = n.Depth := rfl

theorem Depth_AddDependent (n : NodeData) (u : String) (r : Relationship) :
    (n.AddDependent u r).Depth = n.Depth := rfl

theorem staticEq_refl (st : Store) : staticEq st st :=
  ⟨rfl, fun _ => sameShape_refl _⟩

theorem staticEq_trans {a b c : Store} (h1 : staticEq a b) (h2 : staticEq b c) :
    staticEq a c :=
  ⟨h2.1.trans h1.1, fun i => sameShape_trans (h1.2 i) (h2.2 i)⟩

theorem staticEq_setN {st0 st : Store} (i : Nat) (f : NodeData → NodeData)
    (hf : ∀ n, sameShape n (f n)) (h : staticEq st0 st) : staticEq st0 (setN st i f) := by
  obtain ⟨hlen, hsh⟩ := h
  constructor
  · rw [length_setN, hlen]
  · intro k
    rw [getN_setN]
    by_cases hc : i = k ∧ i < st.length
    · rw [if_pos hc]
      obtain ⟨rfl, -⟩ := hc
      exact sameShape_trans (hsh i) (hf _)
    · rw [if_neg hc]
      exact hsh k

theorem staticEq_addDepPair {st0 st : Store} (x y : Nat) (r : Relationship)
    (h : staticEq st0 st) : staticEq st0 (addDepPair st x y r) := by
  unfold addDepPair
  exact staticEq_setN _ _ (fun n => sameShape_AddDependent n _ _)
    (staticEq_setN _ _ (fun n => sameShape_AddDependency n _ _) h)

theorem length_addDepPair (st : Store) (x y : Nat) (r : Relationship) :
    (addDepPair st x y r).length = st.length := by
  have h := (staticEq_addDepPair x y r (staticEq_refl st)).1
  exact h

theorem depthEq_addDepPair {st0 st : Store} (x y : Nat) (r : Relationship)
    (h : ∀ i, (getN st i).Depth = (getN st0 i).Depth) :
    ∀ i, (getN (addDepPair st x y r) i).Depth = (getN st0 i).Depth := by
  intro i
  unfold addDepPair
  rw [getN_setN]
  by_cases hc1 : y = i ∧ y < (setN st x fun n =>
      n.AddDependency (getN st y).UID r).length
  · rw [if_pos hc1]
    obtain ⟨rfl, -⟩ := hc1
    rw [Depth_AddDependent, getN_setN]
    by_cases hc2 : x = y ∧ x < st.length
    · rw [if_pos hc2]
      obtain ⟨rfl, -⟩ := hc2
      rw [Depth_AddDependency]
      exact h x
    · rw [if_neg hc2]
      exact h y
  · rw [if_neg hc1, getN_setN]
    by_cases hc2 : x = i ∧ x < st.length
    · rw [if_pos hc2]
      obtain ⟨rfl, -⟩ := hc2
      rw [Depth_AddDependency]
      exact h x
    · rw [if_neg hc2]
      exact h i

theorem Dependencies_getN_addDepPair (st : Store) (x y : Nat) (r' : Relationship)
    (i : Nat) :
    (getN (addDepPair st x y r') i).Dependencies =
      if x = i ∧ x < st.length then
        addRelAt (getN st i).Dependencies (getN st y).UID r'
      else (getN st i).Dependencies := by
  unfold addDepPair
  rw [getN_setN, length_setN]
  by_cases hc1 : y = i ∧ y < st.length
  · rw [if_pos hc1]
    obtain ⟨hyi, hylen⟩ := hc1
    subst hyi
    rw [Dependencies_AddDependent, getN_setN]
    by_cases hc2 : x = y ∧ x < st.length
    · rw [if_pos hc2]
      obtain ⟨hxy, hxlen⟩ := hc2
      subst hxy
      rw [Dependencies_AddDependency, if_pos ⟨rfl, hxlen⟩]
    · rw [if_neg hc2, if_neg hc2]
  · rw [if_neg hc1, getN_setN]
    by_cases hc2 : x = i ∧ x < st.length
    · rw [if_pos hc2]
      obtain ⟨hxi, hxlen⟩ := hc2
      subst hxi
      rw [Dependencies_AddDependency, if_pos ⟨rfl, hxlen⟩]
    · rw [if_neg hc2, if_neg hc2]

theorem Dependents_getN_addDepPair (st : Store) (x y : Nat) (r' : Relationship)
    (j : Nat) :
    (getN (addDepPair st x y r') j).Dependents =
      if y = j ∧ y < st.length then
        addRelAt (getN st j).Dependents (getN st x).UID r'
      else (getN st j).Dependents := by
  unfold addDepPair
  rw [getN_setN, length_setN]
  by_cases hc1 : y = j ∧ y < st.length
  · rw [if_pos hc1]
    obtain ⟨hyj, hylen⟩ := hc1
    subst hyj
    rw [Dependents_AddDependent, if_pos ⟨rfl, hylen⟩, getN_setN]
    by_cases hc2 : x = y ∧ x < st.length
    · rw [if_pos hc2]
      obtain ⟨hxy, hxlen⟩ := hc2
      subst hxy
      rw [Dependents_AddDependency]
    · rw [if_neg hc2]
  · rw [if_neg hc1, if_neg hc1, getN_setN]
    by_cases hc2 : x = j ∧ x < st.length
    · rw [if_pos hc2]
      obtain ⟨hxj, hxlen⟩ := hc2
      subst hxj
      rw [Dependents_AddDependency]
    · rw [if_neg hc2]

theorem dependenciesOf_addDepPair (st : Store) (x y : Nat) (r' : Relationship)
    (i : Nat) (u : String) :
    dependenciesOf (addDepPair st x y r') i u =
      if x = i ∧ x < st.length ∧ u = (getN st y).UID then
        insertRel (dependenciesOf st i u) r'
      else dependenciesOf st i u := by
  unfold dependenciesOf
  rw [Dependencies_getN_addDepPair]
  by_cases hc : x = i ∧ x < st.length
  · rw [if_pos hc]
    by_cases hu : u = (getN st y).UID
    · rw [if_pos ⟨hc.1, hc.2, hu⟩, hu, alookup_addRelAt_self]
      rfl
    · rw [if_neg (fun hcc => hu hcc.2.2), alookup_addRelAt_ne _ _ (fun he => hu he.symm)]
  · rw [if_neg hc, if_neg (fun hcc => hc ⟨hcc.1, hcc.2.1⟩)]

theorem dependentsOf_addDepPair (st : Store) (x y : Nat) (r' : Relationship)
    (j : Nat) (u : String) :
    dependentsOf (addDepPair st x y r') j u =
      if y = j ∧ y < st.length ∧ u = (getN st x).UID then
        insertRel (dependentsOf st j u) r'
      else dependentsOf st j u := by
  unfold dependentsOf
  rw [Dependents_getN_addDepPair]
  by_cases hc : y = j ∧ y < st.length
  · rw [if_pos hc]
    by_cases hu : u = (getN st x).UID
    · rw [if_pos ⟨hc.1, hc.2, hu⟩, hu, alookup_addRelAt_self]
      rfl
    · rw [if_neg (fun hcc => hu hcc.2.2), alookup_addRelAt_ne _ _ (fun he => hu he.symm)]
  · rw [if_neg hc, if_neg (fun hcc => hc ⟨hcc.1, hcc.2.1⟩)]

theorem mem_dependenciesOf_addDepPair {st : Store} {x y : Nat} {r' : Relationship}
    {i : Nat} {u : String} {r : Relationship} (h : r ∈ dependenciesOf st i u) :
    r ∈ dependenciesOf (addDepPair st x y r') i u := by
  rw [dependenciesOf_addDepPair]
  by_cases hc : x = i ∧ x < st.length ∧ u = (getN st y).UID
  · rw [if_pos hc]
    exact mem_insertRel_of_mem _ h
  · rw [if_neg hc]
    exact h

theorem mem_dependentsOf_addDepPair {st : Store} {x y : Nat} {r' : Relationship}
    {j : Nat} {u : String} {r : Relationship} (h : r ∈ dependentsOf st j u) :
    r ∈ dependentsOf (addDepPair st x y r') j u := by
  rw [dependentsOf_addDepPair]
  by_cases hc : y = j ∧ y < st.length ∧ u = (getN st x).UID
  · rw [if_pos hc]
    exact mem_insertRel_of_mem _ h
  · rw [if_neg hc]
    exact h

theorem addPairsDependency_preserve {P : Store → Prop}
    (hP : ∀ st x y r, P st → P (addDepPair st x y r)) (a b : Nat) (rs : RelSet) :
    ∀ st, P st → P (addPairsDependency st a b rs) := by
  intro st h
  exact foldl_preserve (fun s r hh => hP s a b r hh) rs st h

theorem addPairsDependent_preserve {P : Store → Prop}
    (hP : ∀ st x y r, P st → P (addDepPair st x y r)) (a b : Nat) (rs : RelSet) :
    ∀ st, P st → P (addPairsDependent st a b rs) := by
  intro st h
  exact foldl_preserve (fun s r hh => hP s b a r hh) rs st h

theorem updateRelationships_preserve {P : Store → Prop}
    (hP : ∀ st x y r, P st → P (addDepPair st x y r))
    (u : Universe) (nid : Nat) (rmap : RelationshipMap) :
    ∀ st, P st → P (updateRelationships u nid rmap st) := by
  intro st h
  unfold updateRelationships
  apply foldl_preserve
  · intro s e hs
    cases h1 : alookup u.byUID e.1 with
    | some n =>
        simp only [h1]
        exact addPairsDependent_preserve hP nid n e.2 s hs
    | none => simpa only [h1]
  apply foldl_preserve
  · intro s e hs
    cases h1 : alookup u.byUID e.1 with
    | some n =>
        simp only [h1]
        exact addPairsDependency_preserve hP nid n e.2 s hs
    | none => simpa only [h1]
  apply foldl_preserve
  · intro s e hs
    cases h1 : alookup rmap.ObjectSelectors e.1 with
    | some os =>
        simp only [h1]
        exact foldl_preserve (fun s' n hh => addPairsDependent_preserve hP nid n e.2 s' hh) _ _ hs
    | none => simpa only [h1]
  apply foldl_preserve
  · intro s e hs
    cases h1 : alookup rmap.ObjectSelectors e.1 with
    | some os =>
        simp only [h1]
        exact foldl_preserve (fun s' n hh => addPairsDependency_preserve hP nid n e.2 s' hh) _ _ hs
    | none => simpa only [h1]
  apply foldl_preserve
  · intro s e hs
    cases h1 : alookup rmap.ObjectLabelSelectors e.1 with
    | some ols =>
        simp only [h1]
        exact foldl_preserve (fun s' n hh => addPairsDependent_preserve hP nid n e.2 s' hh) _ _ hs
    | none => simpa only [h1]
  apply foldl_preserve
  · intro s e hs
    cases h1 : alookup rmap.ObjectLabelSelectors e.1 with
    | some ols =>
        simp only [h1]
        exact foldl_preserve (fun s' n hh => addPairsDependency_preserve hP nid n e.2 s' hh) _ _ hs
    | none => simpa only [h1]
  apply foldl_preserve
  · intro s e hs
    cases h1 : alookup u.byKey e.1 with
    | some n =>
        simp only [h1]
        exact addPairsDependent_preserve hP nid n e.2 s hs
    | none => simpa only [h1]
  apply foldl_preserve
  · intro s e hs
    cases h1 : alookup u.byKey e.1 with
    | some n =>
        simp only [h1]
        exact addPairsDependency_preserve hP nid n e.2 s hs
    | none => simpa only [h1]
  exact h

theorem ownerRefsApply_preserve {P : Store → Prop}
    (hP : ∀ st x y r, P st → P (addDepPair st x y r))
    (u : Universe) (nid : Nat) :
    ∀ (refs : List OwnerReference) (st), P st → P (ownerRefsApply u nid refs st) := by
  intro refs
  induction refs with
  | nil => intro st h; exact h
  | cons ref rest ih =>
      intro st h
      unfold ownerRefsApply
      cases h1 : alookup u.byUID ref.uid with
      | some n =>
          simp only [h1]
          apply ih
          apply hP
          by_cases hc : ref.controller
          · rw [if_pos hc]
            exact hP _ _ _ _ h
          · rw [if_neg hc]
            exact h
      | none =>
          simp only [h1]
          exact ih st h

theorem ownerPassGo_preserve {P : Store → Prop}
    (hP : ∀ st x y r, P st → P (addDepPair st x y r)) (u : Universe) :
    ∀ (l : List (String × Nat)) (st), P st → P (ownerPassGo u l st) := by
  intro l
  induction l with
  | nil => intro st h; exact h
  | cons e rest ih =>
      intro st h
      unfold ownerPassGo
      exact ih _ (ownerRefsApply_preserve hP u e.2 _ st h)

theorem extractorPassGo_preserve {P : Store → Prop}
    (hP : ∀ st x y r, P st → P (addDepPair st x y r)) (u : Universe) :
    ∀ (l : List (String × Nat)) (st), P st → P (extractorPassGo u l st) := by
  intro l
  induction l with
  | nil => intro st h; exact h
  | cons e rest ih =>
      intro st h
      unfold extractorPassGo
      cases h1 : dispatchExtractor (getN st e.2) with
      | some rmap =>
          simp only [h1]
          exact ih _ (updateRelationships_preserve hP u e.2 rmap st h)
      | none =>
          simp only [h1]
          exact ih st h

theorem mem_aInsert {α : Type} {l : List (String × α)} {k : String} {v : α}
    {e : String × α} (h : e ∈ aInsert l k v) : e ∈ l ∨ e = (k, v) := by
  induction l with
  | nil =>
      unfold aInsert at h
      exact Or.inr (List.mem_singleton.mp h)
  | cons e1 t ih =>
      obtain ⟨k1, v1⟩ := e1
      unfold aInsert at h
      by_cases h1 : k1 = k
      · rw [if_pos h1] at h
        rcases List.mem_cons.mp h with h2 | h2
        · subst h1
          exact Or.inr h2
        · exact Or.inl (List.mem_cons_of_mem _ h2)
      · rw [if_neg h1] at h
        rcases List.mem_cons.mp h with h2 | h2
        · exact Or.inl (List.mem_cons.mpr (Or.inl h2))
        · rcases ih h2 with h3 | h3
          · exact Or.inl (List.mem_cons_of_mem _ h3)
          · exact Or.inr h3

theorem alookup_single_self {α : Type} (k : String) (v : α) :
    alookup [(k, v)] k = some v := by
  simp [alookup]

theorem getN_append_left {st tail : Store} {i : Nat} (h : i < st.length) :
    getN (st ++ tail) i = getN st i := by
  unfold getN
  rw [List.get?_append h]

theorem getN_append_last (st : Store) (n : NodeData) :
    getN (st ++ [n]) st.length = n := by
  unfold getN
  rw [List.get?_append_right (Nat.le_refl _)]
  simp

theorem getN_oob {st : Store} {i : Nat} (h : st.length ≤ i) : getN st i = {} := by
  unfold getN
  rw [List.get?_eq_none.mpr h]
  rfl

theorem buildUniverseGo_inv (mapper : Mapper) :
    ∀ (objects : List K8sObject) (ix : Nat) (s : Store) (b k : List (String × Nat))
      (res : Universe),
      buildUniverseGo mapper objects ix ⟨s, b, k⟩ = .ok res →
      ix = s.length →
      (∀ e ∈ b, e.2 < s.length) →
      (∀ e ∈ k, e.2 < s.length) →
      (∀ i, (getN s i).Depth = 0 ∧ (getN s i).Dependencies = [] ∧
        (getN s i).Dependents = []) →
      ((∀ e ∈ res.byUID, e.2 < res.store.length) ∧
       (∀ e ∈ res.byKey, e.2 < res.store.length) ∧
       (∀ i, (getN res.store i).Depth = 0 ∧ (getN res.store i).Dependencies = [] ∧
         (getN res.store i).Dependents = [])) := by
  intro objects
  induction objects with
  | nil =>
      intro ix s b k res h hix hUID hKey hZ
      simp only [buildUniverseGo] at h
      cases h
      exact ⟨hUID, hKey, hZ⟩
  | cons o rest ih =>
      intro ix s b k res h hix hUID hKey hZ
      cases hm : mapper o.group o.kind o.version with
      | none => simp [buildUniverseGo, hm] at h
      | some m =>
          simp only [buildUniverseGo, hm] at h
          subst hix
          refine ih _ _ _ _ res h (by simp) ?_ ?_ ?_
          · intro e he
            suffices hlt : e.2 < s.length + 1 by
              simpa using hlt
            have hgrow : ∀ e1 ∈ b, e1.2 < s.length + 1 := by
              intro e1 he1
              have := hUID e1 he1
              omega
            have hstep : ∀ (b2 : List (String × Nat)),
                (∀ e2 ∈ b2, e2.2 < s.length + 1) →
                ∀ (key : String), ∀ e2 ∈ aInsert b2 key s.length, e2.2 < s.length + 1 := by
              intro b2 hb2 key e2 he2
              rcases mem_aInsert he2 with h1 | h1
              · exact hb2 e2 h1
              · rw [h1]
                omega
            by_cases hn : m.group = "" ∧ m.kind = "Node"
            · rw [if_pos hn] at he
              cases hh : alookup o.labels "kubernetes.io/hostname" with
              | some hostname =>
                  rw [hh] at he
                  exact hstep _ (hstep _ (hstep _ hgrow _) _) _ e he
              | none =>
                  rw [hh] at he
                  exact hstep _ (hstep _ hgrow _) _ e he
            · rw [if_neg hn] at he
              exact hstep _ hgrow _ e he
          · intro e he
            suffices hlt : e.2 < s.length + 1 by
              simpa using hlt
            rcases mem_aInsert he with h1 | h1
            · have := hKey e h1
              omega
            · rw [h1]
              omega
          · intro i
            rcases Nat.lt_trichotomy i s.length with hlt | heq | hgt
            · rw [getN_append_left hlt]
              exact hZ i
            · subst heq
              rw [getN_append_last]
              exact ⟨rfl, rfl, rfl⟩
            · rw [getN_oob (by simp; omega)]
              exact ⟨rfl, rfl, rfl⟩

theorem buildUniverse_inv (mapper : Mapper) (objects : List K8sObject) (u : Universe)
    (h : buildUniverse mapper objects = .ok u) :
    (∀ e ∈ u.byUID, e.2 < u.store.length) ∧
    (∀ e ∈ u.byKey, e.2 < u.store.length) ∧
    (∀ i, (getN u.store i).Depth = 0 ∧ (getN u.store i).Dependencies = [] ∧
      (getN u.store i).Dependents = []) := by
  refine buildUniverseGo_inv mapper objects 0 [] [] [] u h rfl ?_ ?_ ?_
  · intro e he
    simp at he
  · intro e he
    simp at he
  · intro i
    rw [getN_oob (by simp)]
    exact ⟨rfl, rfl, rfl⟩

theorem dispatchExtractor_service {n : NodeData} (hG : n.Group = "")
    (hK : n.Kind = "Service") :
    dispatchExtractor n = some (getServiceRelationships n) := by
  unfold dispatchExtractor
  rw [hG, hK]
  simp

theorem getServiceRelationships_empty {n : NodeData}
    (h : n.obj.manifest.serviceSelector = []) :
    getServiceRelationships n =
      { DependenciesByLabelSelector :=
          [(ObjectLabelSelector.Key ⟨"", "Pod", n.obj.ns, []⟩, [RelationshipService])],
        ObjectLabelSelectors :=
          [(ObjectLabelSelector.Key ⟨"", "Pod", n.obj.ns, []⟩,
            (⟨"", "Pod", n.obj.ns, []⟩ : ObjectLabelSelector))] } := by
  unfold getServiceRelationships
  rw [h]
  rfl

theorem mem_resolveLabelSelectorToNodes {u : Universe} {st : Store} {j : Nat}
    {pu : String} {ols : ObjectLabelSelector}
    (hjmem : alookup u.byUID pu = some j)
    (hg : (getN st j).Group = ols.Group) (hk : (getN st j).Kind = ols.Kind)
    (hns : (getN st j).Namespace = ols.Namespace)
    (hmatch : selMatches ols.Selector (getN st j).GetLabels = true) :
    j ∈ resolveLabelSelectorToNodes u st ols := by
  unfold resolveLabelSelectorToNodes
  apply List.mem_filterMap.mpr
  refine ⟨(pu, j), alookup_mem hjmem, ?_⟩
  rw [if_pos ⟨hg, hk, hns, hmatch⟩]

theorem foldl_establish_from {α β : Type} {Inv Q : α → Prop} {f : α → β → α} {x : β}
    (hInv : ∀ s a, Inv s → Inv (f s a))
    (hQ : ∀ s a, Q s → Q (f s a))
    (hx : ∀ s, Inv s → Q (f s x)) :
    ∀ (l : List β) (s : α), Inv s → x ∈ l → Q (l.foldl f s) := by
  intro l
  induction l with
  | nil =>
      intro s _ hm
      simp at hm
  | cons a t ih =>
      intro s hs hm
      rcases List.mem_cons.mp hm with h | h
      · subst h
        exact foldl_preserve hQ t _ (hx s hs)
      · exact ih _ (hInv s a hs) h

theorem extractorPassGo_service (u : Universe) (i j : Nat) (pu : String)
    (hvalid : ∀ e ∈ u.byUID, e.2 < u.store.length)
    (hjmem : alookup u.byUID pu = some j)
    (hi : i < u.store.length)
    (hsvcG : (getN u.store i).Group = "") (hsvcK : (getN u.store i).Kind = "Service")
    (hsel : (getN u.store i).obj.manifest.serviceSelector = [])
    (hpodG : (getN u.store j).Group = "") (hpodK : (getN u.store j).Kind = "Pod")
    (hpodNs : (getN u.store j).Namespace = (getN u.store i).obj.ns) :
    ∀ (l : List (String × Nat)) (st : Store),
      (∃ k0, (k0, i) ∈ l) → staticEq u.store st →
      (RelationshipService ∈ dependenciesOf (extractorPassGo u l st) i (getN u.store j).UID ∧
       RelationshipService ∈ dependentsOf (extractorPassGo u l st) j (getN u.store i).UID) := by
  have hj : j < u.store.length := hvalid _ (alookup_mem hjmem)
  have hP : ∀ st x y r,
      (staticEq u.store st ∧
        RelationshipService ∈ dependenciesOf st i (getN u.store j).UID ∧
        RelationshipService ∈ dependentsOf st j (getN u.store i).UID) →
      (staticEq u.store (addDepPair st x y r) ∧
        RelationshipService ∈ dependenciesOf (addDepPair st x y r) i (getN u.store j).UID ∧
        RelationshipService ∈ dependentsOf (addDepPair st x y r) j (getN u.store i).UID) := by
    intro st x y r ⟨h1, h2, h3⟩
    exact ⟨staticEq_addDepPair x y r h1, mem_dependenciesOf_addDepPair h2,
      mem_dependentsOf_addDepPair h3⟩
  have hPse : ∀ st x y r, staticEq u.store st → staticEq u.store (addDepPair st x y r) :=
    fun st x y r h => staticEq_addDepPair x y r h
  intro l
  induction l with
  | nil =>
      intro st hmem _
      obtain ⟨k0, hk0⟩ := hmem
      simp at hk0
  | cons e rest ih =>
      intro st hmem hst
      by_cases hei : e.2 = i
      · unfold extractorPassGo
        rw [hei]
        have hshape := hst.2 i
        have hG' : (getN st i).Group = "" := hshape.2.2.1.trans hsvcG
        have hK' : (getN st i).Kind = "Service" := hshape.2.2.2.2.1.trans hsvcK
        have hobj : (getN st i).obj = (getN u.store i).obj := hshape.1
        have hsel' : (getN st i).obj.manifest.serviceSelector = [] := by
          rw [hobj]
          exact hsel
        rw [dispatchExtractor_service hG' hK', getServiceRelationships_empty hsel']
        have hupd :
            staticEq u.store (updateRelationships u i
              { DependenciesByLabelSelector :=
                  [(ObjectLabelSelector.Key ⟨"", "Pod", (getN st i).obj.ns, []⟩,
                    [RelationshipService])],
                ObjectLabelSelectors :=
                  [(ObjectLabelSelector.Key ⟨"", "Pod", (getN st i).obj.ns, []⟩,
                    (⟨"", "Pod", (getN st i).obj.ns, []⟩ : ObjectLabelSelector))] } st) ∧
            RelationshipService ∈ dependenciesOf (updateRelationships u i
              { DependenciesByLabelSelector :=
                  [(ObjectLabelSelector.Key ⟨"", "Pod", (getN st i).obj.ns, []⟩,
                    [RelationshipService])],
                ObjectLabelSelectors :=
                  [(ObjectLabelSelector.Key ⟨"", "Pod", (getN st i).obj.ns, []⟩,
                    (⟨"", "Pod", (getN st i).obj.ns, []⟩ : ObjectLabelSelector))] } st) i
              (getN u.store j).UID ∧
            RelationshipService ∈ dependentsOf (updateRelationships u i
              { DependenciesByLabelSelector :=
                  [(ObjectLabelSelector.Key ⟨"", "Pod", (getN st i).obj.ns, []⟩,
                    [RelationshipService])],
                ObjectLabelSelectors :=
                  [(ObjectLabelSelector.Key ⟨"", "Pod", (getN st i).obj.ns, []⟩,
                    (⟨"", "Pod", (getN st i).obj.ns, []⟩ : ObjectLabelSelector))] } st) j
              (getN u.store i).UID := by
          unfold updateRelationships
          simp only [List.foldl_cons, List.foldl_nil, alookup_single_self]
          apply @foldl_establish_from _ _
            (fun s => staticEq u.store s)
            (fun s => staticEq u.store s ∧
              RelationshipService ∈ dependenciesOf s i (getN u.store j).UID ∧
              RelationshipService ∈ dependentsOf s j (getN u.store i).UID)
            (fun s n => addPairsDependency s i n [RelationshipService])
            j
          · intro s n hs
            exact addPairsDependency_preserve hPse i n [RelationshipService] s hs
          · intro s n hs
            exact addPairsDependency_preserve hP i n [RelationshipService] s hs
          · intro s hs
            show staticEq u.store (addDepPair s i j RelationshipService) ∧
              RelationshipService ∈ dependenciesOf (addDepPair s i j RelationshipService) i
                (getN u.store j).UID ∧
              RelationshipService ∈ dependentsOf (addDepPair s i j RelationshipService) j
                (getN u.store i).UID
            refine ⟨staticEq_addDepPair _ _ _ hs, ?_, ?_⟩
            · rw [dependenciesOf_addDepPair]
              rw [if_pos ⟨rfl, by rw [hs.1]; exact hi, ((hs.2 j).2.1).symm⟩]
              exact mem_insertRel_self _ _
            · rw [dependentsOf_addDepPair]
              rw [if_pos ⟨rfl, by rw [hs.1]; exact hj, ((hs.2 i).2.1).symm⟩]
              exact mem_insertRel_self _ _
          · exact hst
          · have hshj := hst.2 j
            apply mem_resolveLabelSelectorToNodes hjmem
            · exact hshj.2.2.1.trans hpodG
            · exact hshj.2.2.2.2.1.trans hpodK
            · show (getN st j).Namespace = (getN st i).obj.ns
              rw [hobj]
              exact hshj.2.2.2.2.2.2.2.1.trans hpodNs
            · rfl
        have hfin := extractorPassGo_preserve hP u rest _ hupd
        exact ⟨hfin.2.1, hfin.2.2⟩
      · obtain ⟨k0, hk0⟩ := hmem
        have hk0rest : (k0, i) ∈ rest := by
          rcases List.mem_cons.mp hk0 with h1 | h1
          · rw [← h1] at hei
            simp at hei
          · exact h1
        unfold extractorPassGo
        cases hd : dispatchExtractor (getN st e.2) with
        | some rmap =>
            simp only [hd]
            exact ih _ ⟨k0, hk0rest⟩
              (updateRelationships_preserve hPse u e.2 rmap st hst)
        | none =>
            simp only [hd]
            exact ih _ ⟨k0, hk0rest⟩ hst

/-- C10 (amended): for every Service whose `spec.selector` is empty the
extractor emits a match-everything label-selector DEPENDENCY, so after
the graph phase every Pod of the Service's namespace present in the
universe is a dependency of the Service (equivalently, the Service is a
dependent of the Pod) with relationship `Service` — the reverse of the
claimed dependent direction. -/
theorem C10_service_empty_selector_amended
    (mapper : Mapper) (objects : List K8sObject) (u : Universe)
    (h : graphPhase mapper objects = .ok u)
    (su pu : String) (i j : Nat)
    (hsi : alookup u.byUID su = some i)
    (hpj : alookup u.byUID pu = some j)
    (hsvcG : (getN u.store i).Group = "")
    (hsvcK : (getN u.store i).Kind = "Service")
    (hsel : (getN u.store i).obj.manifest.serviceSelector = [])
    (hpodG : (getN u.store j).Group = "")
    (hpodK : (getN u.store j).Kind = "Pod")
    (hpodNs : (getN u.store j).Namespace = (getN u.store i).obj.ns) :
    RelationshipService ∈ dependenciesOf u.store i (getN u.store j).UID ∧
    RelationshipService ∈ dependentsOf u.store j (getN u.store i).UID := by
  unfold graphPhase at h
  cases hb : buildUniverse mapper objects with
  | error e =>
      rw [hb] at h
      exact Except.noConfusion h
  | ok u0 =>
      rw [hb] at h
      injection h with h2
      have hby : u.byUID = u0.byUID := by rw [← h2]
      have hst : u.store =
          extractorPassGo u0 u0.byUID (ownerPassGo u0 u0.byUID u0.store) := by
        rw [← h2]
      have hPse : ∀ st x y r, staticEq u0.store st →
          staticEq u0.store (addDepPair st x y r) :=
        fun st x y r hh => staticEq_addDepPair x y r hh
      have hse1 : staticEq u0.store (ownerPassGo u0 u0.byUID u0.store) :=
        ownerPassGo_preserve hPse u0 u0.byUID u0.store (staticEq_refl u0.store)
      have hse : staticEq u0.store u.store := by
        rw [hst]
        exact extractorPassGo_preserve hPse u0 u0.byUID _ hse1
      rw [hby] at hsi hpj
      have hvalid := (buildUniverse_inv mapper objects u0 hb).1
      have hi0 : i < u0.store.length := hvalid _ (alookup_mem hsi)
      have hsvcG0 : (getN u0.store i).Group = "" :=
        ((hse.2 i).2.2.1).symm.trans hsvcG
      have hsvcK0 : (getN u0.store i).Kind = "Service" :=
        ((hse.2 i).2.2.2.2.1).symm.trans hsvcK
      have hsel0 : (getN u0.store i).obj.manifest.serviceSelector = [] := by
        rw [← (hse.2 i).1]
        exact hsel
      have hpodG0 : (getN u0.store j).Group = "" :=
        ((hse.2 j).2.2.1).symm.trans hpodG
      have hpodK0 : (getN u0.store j).Kind = "Pod" :=
        ((hse.2 j).2.2.2.2.1).symm.trans hpodK
      have hpodNs0 : (getN u0.store j).Namespace = (getN u0.store i).obj.ns := by
        rw [← (hse.2 j).2.2.2.2.2.2.2.1, hpodNs, (hse.2 i).1]
      have hmain := extractorPassGo_service u0 i j pu hvalid hpj hi0
        hsvcG0 hsvcK0 hsel0 hpodG0 hpodK0 hpodNs0
        u0.byUID (ownerPassGo u0 u0.byUID u0.store)
        ⟨su, alookup_mem hsi⟩ hse1
      constructor
      · rw [(hse.2 j).2.1, hst]
        exact hmain.1
      · rw [(hse.2 i).2.1, hst]
        exact hmain.2

/-- Witness for the amended C10: in the concrete Service/Pod scenario the
graph phase succeeds and the Pod is a dependency of the Service (and the
Service a dependent of the Pod) with relationship `Service`. -/
theorem C10_service_empty_selector_amended_witness :
    graphPhase testMapper [c10Svc, c10Pod] = .ok c10U ∧
    (RelationshipService ∈ dependenciesOf c10U.store 0 (getN c10U.store 1).UID ∧
     RelationshipService ∈ dependentsOf c10U.store 1 (getN c10U.store 0).UID) :=
  ⟨by rfl,
   C10_service_empty_selector_amended testMapper [c10Svc, c10Pod] c10U (by rfl)
     "s1" "p1" 0 1 (by decide) (by decide) (by decide) (by decide) (by decide)
     (by decide) (by decide) (by decide)⟩

theorem mem_insertRel_iff (s : RelSet) (r a : Relationship) :
    a ∈ insertRel s r ↔ a ∈ s ∨ a = r := by
  unfold insertRel
  by_cases hc : s.contains r
  · rw [if_pos hc]
    constructor
    · exact Or.inl
    · rintro (h | rfl)
      · exact h
      · exact List.mem_of_elem_eq_true hc
  · rw [if_neg hc]
    simp

theorem bidirProp_empty {st : Store}
    (h : ∀ i, (getN st i).Dependencies = [] ∧ (getN st i).Dependents = []) :
    bidirProp st := by
  intro i j _ _ r
  unfold dependentsOf dependenciesOf
  rw [(h i).2, (h j).1]
  exact Iff.rfl

theorem sameGraph_refl (n : NodeData) : sameGraph n n :=
  ⟨sameShape_refl n, rfl, rfl⟩

theorem sameGraph_trans {a b c : NodeData} (h1 : sameGraph a b) (h2 : sameGraph b c) :
    sameGraph a c :=
  ⟨sameShape_trans h1.1 h2.1, h2.2.1.trans h1.2.1, h2.2.2.trans h1.2.2⟩

theorem graphEq_refl (st : Store) : graphEq st st :=
  ⟨rfl, fun _ => sameGraph_refl _⟩

theorem graphEq_trans {a b c : Store} (h1 : graphEq a b) (h2 : graphEq b c) :
    graphEq a c :=
  ⟨h2.1.trans h1.1, fun i => sameGraph_trans (h1.2 i) (h2.2 i)⟩

theorem graphEq_setN {st0 st : Store} (i : Nat) (f : NodeData → NodeData)
    (hf : ∀ n, sameGraph n (f n)) (h : graphEq st0 st) : graphEq st0 (setN st i f) := by
  obtain ⟨hlen, hsh⟩ := h
  constructor
  · rw [length_setN, hlen]
  · intro k
    rw [getN_setN]
    by_cases hc : i = k ∧ i < st.length
    · rw [if_pos hc]
      obtain ⟨rfl, -⟩ := hc
      exact sameGraph_trans (hsh i) (hf _)
    · rw [if_neg hc]
      exact hsh k

theorem dependenciesOf_graphEq {st0 st : Store} (h : graphEq st0 st) (i : Nat)
    (k : String) : dependenciesOf st i k = dependenciesOf st0 i k := by
  unfold dependenciesOf
  rw [(h.2 i).2.1]

theorem dependentsOf_graphEq {st0 st : Store} (h : graphEq st0 st) (i : Nat)
    (k : String) : dependentsOf st i k = dependentsOf st0 i k := by
  unfold dependentsOf
  rw [(h.2 i).2.2]

theorem bidir_addDepPair {st0 st : Store} (x y : Nat) (r : Relationship)
    (hinj : ∀ i j, i < st0.length → j < st0.length →
      (getN st0 i).UID = (getN st0 j).UID → i = j)
    (hx : x < st0.length) (hy : y < st0.length)
    (h : staticEq st0 st ∧ bidirProp st) :
    staticEq st0 (addDepPair st x y r) ∧ bidirProp (addDepPair st x y r) := by
  obtain ⟨hse, hbp⟩ := h
  have hse' := staticEq_addDepPair x y r hse
  refine ⟨hse', ?_⟩
  intro i j hi hj r'
  have hlen : st.length = st0.length := hse.1
  have hi' : i < st.length := by rw [length_addDepPair] at hi; exact hi
  have hj' : j < st.length := by rw [length_addDepPair] at hj; exact hj
  have hi0 : i < st0.length := by rw [← hlen]; exact hi'
  have hj0 : j < st0.length := by rw [← hlen]; exact hj'
  have hx' : x < st.length := by rw [hlen]; exact hx
  have hy' : y < st.length := by rw [hlen]; exact hy
  have hU : ∀ k, (getN (addDepPair st x y r) k).UID = (getN st0 k).UID :=
    fun k => (hse'.2 k).2.1
  have hUs : ∀ k, (getN st k).UID = (getN st0 k).UID := fun k => (hse.2 k).2.1
  have hbase := hbp i j hi' hj' r'
  rw [hUs i, hUs j] at hbase
  rw [hU i, hU j, dependentsOf_addDepPair, dependenciesOf_addDepPair]
  by_cases hc : y = i ∧ x = j
  · rw [if_pos ⟨hc.1, hy', by rw [hUs x, hc.2]⟩,
      if_pos ⟨hc.2, hx', by rw [hUs y, hc.1]⟩,
      mem_insertRel_iff, mem_insertRel_iff]
    exact or_congr hbase Iff.rfl
  · have hL : ¬(y = i ∧ y < st.length ∧ (getN st0 j).UID = (getN st x).UID) := by
      rintro ⟨h1, -, h3⟩
      apply hc
      refine ⟨h1, ?_⟩
      have h4 : (getN st0 x).UID = (getN st0 j).UID := by rw [← hUs x, ← h3]
      exact hinj x j hx hj0 h4
    have hR : ¬(x = j ∧ x < st.length ∧ (getN st0 i).UID = (getN st y).UID) := by
      rintro ⟨h1, -, h3⟩
      apply hc
      refine ⟨?_, h1⟩
      have h4 : (getN st0 y).UID = (getN st0 i).UID := by rw [← hUs y, ← h3]
      exact hinj y i hy hi0 h4
    rw [if_neg hL, if_neg hR]
    exact hbase

theorem foldl_preserveMem {α β : Type} {P : α → Prop} {f : α → β → α} :
    ∀ (l : List β), (∀ s a, a ∈ l → P s → P (f s a)) →
      ∀ (s : α), P s → P (l.foldl f s) := by
  intro l
  induction l with
  | nil =>
      intro _ s h
      exact h
  | cons a t ih =>
      intro hf s h
      exact ih (fun s' b hb hs => hf s' b (List.mem_cons_of_mem _ hb) hs) _
        (hf s a (List.mem_cons_self _ _) h)

theorem if_some_eq {α : Type} {c : Prop} [Decidable c] {a n : α}
    (h : (if c then some a else none) = some n) : a = n := by
  by_cases hc : c
  · rw [if_pos hc] at h
    exact Option.some.inj h
  · rw [if_neg hc] at h
    exact absurd h (by simp)

theorem resolveLabelSelectorToNodes_mem {u : Universe} {st : Store}
    {o : ObjectLabelSelector} {n : Nat} (h : n ∈ resolveLabelSelectorToNodes u st o) :
    ∃ k, (k, n) ∈ u.byUID := by
  unfold resolveLabelSelectorToNodes at h
  obtain ⟨e, he, hsome⟩ := List.mem_filterMap.mp h
  have hn := if_some_eq hsome
  exact ⟨e.1, by rw [← hn]; exact he⟩

theorem resolveSelectorToNodes_mem {u : Universe} {st : Store}
    {o : ObjectSelector} {n : Nat} (h : n ∈ resolveSelectorToNodes u st o) :
    ∃ k, (k, n) ∈ u.byUID := by
  unfold resolveSelectorToNodes at h
  obtain ⟨e, he, hsome⟩ := List.mem_filterMap.mp h
  have hn := if_some_eq hsome
  exact ⟨e.1, by rw [← hn]; exact he⟩

theorem addPairsDependencyV {P : Store → Prop} {L : Nat}
    (hP : ∀ st x y r, x < L → y < L → P st → P (addDepPair st x y r))
    {a b : Nat} (ha : a < L) (hb : b < L) (rs : RelSet) :
    ∀ st, P st → P (addPairsDependency st a b rs) :=
  fun st h => foldl_preserve (fun s r hh => hP s a b r ha hb hh) rs st h

theorem addPairsDependentV {P : Store → Prop} {L : Nat}
    (hP : ∀ st x y r, x < L → y < L → P st → P (addDepPair st x y r))
    {a b : Nat} (ha : a < L) (hb : b < L) (rs : RelSet) :
    ∀ st, P st → P (addPairsDependent st a b rs) :=
  fun st h => foldl_preserve (fun s r hh => hP s b a r hb ha hh) rs st h

theorem updateRelationshipsV {P : Store → Prop} {L : Nat} (u : Universe)
    (hvU : ∀ e ∈ u.byUID, e.2 < L) (hvK : ∀ e ∈ u.byKey, e.2 < L)
    {nid : Nat} (hnid : nid < L)
    (hP : ∀ st x y r, x < L → y < L → P st → P (addDepPair st x y r))
    (rmap : RelationshipMap) :
    ∀ st, P st → P (updateRelationships u nid rmap st) := by
  intro st h
  unfold updateRelationships
  apply foldl_preserve
  · intro s e hs
    cases h1 : alookup u.byUID e.1 with
    | some n =>
        simp only [h1]
        exact addPairsDependentV hP hnid (hvU _ (alookup_mem h1)) e.2 s hs
    | none => simpa only [h1]
  apply foldl_preserve
  · intro s e hs
    cases h1 : alookup u.byUID e.1 with
    | some n =>
        simp only [h1]
        exact addPairsDependencyV hP hnid (hvU _ (alookup_mem h1)) e.2 s hs
    | none => simpa only [h1]
  apply foldl_preserve
  · intro s e hs
    cases h1 : alookup rmap.ObjectSelectors e.1 with
    | some os =>
        simp only [h1]
        refine foldl_preserveMem _ ?_ _ hs
        intro s' n hn hs'
        obtain ⟨k, hk⟩ := resolveSelectorToNodes_mem hn
        exact addPairsDependentV hP hnid (hvU _ hk) e.2 s' hs'
    | none => simpa only [h1]
  apply foldl_preserve
  · intro s e hs
    cases h1 : alookup rmap.ObjectSelectors e.1 with
    | some os =>
        simp only [h1]
        refine foldl_preserveMem _ ?_ _ hs
        intro s' n hn hs'
        obtain ⟨k, hk⟩ := resolveSelectorToNodes_mem hn
        exact addPairsDependencyV hP hnid (hvU _ hk) e.2 s' hs'
    | none => simpa only [h1]
  apply foldl_preserve
  · intro s e hs
    cases h1 : alookup rmap.ObjectLabelSelectors e.1 with
    | some ols =>
        simp only [h1]
        refine foldl_preserveMem _ ?_ _ hs
        intro s' n hn hs'
        obtain ⟨k, hk⟩ := resolveLabelSelectorToNodes_mem hn
        exact addPairsDependentV hP hnid (hvU _ hk) e.2 s' hs'
    | none => simpa only [h1]
  apply foldl_preserve
  · intro s e hs
    cases h1 : alookup rmap.ObjectLabelSelectors e.1 with
    | some ols =>
        simp only [h1]
        refine foldl_preserveMem _ ?_ _ hs
        intro s' n hn hs'
        obtain ⟨k, hk⟩ := resolveLabelSelectorToNodes_mem hn
        exact addPairsDependencyV hP hnid (hvU _ hk) e.2 s' hs'
    | none => simpa only [h1]
  apply foldl_preserve
  · intro s e hs
    cases h1 : alookup u.byKey e.1 with
    | some n =>
        simp only [h1]
        exact addPairsDependentV hP hnid (hvK _ (alookup_mem h1)) e.2 s hs
    | none => simpa only [h1]
  apply foldl_preserve
  · intro s e hs
    cases h1 : alookup u.byKey e.1 with
    | some n =>
        simp only [h1]
        exact addPairsDependencyV hP hnid (hvK _ (alookup_mem h1)) e.2 s hs
    | none => simpa only [h1]
  exact h

theorem ownerRefsApplyV {P : Store → Prop} {L : Nat} (u : Universe)
    (hvU : ∀ e ∈ u.byUID, e.2 < L) {nid : Nat} (hnid : nid < L)
    (hP : ∀ st x y r, x < L → y < L → P st → P (addDepPair st x y r)) :
    ∀ (refs : List OwnerReference) (st), P st → P (ownerRefsApply u nid refs st) := by
  intro refs
  induction refs with
  | nil =>
      intro st h
      exact h
  | cons ref rest ih =>
      intro st h
      unfold ownerRefsApply
      cases h1 : alookup u.byUID ref.uid with
      | some n =>
          simp only [h1]
          apply ih
          apply hP _ _ _ _ hnid (hvU _ (alookup_mem h1))
          by_cases hc : ref.controller
          · rw [if_pos hc]
            exact hP _ _ _ _ hnid (hvU _ (alookup_mem h1)) h
          · rw [if_neg hc]
            exact h
      | none =>
          simp only [h1]
          exact ih st h

theorem ownerPassGoV {P : Store → Prop} {L : Nat} (u : Universe)
    (hvU : ∀ e ∈ u.byUID, e.2 < L)
    (hP : ∀ st x y r, x < L → y < L → P st → P (addDepPair st x y r)) :
    ∀ (l : List (String × Nat)), (∀ e ∈ l, e.2 < L) →
      ∀ st, P st → P (ownerPassGo u l st) := by
  intro l
  induction l with
  | nil =>
      intro _ st h
      exact h
  | cons e rest ih =>
      intro hl st h
      unfold ownerPassGo
      exact ih (fun e' he' => hl e' (List.mem_cons_of_mem _ he')) _
        (ownerRefsApplyV u hvU (hl e (List.mem_cons_self _ _)) hP _ st h)

theorem extractorPassGoV {P : Store → Prop} {L : Nat} (u : Universe)
    (hvU : ∀ e ∈ u.byUID, e.2 < L) (hvK : ∀ e ∈ u.byKey, e.2 < L)
    (hP : ∀ st x y r, x < L → y < L → P st → P (addDepPair st x y r)) :
    ∀ (l : List (String × Nat)), (∀ e ∈ l, e.2 < L) →
      ∀ st, P st → P (extractorPassGo u l st) := by
  intro l
  induction l with
  | nil =>
      intro _ st h
      exact h
  | cons e rest ih =>
      intro hl st h
      unfold extractorPassGo
      cases h1 : dispatchExtractor (getN st e.2) with
      | some rmap =>
          simp only [h1]
          exact ih (fun e' he' => hl e' (List.mem_cons_of_mem _ he')) _
            (updateRelationshipsV u hvU hvK (hl e (List.mem_cons_self _ _)) hP rmap st h)
      | none =>
          simp only [h1]
          exact ih (fun e' he' => hl e' (List.mem_cons_of_mem _ he')) st h

theorem graphPhase_parts (mapper : Mapper) (objects : List K8sObject) (u : Universe)
    (h : graphPhase mapper objects = .ok u) :
    ∃ u0, buildUniverse mapper objects = .ok u0 ∧
      u.byUID = u0.byUID ∧ u.byKey = u0.byKey ∧
      u.store = extractorPassGo u0 u0.byUID (ownerPassGo u0 u0.byUID u0.store) := by
  unfold graphPhase at h
  cases hb : buildUniverse mapper objects with
  | error e =>
      rw [hb] at h
      exact Except.noConfusion h
  | ok u0 =>
      rw [hb] at h
      injection h with h2
      exact ⟨u0, rfl, by rw [← h2], by rw [← h2], by rw [← h2]⟩

theorem graphPhase_bidir (mapper : Mapper) (objects : List K8sObject) (u : Universe)
    (h : graphPhase mapper objects = .ok u) (hrt : uidRoundTrip u) :
    bidirProp u.store ∧ (∀ e ∈ u.byUID, e.2 < u.store.length) := by
  obtain ⟨u0, hb, hby, hkey, hst⟩ := graphPhase_parts mapper objects u h
  obtain ⟨hvU, hvK, hzero⟩ := buildUniverse_inv mapper objects u0 hb
  have hPse : ∀ st x y r, staticEq u0.store st →
      staticEq u0.store (addDepPair st x y r) :=
    fun st x y r hh => staticEq_addDepPair x y r hh
  have hse : staticEq u0.store u.store := by
    rw [hst]
    exact extractorPassGo_preserve hPse u0 u0.byUID _
      (ownerPassGo_preserve hPse u0 u0.byUID u0.store (staticEq_refl u0.store))
  have hlen : u.store.length = u0.store.length := hse.1
  have hinj : ∀ i j, i < u0.store.length → j < u0.store.length →
      (getN u0.store i).UID = (getN u0.store j).UID → i = j := by
    intro i j hi hj hU
    have hrt0 : ∀ k, k < u0.store.length →
        alookup u0.byUID (getN u0.store k).UID = some k := by
      intro k hk
      have hk2 := hrt k (by rw [hlen]; exact hk)
      rw [hby, (hse.2 k).2.1] at hk2
      exact hk2
    have h1 := hrt0 i hi
    have h2 := hrt0 j hj
    rw [hU] at h1
    rw [h1] at h2
    exact Option.some.inj h2
  have hbase : bidirProp u0.store :=
    bidirProp_empty (fun i => ⟨(hzero i).2.1, (hzero i).2.2⟩)
  have hP : ∀ st x y r, x < u0.store.length → y < u0.store.length →
      (staticEq u0.store st ∧ bidirProp st) →
      (staticEq u0.store (addDepPair st x y r) ∧ bidirProp (addDepPair st x y r)) :=
    fun st x y r hx hy hh => bidir_addDepPair x y r hinj hx hy hh
  have hfin : staticEq u0.store u.store ∧ bidirProp u.store := by
    rw [hst]
    exact extractorPassGoV u0 hvU hvK hP u0.byUID hvU _
      (ownerPassGoV u0 hvU hP u0.byUID hvU u0.store ⟨staticEq_refl _, hbase⟩)
  refine ⟨hfin.2, ?_⟩
  intro e he
  rw [hby] at he
  rw [hlen]
  exact hvU e he

theorem nmValid_aInsert_fold {u : Universe} {L : Nat}
    (hvU : ∀ e ∈ u.byUID, e.2 < L) :
    ∀ (dus : List String) (nm : List (String × Option Nat)),
      (∀ k id, alookup nm k = some (some id) → id < L) →
      ∀ k id,
        alookup (dus.foldl (fun nm du => aInsert nm du (alookup u.byUID du)) nm) k
          = some (some id) → id < L := by
  intro dus
  induction dus with
  | nil =>
      intro nm h
      exact h
  | cons du rest ih =>
      intro nm h
      refine ih _ ?_
      intro k id hk
      by_cases hc : du = k
      · subst hc
        rw [alookup_aInsert_self] at hk
        exact hvU _ (alookup_mem (Option.some.inj hk))
      · rw [alookup_aInsert_ne _ _ hc] at hk
        exact h k id hk

theorem bfsInit_nmValid {u : Universe} {L : Nat}
    (hvU : ∀ e ∈ u.byUID, e.2 < L) (st : Store) (uids : List String) :
    ∀ k id, alookup (bfsInit u st uids).nodeMap k = some (some id) → id < L := by
  have hgen : ∀ (l : List String) (p : List (String × Option Nat) × List String),
      (∀ k id, alookup p.1 k = some (some id) → id < L) →
      ∀ k id, alookup (l.foldl
        (fun (p : List (String × Option Nat) × List String) uid =>
          match alookup u.byUID uid with
          | some id => (aInsert p.1 uid (some id), p.2 ++ [uid])
          | none => p) p).1 k = some (some id) → id < L := by
    intro l
    induction l with
    | nil =>
        intro p h
        exact h
    | cons uid rest ih =>
        intro p h
        refine ih _ ?_
        cases h1 : alookup u.byUID uid with
        | some id0 =>
            simp only [h1]
            intro k id hk
            by_cases hc : uid = k
            · subst hc
              rw [alookup_aInsert_self] at hk
              have h2 := Option.some.inj (Option.some.inj hk)
              exact h2 ▸ hvU _ (alookup_mem h1)
            · rw [alookup_aInsert_ne _ _ hc] at hk
              exact h k id hk
        | none =>
            simp only [h1]
            exact h
  intro k id
  exact hgen uids ([], []) (by intro k' id' h'; simp [alookup] at h') k id

theorem bfsGo_inv (u : Universe) (dir : Bool) (L : Nat)
    (hvU : ∀ e ∈ u.byUID, e.2 < L) :
    ∀ (fuel : Nat) (s : BfsState) (nm : List (String × Option Nat)) (st' : Store),
      bfsGo u dir fuel s = some (nm, st') →
      (∀ k id, alookup s.nodeMap k = some (some id) → id < L) →
      graphEq s.store st' ∧ (∀ k id, alookup nm k = some (some id) → id < L) := by
  intro fuel
  induction fuel with
  | zero =>
      intro s nm st' h _
      exact Option.noConfusion h
  | succ fuel ih =>
      intro s nm st' h hnm
      simp only [bfsGo] at h
      split at h
      · injection h with h2
        injection h2 with ha hb
        subst ha
        subst hb
        exact ⟨graphEq_refl _, hnm⟩
      · split at h
        · injection h with h2
          injection h2 with ha hb
          subst ha
          subst hb
          exact ⟨graphEq_refl _, hnm⟩
        · next uid rest =>
            split at h
            · have hres := ih _ _ _ h (by exact hnm)
              exact hres
            · split at h
              · have hres := ih _ _ _ h (by exact hnm)
                exact hres
              · split at h
                · next id hl =>
                    have hstep := ih _ _ _ h
                      (by exact nmValid_aInsert_fold hvU _ s.nodeMap hnm)
                    have hge : graphEq s.store (setN s.store id (fun n =>
                        if n.Depth = 0 ∨ s.depth < n.Depth then
                          { n with Depth := s.depth } else n)) :=
                      graphEq_setN id _ (fun n => by
                        by_cases hc : n.Depth = 0 ∨ s.depth < n.Depth
                        · rw [if_pos hc]
                          exact ⟨⟨rfl, rfl, rfl, rfl, rfl, rfl, rfl, rfl, rfl, rfl⟩,
                            rfl, rfl⟩
                        · rw [if_neg hc]
                          exact sameGraph_refl n) (graphEq_refl s.store)
                    exact ⟨graphEq_trans hge hstep.1, hstep.2⟩
                · have hres := ih _ _ _ h (by exact hnm)
                  exact hres

/-- C1 (amended): provided the UID index maps every node's own UID back to
that node (no duplicate object UIDs and no alias shadowing), every NodeMap
a successful resolution returns is edge-bidirectional: for every pair of
mapped nodes and every relationship, the relationship sits in the first
node's Dependents edge from the second exactly when it sits in the second
node's Dependencies edge from the first. -/
theorem C1_bidirectionality_amended
    (mapper : Mapper) (objects : List K8sObject) (uids : List String)
    (dir : Bool) (fuel : Nat) (u : Universe)
    (nm : List (String × Option Nat)) (st : Store)
    (hg : graphPhase mapper objects = .ok u)
    (hrt : uidRoundTrip u)
    (h : resolveDeps mapper objects uids dir fuel = .ok nm st)
    (a b : String) (ia ib : Nat)
    (ha : alookup nm a = some (some ia)) (hb : alookup nm b = some (some ib))
    (r : Relationship) :
    r ∈ dependentsOf st ia (getN st ib).UID ↔
      r ∈ dependenciesOf st ib (getN st ia).UID := by
  unfold resolveDeps at h
  by_cases hne : uids = []
  · rw [if_pos hne] at h
    injection h with h1 h2
    subst h1
    simp [alookup] at ha
  · rw [if_neg hne, hg] at h
    have h' : (match bfsGo u dir fuel (bfsInit u u.store uids) with
        | none => ResolveResult.outOfFuel
        | some (nm, st) => ResolveResult.ok nm st) = ResolveResult.ok nm st := h
    cases hbfs : bfsGo u dir fuel (bfsInit u u.store uids) with
    | none =>
        rw [hbfs] at h'
        exact ResolveResult.noConfusion h'
    | some p =>
        obtain ⟨nm2, st2⟩ := p
        rw [hbfs] at h'
        injection h' with h1 h2
        subst h1
        subst h2
        obtain ⟨hbidir, hvU⟩ := graphPhase_bidir mapper objects u hg hrt
        have hinit := bfsInit_nmValid hvU u.store uids
        obtain ⟨hge, hnmv⟩ := bfsGo_inv u dir u.store.length hvU fuel _ _ _ hbfs hinit
        have hge' : graphEq u.store st2 := hge
        have hia : ia < u.store.length := hnmv a ia ha
        have hib : ib < u.store.length := hnmv b ib hb
        rw [dependentsOf_graphEq hge', dependenciesOf_graphEq hge',
          (hge'.2 ib).1.2.1, (hge'.2 ia).1.2.1]
        exact hbidir ia ib hia hib r

/-- Witness for the amended C1: in the Deployment/ReplicaSet owner
scenario the round-trip hypothesis holds and the owner edge is recorded in
both halves. -/
theorem C1_bidirectionality_amended_witness :
    (graphPhase testMapper [w1Deploy, w1Rs] = .ok w1U ∧
     resolveDeps testMapper [w1Deploy, w1Rs] ["d1"] false 10 =
       .ok w1Run.nodeMapOf w1Run.storeOf ∧
     alookup w1Run.nodeMapOf "d1" = some (some 0) ∧
     alookup w1Run.nodeMapOf "rs1" = some (some 1)) ∧
    (RelationshipOwnerRef ∈ dependentsOf w1Run.storeOf 0
        (getN w1Run.storeOf 1).UID ↔
     RelationshipOwnerRef ∈ dependenciesOf w1Run.storeOf 1
        (getN w1Run.storeOf 0).UID) :=
  ⟨⟨by rfl, by decide, by decide, by decide⟩,
   C1_bidirectionality_amended testMapper [w1Deploy, w1Rs] ["d1"] false 10 w1U
     w1Run.nodeMapOf w1Run.storeOf (by rfl)
     (by
       show ∀ i, i < w1U.store.length →
         alookup w1U.byUID (getN w1U.store i).UID = some i
       decide)
     (by decide) "d1" "rs1" 0 1 (by decide) (by decide) RelationshipOwnerRef⟩


theorem contains_mem {l : List String} {a : String} (h : l.contains a = true) : a ∈ l :=
  List.mem_of_elem_eq_true h

theorem mem_contains {l : List String} {a : String} (h : a ∈ l) : l.contains a = true :=
  List.elem_eq_true_of_mem h

theorem byUID_inj_keys {u : Universe} (hinj : (u.byUID.map (fun e => e.2)).Nodup)
    {k1 k2 : String} {i : Nat} (h1 : alookup u.byUID k1 = some i)
    (h2 : alookup u.byUID k2 = some i) : k1 = k2 := by
  have hm1 := alookup_mem h1
  have hm2 := alookup_mem h2
  have h3 := List.inj_on_of_nodup_map hinj hm1 hm2 rfl
  exact congrArg Prod.fst h3

theorem GetDeps_sameGraph {n n' : NodeData} (h : sameGraph n n') (dir : Bool) :
    n'.GetDeps dir = n.GetDeps dir := by
  unfold NodeData.GetDeps
  cases dir
  · simp [h.2.2]
  · simp [h.2.1]

theorem GetDeps_depth_update (n : NodeData) (d : Nat) (dir : Bool) :
    ((if n.Depth = 0 ∨ d < n.Depth then { n with Depth := d } else n) : NodeData).GetDeps dir
      = n.GetDeps dir := by
  by_cases hc : n.Depth = 0 ∨ d < n.Depth
  · rw [if_pos hc]
    rfl
  · rw [if_neg hc]

theorem alookup_aInsert {α : Type} (l : List (String × α)) (k : String) (v : α)
    (k' : String) :
    alookup (aInsert l k v) k' = if k = k' then some v else alookup l k' := by
  by_cases h : k = k'
  · subst h
    rw [if_pos rfl, alookup_aInsert_self]
  · rw [if_neg h, alookup_aInsert_ne _ _ h]

theorem alookup_foldl_aInsertU (u : Universe) :
    ∀ (dus : List String) (nm : List (String × Option Nat)) (w : String),
      alookup (dus.foldl (fun nm du => aInsert nm du (alookup u.byUID du)) nm) w =
        if w ∈ dus then some (alookup u.byUID w) else alookup nm w := by
  intro dus
  induction dus with
  | nil =>
      intro nm w
      simp
  | cons du rest ih =>
      intro nm w
      rw [List.foldl_cons, ih]
      by_cases h1 : w ∈ rest
      · rw [if_pos h1, if_pos (List.mem_cons_of_mem _ h1)]
      · rw [if_neg h1, alookup_aInsert]
        by_cases h2 : du = w
        · subst h2
          rw [if_pos rfl, if_pos (List.mem_cons_self _ _)]
        · rw [if_neg h2, if_neg (by
            intro hmem
            rcases List.mem_cons.mp hmem with h3 | h3
            · exact h2 h3.symm
            · exact h1 h3)]

theorem bfsInit_fold_snd (u : Universe) :
    ∀ (l : List String) (p : List (String × Option Nat) × List String),
      (l.foldl (fun (p : List (String × Option Nat) × List String) uid =>
          match alookup u.byUID uid with
          | some id => (aInsert p.1 uid (some id), p.2 ++ [uid])
          | none => p) p).2 =
        p.2 ++ l.filter (fun uid => (alookup u.byUID uid).isSome) := by
  intro l
  induction l with
  | nil =>
      intro p
      simp
  | cons uid rest ih =>
      intro p
      rw [List.foldl_cons]
      cases h1 : alookup u.byUID uid with
      | some id =>
          simp only [h1]
          rw [ih]
          simp [List.filter_cons, h1, List.append_assoc]
      | none =>
          simp only [h1]
          rw [ih]
          simp [List.filter_cons, h1]

theorem bfsInit_fold_fst (u : Universe) :
    ∀ (l : List String) (p : List (String × Option Nat) × List String) (w : String),
      alookup (l.foldl (fun (p : List (String × Option Nat) × List String) uid =>
          match alookup u.byUID uid with
          | some id => (aInsert p.1 uid (some id), p.2 ++ [uid])
          | none => p) p).1 w =
        if w ∈ l ∧ (alookup u.byUID w).isSome = true then
          some (alookup u.byUID w) else alookup p.1 w := by
  intro l
  induction l with
  | nil =>
      intro p w
      simp
  | cons uid rest ih =>
      intro p w
      rw [List.foldl_cons]
      cases h1 : alookup u.byUID uid with
      | some id =>
          simp only [h1]
          rw [ih]
          by_cases h2 : w ∈ rest ∧ (alookup u.byUID w).isSome = true
          · rw [if_pos h2, if_pos ⟨List.mem_cons_of_mem _ h2.1, h2.2⟩]
          · rw [if_neg h2, alookup_aInsert]
            by_cases h3 : uid = w
            · subst h3
              rw [if_pos rfl, if_pos ⟨List.mem_cons_self _ _, by rw [h1]; rfl⟩, h1]
            · rw [if_neg h3, if_neg (by
                rintro ⟨hmem, hsome⟩
                rcases List.mem_cons.mp hmem with h4 | h4
                · exact h3 h4.symm
                · exact h2 ⟨h4, hsome⟩)]
      | none =>
          simp only [h1]
          rw [ih]
          by_cases h2 : w ∈ rest ∧ (alookup u.byUID w).isSome = true
          · rw [if_pos h2, if_pos ⟨List.mem_cons_of_mem _ h2.1, h2.2⟩]
          · rw [if_neg h2, if_neg (by
              rintro ⟨hmem, hsome⟩
              rcases List.mem_cons.mp hmem with h4 | h4
              · rw [h4, h1] at hsome
                exact Bool.noConfusion hsome
              · exact h2 ⟨h4, hsome⟩)]

theorem bfsInit_queue (u : Universe) (st : Store) (uids : List String) :
    (bfsInit u st uids).queue = rootsIn u uids ++ [""] :=
  congrArg (fun l => l ++ [""]) (bfsInit_fold_snd u uids ([], []))

theorem bfsInit_nodeMap (u : Universe) (st : Store) (uids : List String) (w : String) :
    alookup (bfsInit u st uids).nodeMap w =
      if w ∈ rootsIn u uids then some (alookup u.byUID w) else none := by
  have h2 : alookup (bfsInit u st uids).nodeMap w =
      if w ∈ uids ∧ (alookup u.byUID w).isSome = true then
        some (alookup u.byUID w) else none :=
    bfsInit_fold_fst u uids ([], []) w
  rw [h2]
  by_cases hc : w ∈ rootsIn u uids
  · have h3 := List.mem_filter.mp hc
    rw [if_pos hc, if_pos ⟨h3.1, h3.2⟩]
  · rw [if_neg hc, if_neg (fun hcc => hc (List.mem_filter.mpr ⟨hcc.1, hcc.2⟩))]

theorem bfsGo_le_eq (u : Universe) (dir : Bool) (fuel : Nat)
    (st : Store) (nm : List (String × Option Nat)) (q : List String)
    (us : List String) (d : Nat) (hlen : q.length ≤ 1) :
    bfsGo u dir (fuel + 1) ⟨st, nm, q, us, d⟩ = some (nm, st) := by
  simp only [bfsGo]
  rw [if_pos hlen]

theorem bfsGo_cons_eq (u : Universe) (dir : Bool) (fuel : Nat)
    (st : Store) (nm : List (String × Option Nat)) (uid : String) (rest : List String)
    (us : List String) (d : Nat) (hlen : ¬ (uid :: rest).length ≤ 1) :
    bfsGo u dir (fuel + 1) ⟨st, nm, uid :: rest, us, d⟩ =
      (if uid = "" then
        bfsGo u dir fuel ⟨st, nm, rest ++ [""], us, d + 1⟩
      else if us.contains uid then
        bfsGo u dir fuel ⟨st, nm, rest, us, d⟩
      else
        match alookup nm uid with
        | some (some id) =>
            bfsGo u dir fuel
              ⟨st.set id (if (getN st id).Depth = 0 ∨ d < (getN st id).Depth then { getN st id with Depth := d } else getN st id),
                (((((if (getN st id).Depth = 0 ∨ d < (getN st id).Depth then { getN st id with Depth := d } else getN st id) : NodeData).GetDeps dir).map (fun e => e.1))).foldl
                  (fun nm du => aInsert nm du (alookup u.byUID du)) nm,
                rest ++ ((((if (getN st id).Depth = 0 ∨ d < (getN st id).Depth then { getN st id with Depth := d } else getN st id) : NodeData).GetDeps dir).map (fun e => e.1)),
                uid :: us, d⟩
        | _ => bfsGo u dir fuel ⟨st, nm, uid :: rest, uid :: us, d⟩) := by
  simp only [bfsGo]
  rw [if_neg hlen]

theorem bfsGo_two_sentinels (u : Universe) (dir : Bool) :
    ∀ (fuel : Nat) (s : BfsState), 2 ≤ s.queue.count "" →
      bfsGo u dir fuel s = none := by
  intro fuel
  induction fuel with
  | zero =>
      intro s _
      rfl
  | succ fuel ih =>
      intro s hcnt
      obtain ⟨sst, snm, sq, sus, sd⟩ := s
      have hcnt2 : 2 ≤ sq.count "" := hcnt
      have hlen : ¬ sq.length ≤ 1 := by
        have h1 := List.count_le_length "" sq
        omega
      cases sq with
      | nil => simp at hcnt2
      | cons uid rest =>
          rw [bfsGo_cons_eq u dir fuel sst snm uid rest sus sd hlen]
          by_cases hu : uid = ""
          · rw [if_pos hu]
            apply ih
            show 2 ≤ (rest ++ [""]).count ""
            subst hu
            rw [List.count_cons_self] at hcnt2
            have h6 : (rest ++ [""]).count "" = rest.count "" + 1 := by
              rw [List.count_append, List.count_singleton_self]
            omega
          · rw [if_neg hu]
            have hcr : 2 ≤ rest.count "" := by
              rw [List.count_cons] at hcnt2
              have hne : (uid == "") = false := by simp [hu]
              rw [hne] at hcnt2
              simpa using hcnt2
            by_cases hvis : sus.contains uid
            · rw [if_pos hvis]
              exact ih _ hcr
            · rw [if_neg hvis]
              cases hlk : alookup snm uid with
              | none =>
                  exact ih _ hcnt2
              | some v =>
                  cases v with
                  | none =>
                      exact ih _ hcnt2
                  | some id =>
                      apply ih
                      have hmono : ∀ (l1 l2 : List String),
                          2 ≤ l1.count "" → 2 ≤ (l1 ++ l2).count "" := by
                        intro l1 l2 hl
                        rw [List.count_append]
                        omega
                      exact hmono rest _ hcr

theorem bfsGo_some_count {u : Universe} {dir : Bool} {fuel : Nat} {s : BfsState}
    {res : List (String × Option Nat) × Store}
    (h : bfsGo u dir fuel s = some res) : s.queue.count "" < 2 := by
  by_contra hc
  rw [bfsGo_two_sentinels u dir fuel s (Nat.le_of_not_lt hc)] at h
  exact Option.noConfusion h

theorem bfsGo_depth (u : Universe) (dir : Bool)
    (hinj : (u.byUID.map (fun e => e.2)).Nodup)
    (hvU : ∀ e ∈ u.byUID, e.2 < u.store.length)
    (roots : List String) :
    ∀ (fuel : Nat) (sst : Store) (snm : List (String × Option Nat))
      (A B sus : List String) (sd : Nat)
      (nm : List (String × Option Nat)) (st' : Store),
      bfsGo u dir fuel ⟨sst, snm, A ++ "" :: B, sus, sd⟩ = some (nm, st') →
      ¬ "" ∈ A → ¬ "" ∈ B →
      (∀ w, w ∈ reachList u u.store dir roots sd → w ∈ sus ∨ w ∈ A) →
      (∀ k, k < sd → ∀ w, w ∈ reachList u u.store dir roots k → w ∈ sus) →
      (∀ v, v ∈ sus → ∀ w, w ∈ succUID u u.store dir v →
        w ∈ sus ∨ w ∈ A ∨ w ∈ B) →
      (∀ w v, alookup snm w = some v →
        (w ∈ sus ∨ w ∈ A ∨ w ∈ B) ∧ v = alookup u.byUID w) →
      (∀ w, w ∈ A ∨ w ∈ B → (alookup snm w).isSome = true) →
      (∀ w, w ∈ sus → ∀ id, alookup u.byUID w = some id →
        ∀ k, w ∈ reachList u u.store dir roots k → (getN sst id).Depth ≤ k) →
      graphEq u.store sst →
      ∀ w id, alookup nm w = some (some id) →
        ∀ k, w ∈ reachList u u.store dir roots k → (getN st' id).Depth ≤ k := by
  intro fuel
  induction fuel with
  | zero =>
      intro sst snm A B sus sd nm st' h
      exact fun _ _ _ _ _ _ _ _ _ => Option.noConfusion h
  | succ fuel ih =>
      intro sst snm A B sus sd nm st' h hA hB I4 I9 I10 I11 I5 I7 hge
      cases A with
      | nil =>
          rw [List.nil_append] at h
          by_cases hB0 : B = []
          · subst hB0
            rw [bfsGo_le_eq u dir fuel sst snm [""] sus sd (by simp)] at h
            injection h with h2
            injection h2 with hma hmb
            subst hma
            subst hmb
            intro w id hw k hk
            obtain ⟨hm, hval⟩ := I11 w (some id) hw
            have hbyid : alookup u.byUID w = some id := hval.symm
            rcases hm with h3 | h3 | h3
            · exact I7 w h3 id hbyid k hk
            · exact absurd h3 (List.not_mem_nil w)
            · exact absurd h3 (List.not_mem_nil w)
          · have hlen : ¬ (("" :: B).length ≤ 1) := by
              cases B with
              | nil => exact absurd rfl hB0
              | cons b bs => simp
            rw [bfsGo_cons_eq u dir fuel sst snm "" B sus sd hlen, if_pos rfl] at h
            refine ih sst snm B [] sus (sd + 1) nm st' h hB (by simp) ?_ ?_ ?_ ?_ ?_ ?_ hge
            · intro w hw
              have hw2 : w ∈ reachList u u.store dir roots sd ++
                  (reachList u u.store dir roots sd).flatMap (succUID u u.store dir) := hw
              rcases List.mem_append.mp hw2 with h1 | h1
              · rcases I4 w h1 with h2 | h2
                · exact Or.inl h2
                · exact absurd h2 (List.not_mem_nil w)
              · obtain ⟨v, hv, hwv⟩ := List.mem_flatMap.mp h1
                have hvset : v ∈ sus := by
                  rcases I4 v hv with h2 | h2
                  · exact h2
                  · exact absurd h2 (List.not_mem_nil v)
                rcases I10 v hvset w hwv with h2 | h2 | h2
                · exact Or.inl h2
                · exact absurd h2 (List.not_mem_nil w)
                · exact Or.inr h2
            · intro k hk w hw
              by_cases hk2 : k < sd
              · exact I9 k hk2 w hw
              · have hkeq : k = sd := by omega
                subst hkeq
                rcases I4 w hw with h2 | h2
                · exact h2
                · exact absurd h2 (List.not_mem_nil w)
            · intro v hv w hw
              rcases I10 v hv w hw with h2 | h2 | h2
              · exact Or.inl h2
              · exact absurd h2 (List.not_mem_nil w)
              · exact Or.inr (Or.inl h2)
            · intro w v hwv
              obtain ⟨hm, hval⟩ := I11 w v hwv
              refine ⟨?_, hval⟩
              rcases hm with h2 | h2 | h2
              · exact Or.inl h2
              · exact absurd h2 (List.not_mem_nil w)
              · exact Or.inr (Or.inl h2)
            · intro w hw
              rcases hw with h2 | h2
              · exact I5 w (Or.inr h2)
              · exact absurd h2 (List.not_mem_nil w)
            · exact I7
      | cons a A2 =>
          have ha : a ≠ "" := fun hc => hA (List.mem_cons.mpr (Or.inl hc.symm))
          rw [List.cons_append] at h
          have hlen : ¬ ((a :: (A2 ++ "" :: B)).length ≤ 1) := by
            simp only [List.length_cons, List.length_append]
            omega
          rw [bfsGo_cons_eq u dir fuel sst snm a (A2 ++ "" :: B) sus sd hlen,
            if_neg ha] at h
          by_cases hvis : sus.contains a
          · rw [if_pos hvis] at h
            have hmem : a ∈ sus := contains_mem hvis
            refine ih sst snm A2 B sus sd nm st' h
              (fun hc => hA (List.mem_cons_of_mem _ hc)) hB ?_ I9 ?_ ?_ ?_ I7 hge
            · intro w hw
              rcases I4 w hw with h2 | h2
              · exact Or.inl h2
              · rcases List.mem_cons.mp h2 with h3 | h3
                · exact Or.inl (by rw [h3]; exact hmem)
                · exact Or.inr h3
            · intro v hv w hw
              rcases I10 v hv w hw with h2 | h2 | h2
              · exact Or.inl h2
              · rcases List.mem_cons.mp h2 with h3 | h3
                · exact Or.inl (by rw [h3]; exact hmem)
                · exact Or.inr (Or.inl h3)
              · exact Or.inr (Or.inr h2)
            · intro w v hwv
              obtain ⟨hm, hval⟩ := I11 w v hwv
              refine ⟨?_, hval⟩
              rcases hm with h2 | h2 | h2
              · exact Or.inl h2
              · rcases List.mem_cons.mp h2 with h3 | h3
                · exact Or.inl (by rw [h3]; exact hmem)
                · exact Or.inr (Or.inl h3)
              · exact Or.inr (Or.inr h2)
            · intro w hw
              rcases hw with h2 | h2
              · exact I5 w (Or.inl (List.mem_cons_of_mem _ h2))
              · exact I5 w (Or.inr h2)
          · rw [if_neg hvis] at h
            have hnvis : ¬ a ∈ sus := fun hc => hvis (mem_contains hc)
            cases hlk : alookup snm a with
            | none =>
                have h5 := I5 a (Or.inl (List.mem_cons_self _ _))
                rw [hlk] at h5
                exact absurd h5 (by simp)
            | some v0 =>
                cases v0 with
                | none =>
                    rw [hlk] at h
                    have hbyU : alookup u.byUID a = none := (I11 a none hlk).2.symm
                    refine ih sst snm (a :: A2) B (a :: sus) sd nm st' h hA hB
                      ?_ ?_ ?_ ?_ ?_ ?_ hge
                    · intro w hw
                      rcases I4 w hw with h2 | h2
                      · exact Or.inl (List.mem_cons_of_mem _ h2)
                      · exact Or.inr h2
                    · intro k hk w hw
                      exact List.mem_cons_of_mem _ (I9 k hk w hw)
                    · intro v hv w hw
                      rcases List.mem_cons.mp hv with h3 | h3
                      · have hw2 : w ∈ succUID u u.store dir a := by
                          rw [← h3]
                          exact hw
                        unfold succUID at hw2
                        rw [hbyU] at hw2
                        exact absurd hw2 (List.not_mem_nil w)
                      · rcases I10 v h3 w hw with h4 | h4 | h4
                        · exact Or.inl (List.mem_cons_of_mem _ h4)
                        · exact Or.inr (Or.inl h4)
                        · exact Or.inr (Or.inr h4)
                    · intro w v hwv
                      obtain ⟨hm, hval2⟩ := I11 w v hwv
                      refine ⟨?_, hval2⟩
                      rcases hm with h2 | h2 | h2
                      · exact Or.inl (List.mem_cons_of_mem _ h2)
                      · exact Or.inr (Or.inl h2)
                      · exact Or.inr (Or.inr h2)
                    · intro w hw
                      exact I5 w hw
                    · intro w hw idw hidw k hk
                      rcases List.mem_cons.mp hw with h3 | h3
                      · rw [h3, hbyU] at hidw
                        exact Option.noConfusion hidw
                      · exact I7 w h3 idw hidw k hk
                | some id =>
                    rw [hlk] at h
                    have hbyUID : alookup u.byUID a = some id := (I11 a (some id) hlk).2.symm
                    have hidlt : id < u.store.length := hvU _ (alookup_mem hbyUID)
                    have hidlt2 : id < sst.length := by
                      rw [hge.1]
                      exact hidlt
                    have h2 : bfsGo u dir fuel
                        ⟨sst.set id (if (getN sst id).Depth = 0 ∨ sd < (getN sst id).Depth then { getN sst id with Depth := sd } else getN sst id),
                          ((((if (getN sst id).Depth = 0 ∨ sd < (getN sst id).Depth then { getN sst id with Depth := sd } else getN sst id) : NodeData).GetDeps dir).map (fun e => e.1)).foldl
                            (fun nm du => aInsert nm du (alookup u.byUID du)) snm,
                          (A2 ++ "" :: B) ++
                            (((if (getN sst id).Depth = 0 ∨ sd < (getN sst id).Depth then { getN sst id with Depth := sd } else getN sst id) : NodeData).GetDeps dir).map (fun e => e.1),
                          a :: sus, sd⟩ = some (nm, st') := h
                    have hdeq : (((if (getN sst id).Depth = 0 ∨ sd < (getN sst id).Depth then { getN sst id with Depth := sd } else getN sst id) : NodeData)).GetDeps dir =
                        (getN u.store id).GetDeps dir := by
                      rw [GetDeps_depth_update]
                      exact GetDeps_sameGraph (hge.2 id) dir
                    have hsucc : succUID u u.store dir a =
                        (((if (getN sst id).Depth = 0 ∨ sd < (getN sst id).Depth then { getN sst id with Depth := sd } else getN sst id) : NodeData).GetDeps dir).map (fun e => e.1) := by
                      unfold succUID
                      rw [hbyUID]
                      show ((getN u.store id).GetDeps dir).map (fun e => e.1) = _
                      rw [hdeq]
                    rw [← hsucc, List.append_assoc] at h2
                    by_cases hdu : "" ∈ succUID u u.store dir a
                    · have hcnt : 2 ≤ ((A2 ++ ("" :: B ++ succUID u u.store dir a)).count "") := by
                        rw [List.count_append, List.count_append, List.count_cons_self]
                        have h3 := List.count_pos_iff_mem.mpr hdu
                        omega
                      exact absurd (bfsGo_some_count h2) (Nat.not_lt.mpr hcnt)
                    · generalize hND : ((if (getN sst id).Depth = 0 ∨ sd < (getN sst id).Depth then { getN sst id with Depth := sd } else getN sst id) : NodeData) = ND at h2
                      have hndd : ND.Depth ≤ sd := by
                        rw [← hND]
                        by_cases hc : (getN sst id).Depth = 0 ∨ sd < (getN sst id).Depth
                        · rw [if_pos hc]
                        · rw [if_neg hc]
                          omega
                      have hgeNew : graphEq u.store (sst.set id ND) := by
                        rw [← hND]
                        exact graphEq_setN id (fun n =>
                          if n.Depth = 0 ∨ sd < n.Depth then { n with Depth := sd } else n)
                          (fun n => by
                            show sameGraph n
                              (if n.Depth = 0 ∨ sd < n.Depth then { n with Depth := sd } else n)
                            by_cases hc : n.Depth = 0 ∨ sd < n.Depth
                            · rw [if_pos hc]
                              exact ⟨⟨rfl, rfl, rfl, rfl, rfl, rfl, rfl, rfl, rfl, rfl⟩,
                                rfl, rfl⟩
                            · rw [if_neg hc]
                              exact sameGraph_refl n) hge
                      refine ih (sst.set id ND)
                        ((succUID u u.store dir a).foldl
                          (fun nm du => aInsert nm du (alookup u.byUID du)) snm)
                        A2 (B ++ succUID u u.store dir a) (a :: sus) sd nm st' h2
                        (fun hc => hA (List.mem_cons_of_mem _ hc))
                        ?_ ?_ ?_ ?_ ?_ ?_ ?_ hgeNew
                      · intro hc
                        rcases List.mem_append.mp hc with h3 | h3
                        · exact hB h3
                        · exact hdu h3
                      · intro w hw
                        rcases I4 w hw with h3 | h3
                        · exact Or.inl (List.mem_cons_of_mem _ h3)
                        · rcases List.mem_cons.mp h3 with h4 | h4
                          · exact Or.inl (by rw [h4]; exact List.mem_cons_self _ _)
                          · exact Or.inr h4
                      · intro k hk w hw
                        exact List.mem_cons_of_mem _ (I9 k hk w hw)
                      · intro v hv w hw
                        rcases List.mem_cons.mp hv with h3 | h3
                        · have hw2 : w ∈ succUID u u.store dir a := by
                            rw [← h3]
                            exact hw
                          exact Or.inr (Or.inr (List.mem_append.mpr (Or.inr hw2)))
                        · rcases I10 v h3 w hw with h4 | h4 | h4
                          · exact Or.inl (List.mem_cons_of_mem _ h4)
                          · rcases List.mem_cons.mp h4 with h5 | h5
                            · exact Or.inl (by rw [h5]; exact List.mem_cons_self _ _)
                            · exact Or.inr (Or.inl h5)
                          · exact Or.inr (Or.inr (List.mem_append.mpr (Or.inl h4)))
                      · intro w v hwv
                        have hwv2 : alookup ((succUID u u.store dir a).foldl
                            (fun nm du => aInsert nm du (alookup u.byUID du)) snm) w
                            = some v := hwv
                        rw [alookup_foldl_aInsertU] at hwv2
                        by_cases hwD : w ∈ succUID u u.store dir a
                        · rw [if_pos hwD] at hwv2
                          exact ⟨Or.inr (Or.inr (List.mem_append.mpr (Or.inr hwD))),
                            (Option.some.inj hwv2).symm⟩
                        · rw [if_neg hwD] at hwv2
                          obtain ⟨hm, hval2⟩ := I11 w v hwv2
                          refine ⟨?_, hval2⟩
                          rcases hm with h3 | h3 | h3
                          · exact Or.inl (List.mem_cons_of_mem _ h3)
                          · rcases List.mem_cons.mp h3 with h4 | h4
                            · exact Or.inl (by rw [h4]; exact List.mem_cons_self _ _)
                            · exact Or.inr (Or.inl h4)
                          · exact Or.inr (Or.inr (List.mem_append.mpr (Or.inl h3)))
                      · intro w hw
                        show (alookup ((succUID u u.store dir a).foldl
                          (fun nm du => aInsert nm du (alookup u.byUID du)) snm) w).isSome
                          = true
                        rw [alookup_foldl_aInsertU]
                        by_cases hwD : w ∈ succUID u u.store dir a
                        · rw [if_pos hwD]
                          rfl
                        · rw [if_neg hwD]
                          apply I5
                          rcases hw with h3 | h3
                          · exact Or.inl (List.mem_cons_of_mem _ h3)
                          · rcases List.mem_append.mp h3 with h4 | h4
                            · exact Or.inr h4
                            · exact absurd h4 hwD
                      · intro w hw idw hidw k hk
                        show (getN (sst.set id ND) idw).Depth ≤ k
                        rcases List.mem_cons.mp hw with h3 | h3
                        · have hid2 : id = idw := by
                            rw [h3] at hidw
                            exact Option.some.inj (hbyUID.symm.trans hidw)
                          subst hid2
                          rw [getN_set_self _ hidlt2]
                          have hkd : sd ≤ k := by
                            by_contra hlt
                            push_neg at hlt
                            have h4 := I9 k hlt w hk
                            rw [h3] at h4
                            exact hnvis h4
                          omega
                        · have hwa : w ≠ a := fun hc => hnvis (by rw [← hc]; exact h3)
                          have hidne : id ≠ idw := by
                            intro hc
                            apply hwa
                            refine byUID_inj_keys hinj hidw ?_
                            rw [hc] at hbyUID
                            exact hbyUID
                          rw [getN_set_ne _ hidne]
                          exact I7 w h3 idw hidw k hk

theorem graphPhase_byUID_lt (mapper : Mapper) (objects : List K8sObject) (u : Universe)
    (h : graphPhase mapper objects = .ok u) :
    ∀ e ∈ u.byUID, e.2 < u.store.length := by
  obtain ⟨u0, hb, hby, hkey, hst⟩ := graphPhase_parts mapper objects u h
  obtain ⟨hvU, hvK, hzero⟩ := buildUniverse_inv mapper objects u0 hb
  have hPse : ∀ st x y r, staticEq u0.store st →
      staticEq u0.store (addDepPair st x y r) :=
    fun st x y r hh => staticEq_addDepPair x y r hh
  have hse : staticEq u0.store u.store := by
    rw [hst]
    exact extractorPassGo_preserve hPse u0 u0.byUID _
      (ownerPassGo_preserve hPse u0 u0.byUID u0.store (staticEq_refl u0.store))
  intro e he
  rw [hby] at he
  rw [hse.1]
  exact hvU e he

/-- C8 (amended): provided the UID index is injective (no two index keys,
such as a Node's own UID and its name or hostname alias, point to the same
node), every node a successful resolution returns has Depth bounded by the
length of every root-to-node path in the chosen direction — hence by the
shortest such length; in particular roots keep Depth 0 and a node reached
along several paths keeps the minimum. -/
theorem C8_depth_monotone_amended
    (mapper : Mapper) (objects : List K8sObject) (uids : List String)
    (dir : Bool) (fuel : Nat) (u : Universe)
    (nm : List (String × Option Nat)) (st : Store)
    (hg : graphPhase mapper objects = .ok u)
    (hinj : uidInjCheck u = true)
    (h : resolveDeps mapper objects uids dir fuel = .ok nm st)
    (w : String) (id : Nat) (hw : alookup nm w = some (some id))
    (k : Nat) (hreach : w ∈ reachList u u.store dir (rootsIn u uids) k) :
    (getN st id).Depth ≤ k := by
  have hinj2 : (u.byUID.map (fun e => e.2)).Nodup := of_decide_eq_true hinj
  have hvU := graphPhase_byUID_lt mapper objects u hg
  unfold resolveDeps at h
  by_cases hne : uids = []
  · rw [if_pos hne] at h
    injection h with h1 h2
    subst h1
    simp [alookup] at hw
  · rw [if_neg hne, hg] at h
    have h2 : (match bfsGo u dir fuel (bfsInit u u.store uids) with
        | none => ResolveResult.outOfFuel
        | some (nm, st) => ResolveResult.ok nm st) = ResolveResult.ok nm st := h
    cases hbfs : bfsGo u dir fuel (bfsInit u u.store uids) with
    | none =>
        rw [hbfs] at h2
        exact ResolveResult.noConfusion h2
    | some p =>
        obtain ⟨nm2, st2⟩ := p
        rw [hbfs] at h2
        injection h2 with h3 h4
        subst h3
        subst h4
        by_cases hroot : "" ∈ rootsIn u uids
        · have hcnt : 2 ≤ ((bfsInit u u.store uids).queue.count "") := by
            rw [bfsInit_queue, List.count_append]
            have h5 := List.count_pos_iff_mem.mpr hroot
            have h6 : (([""] : List String).count "") = 1 := List.count_singleton_self ""
            omega
          exact absurd (bfsGo_some_count hbfs) (Nat.not_lt.mpr hcnt)
        · have hqinit : (bfsInit u u.store uids).queue = rootsIn u uids ++ "" :: [] :=
            bfsInit_queue u u.store uids
          have hbfs2 : bfsGo u dir fuel
              ⟨u.store, (bfsInit u u.store uids).nodeMap,
                rootsIn u uids ++ "" :: [], [], 0⟩ = some (nm2, st2) := by
            rw [← hqinit]
            exact hbfs
          refine bfsGo_depth u dir hinj2 hvU (rootsIn u uids) fuel
            u.store (bfsInit u u.store uids).nodeMap
            (rootsIn u uids) [] [] 0 nm2 st2 hbfs2 hroot (by simp)
            ?_ ?_ ?_ ?_ ?_ ?_ (graphEq_refl u.store) w id hw k hreach
          · intro w2 hw2
            exact Or.inr hw2
          · intro k2 hk2
            exact absurd hk2 (Nat.not_lt_zero k2)
          · intro v hv
            exact absurd hv (List.not_mem_nil v)
          · intro w2 v hv
            rw [bfsInit_nodeMap] at hv
            by_cases hc : w2 ∈ rootsIn u uids
            · rw [if_pos hc] at hv
              exact ⟨Or.inr (Or.inl hc), (Option.some.inj hv).symm⟩
            · rw [if_neg hc] at hv
              exact Option.noConfusion hv
          · intro w2 hw2
            rw [bfsInit_nodeMap]
            rcases hw2 with h5 | h5
            · rw [if_pos h5]
              rfl
            · exact absurd h5 (List.not_mem_nil w2)
          · intro w2 hw2
            exact absurd hw2 (List.not_mem_nil w2)

/-- Witness for the amended C8: in the Deployment/ReplicaSet owner scenario
the UID index is injective, the ReplicaSet is reachable from the root in
one step, and its recorded Depth is at most 1. -/
theorem C8_depth_monotone_amended_witness :
    (graphPhase testMapper [w1Deploy, w1Rs] = .ok w1U ∧
     uidInjCheck w1U = true ∧
     resolveDeps testMapper [w1Deploy, w1Rs] ["d1"] false 10 =
       .ok w1Run.nodeMapOf w1Run.storeOf ∧
     alookup w1Run.nodeMapOf "rs1" = some (some 1) ∧
     "rs1" ∈ reachList w1U w1U.store false (rootsIn w1U ["d1"]) 1) ∧
    (getN w1Run.storeOf 1).Depth ≤ 1 :=
  ⟨⟨by rfl, by decide, by decide, by decide, by decide⟩,
   C8_depth_monotone_amended testMapper [w1Deploy, w1Rs] ["d1"] false 10 w1U
     w1Run.nodeMapOf w1Run.storeOf (by rfl) (by decide) (by decide)
     "rs1" 1 (by decide) 1 (by decide)⟩

end KubeLineage
